import Mathlib

/-!
The buffer manager of the RGA driver (rga_mm.c)

A shallow embedding of `kernel/drivers/video/rockchip/rga3/rga_mm.c`.

* Pointers to `struct rga_internal_buffer` are represented by the handle of the
  object they point to; the IDR is the list of live objects in ascending id
  order, the id of an object being its `handle` field (the only id it is ever
  stored under).
* What the kernel primitives called by the file return (dma-buf attach/map,
  page pinning, page-table walk, allocators, image-size helpers) is handed to
  each call in an environment record, one field per primitive.
* Machine integers are `Nat`/`Int`; narrowing conversions the code performs are
  written out with `%`.
* Reading through a NULL pointer is a kernel fault in C.  The accessors below
  return the zero value there; every evaluation used in this file stays on
  paths without such a read.
* Allocation orders (`pages_order`, `order`) are bookkeeping for `free_pages`
  and are left out.
-/

namespace RgaMm

/-! ## Constants of the headers -/

/-- The errno value ENOENT. -/
def ENOENT : Int := 2
/-- The errno value ENOMEM. -/
def ENOMEM : Int := 12
/-- The errno value EFAULT. -/
def EFAULT : Int := 14
/-- The errno value EINVAL. -/
def EINVAL : Int := 22
/-- Error code of the manual page-table walk (rga.h). -/
def RGA_OUT_OF_RESOURCES : Int := -10

/-- Page geometry of the target (4 KiB pages). -/
def PAGE_SHIFT : Nat := 12
/-- Bytes per page. -/
def PAGE_SIZE : Nat := 2 ^ PAGE_SHIFT

/-- Core identifiers of rga_drv.h: one bit per engine, 0 meaning no core. -/
def RGA3_SCHEDULER_CORE0 : Nat := 1
/-- Second full-translation engine. -/
def RGA3_SCHEDULER_CORE1 : Nat := 2
/-- The physical-only engine. -/
def RGA2_SCHEDULER_CORE0 : Nat := 4

/-- Flag bits of rga_mm.h (`enum rga_memory_flag`). -/
def RGA_MEM_NEED_USE_IOMMU : Nat := 1
/-- The buffer is one physically contiguous run. -/
def RGA_MEM_PHYSICAL_CONTIGUOUS : Nat := 2
/-- Every segment of the buffer lies below 4 GiB. -/
def RGA_MEM_UNDER_4G : Nat := 4

/-- Render mode that sends the pattern channel to the lookup-table slot (rga.h). -/
def UPDATE_PALETTE_TABLE_MODE : Nat := 6

/-- Value of a C `int` holding the low 32 bits of `n`. -/
def to_int32 (n : Nat) : Int :=
  if n % 2 ^ 32 < 2 ^ 31 then ((n % 2 ^ 32 : Nat) : Int) else ((n % 2 ^ 32 : Nat) : Int) - 2 ^ 32

/-- Value of a `uint32_t` assigned from the C `int` `z`. -/
def to_uint32 (z : Int) : Nat :=
  (z % 2 ^ 32).toNat

/-- Value of a 64-bit unsigned assigned from the C `int` `z`. -/
def to_uint64 (z : Int) : Nat :=
  (z % 2 ^ 64).toNat

/-- Modelled from the spec: the macro RGA_GET_PAGE_COUNT of rga_mm.h, the
number of pages needed to hold `size` bytes (the shifted size, plus one when
the low bits are not all zero). -/
def RGA_GET_PAGE_COUNT (size : Int) : Int :=
  size / (PAGE_SIZE : Int) + (if size % (PAGE_SIZE : Int) = 0 then 0 else 1)

/-! ## Data model -/

/-- Kinds of external buffer (`external_buffer->type`); `ILLEGAL` stands for
every value the switch statements send to `default:`. -/
inductive rga_memory_type where
  | RGA_DMA_BUFFER
  | RGA_VIRTUAL_ADDRESS
  | RGA_PHYSICAL_ADDRESS
  | RGA_DMA_BUFFER_PTR
  | ILLEGAL (raw : Nat)
  deriving DecidableEq, Repr

/-- The kernel enum of DMA directions. -/
inductive dma_data_direction where
  | DMA_BIDIRECTIONAL
  | DMA_TO_DEVICE
  | DMA_FROM_DEVICE
  | DMA_NONE
  deriving DecidableEq, Repr

/-- One scatterlist segment: `phys` is `sg_phys(sg)`, `dma_len` is `sg_dma_len(sg)`. -/
structure scatterlist where
  phys : Nat
  length : Nat
  dma_address : Nat
  dma_len : Nat
  deriving DecidableEq, Repr

/-- A scatter table; `orig_nents` is the length of the chain `sgl`. -/
structure sg_table where
  sgl : List scatterlist
  nents : Nat
  deriving DecidableEq, Repr

/-- Number of segments the table was allocated with. -/
def sg_table.orig_nents (sgt : sg_table) : Nat :=
  sgt.sgl.length

/-- One per-engine slot of `internal_buffer->dma_buffer`.  `dma_buf` is the
shared object (0 for NULL); `mapped` is ghost state recording that the slot
holds a live device mapping. -/
structure rga_dma_buffer where
  dma_buf : Nat
  mapped : Bool
  sgt : Option sg_table
  iova : Nat
  size : Nat
  offset : Nat
  core : Nat
  deriving DecidableEq, Repr

/-- Layout description copied from the import request. -/
structure rga_memory_parm where
  width : Nat
  height : Nat
  format : Nat
  size : Nat
  deriving DecidableEq, Repr

/-- Result of resolving a virtual address: the page list and how many of its
pages were pinned (`result`). -/
structure rga_virt_addr where
  addr : Nat
  pages : List Nat
  page_count : Nat
  size : Nat
  offset : Nat
  result : Int
  deriving DecidableEq, Repr

/-- The caller-supplied buffer reference. -/
structure rga_external_buffer where
  memory : Nat
  type : rga_memory_type
  memory_parm : rga_memory_parm
  deriving DecidableEq, Repr

/-- A registry entry.  `dma_buffer` is `none` for a NULL array;
`session` and `current_mm` are pointer identities. -/
structure rga_internal_buffer where
  dma_buffer : Option (List rga_dma_buffer)
  dma_buffer_size : Nat
  virt_addr : Option rga_virt_addr
  phys_addr : Nat
  memory_parm : rga_memory_parm
  current_mm : Option Nat
  type : rga_memory_type
  handle : Nat
  mm_flag : Nat
  refcount : Nat
  session : Nat
  deriving DecidableEq, Repr

/-- The object `kzalloc` returns: every field zero. -/
def rga_internal_buffer.kzalloc : rga_internal_buffer :=
  { dma_buffer := none, dma_buffer_size := 0, virt_addr := none, phys_addr := 0,
    memory_parm := { width := 0, height := 0, format := 0, size := 0 },
    current_mm := none, type := rga_memory_type.RGA_DMA_BUFFER, handle := 0,
    mm_flag := 0, refcount := 0, session := 0 }

/-- One zeroed slot of the array `kcalloc` returns. -/
def rga_dma_buffer.kzalloc : rga_dma_buffer :=
  { dma_buf := 0, mapped := false, sgt := none, iova := 0, size := 0, offset := 0, core := 0 }

/-- The IDR: live objects in ascending id order and the allocation cursor. -/
structure idr where
  entries : List rga_internal_buffer
  idr_base : Nat
  idr_next : Nat
  deriving DecidableEq, Repr

/-- The manager (`struct rga_mm`); the mutex is not represented, every
operation below runs as one critical section. -/
structure rga_mm where
  memory_idr : idr
  buffer_count : Int
  deriving DecidableEq, Repr

/-- The driver data the manager reads: the core of each configured scheduler,
in order, and the manager pointer (`none` before rga_mm_init). -/
structure rga_drvdata where
  scheduler : List Nat
  mm : Option rga_mm
  deriving DecidableEq, Repr

/-- `rga_drvdata->num_of_scheduler`. -/
def rga_drvdata.num_of_scheduler (drv : rga_drvdata) : Nat :=
  drv.scheduler.length

/-- What the kernel primitives return during one import call. -/
structure rga_import_env where
  /-- Result of `kzalloc` for the new entry. -/
  kzalloc_internal_buffer : Bool
  /-- Result of `kcalloc` for the slot array. -/
  kcalloc_dma_buffer : Bool
  /-- Object behind the file descriptor (`dma_buf_get`), `none` for an error pointer. -/
  dma_buf_get : Option Nat
  /-- Return code and scatter table of attach-and-map on scheduler `i`. -/
  map_attachment : Nat → Int × sg_table
  /-- Value of `current->mm`. -/
  current_mm : Option Nat
  /-- Result of `rga_image_size_cal` on the layout. -/
  image_size : Int
  /-- Result of `__get_free_pages` for the page list. -/
  get_free_pages : Bool
  /-- Return value of the bulk pin call. -/
  get_user_pages : Int
  /-- Pages the bulk pin call stored. -/
  pinned_pages : List Nat
  /-- Page found by the page-table walk at a virtual address, `none` when a level is missing. -/
  vma_page : Nat → Option Nat
  /-- Result of `kzalloc` for the `rga_virt_addr`. -/
  kzalloc_virt_addr : Bool
  /-- Table built by `sg_alloc_table_from_pages` for scheduler `i`, `none` on allocation failure. -/
  alloc_sgt : Nat → Option sg_table
  /-- Return code and iova of `rga_iommu_map_virt_addr` on scheduler `i`. -/
  iommu_map_virt_addr : Nat → Int × Nat
  /-- Return value of `dma_map_sg` on scheduler `i` (0 is failure). -/
  dma_map_sg : Nat → Nat

/-! ## Scatter-table checks -/

/-- Body of the `for_each_sg` loop of rga_mm_check_range_sgt. -/
def rga_mm_check_range_sgt_loop : List scatterlist → Int
  | [] => 1
  | sg :: rest =>
    if sg.phys > 0xffffffff ∨ (sg.phys + sg.length) % 2 ^ 64 > 0xffffffff then 0
    else rga_mm_check_range_sgt_loop rest

/-- If it is within 0~4G, return 1 (true). -/
def rga_mm_check_range_sgt (sgt : sg_table) : Int :=
  rga_mm_check_range_sgt_loop sgt.sgl

/-- True when the table has exactly one segment. -/
def rga_mm_check_contiguous_sgt (sgt : sg_table) : Bool :=
  if sgt.orig_nents = 1 then true else false

/-- Physical address of the first segment, `sg_phys(sgt->sgl)`. -/
def sg_phys_first (sgt : sg_table) : Nat :=
  match sgt.sgl with
  | [] => 0
  | sg :: _ => sg.phys

/-- The array behind `internal_buffer->dma_buffer` (empty for NULL). -/
def rga_internal_buffer.slots (ib : rga_internal_buffer) : List rga_dma_buffer :=
  ib.dma_buffer.getD []

/-- Slot `i` of the array. -/
def rga_internal_buffer.slot (ib : rga_internal_buffer) (i : Nat) : rga_dma_buffer :=
  ib.slots.getD i rga_dma_buffer.kzalloc

/-- Store `s` into slot `i` of the array. -/
def rga_internal_buffer.set_slot (ib : rga_internal_buffer) (i : Nat) (s : rga_dma_buffer) :
    rga_internal_buffer :=
  { ib with dma_buffer := ib.dma_buffer.map (fun a => a.set i s) }

/-! ## Shared-buffer mapping -/

/-- Modelled from the spec: rga_dma_map_fd of rga_dma_buf.c, the buffer-sharing
framework's `attach(fd) -> shared object` followed by `map_for_device`.  It
fails when the descriptor does not resolve or the map does; on success the slot
records the shared object and its scatter description. -/
def rga_dma_map_fd (env : rga_import_env) (i : Nat) (slot : rga_dma_buffer) :
    Int × rga_dma_buffer :=
  match env.dma_buf_get with
  | none => (-EINVAL, slot)
  | some dma_buf =>
    if (env.map_attachment i).1 < 0 then ((env.map_attachment i).1, slot)
    else ((env.map_attachment i).1,
      { slot with dma_buf := dma_buf, mapped := true, sgt := some (env.map_attachment i).2,
                  iova := ((env.map_attachment i).2.sgl.head?.map (fun sg => sg.dma_address)).getD 0,
                  size := ((env.map_attachment i).2.sgl.head?.map (fun sg => sg.dma_len)).getD 0 })

/-- Modelled from the spec: rga_dma_map_buf of rga_dma_buf.c, as rga_dma_map_fd
but with the shared object given by pointer. -/
def rga_dma_map_buf (env : rga_import_env) (dma_buf : Nat) (i : Nat) (slot : rga_dma_buffer) :
    Int × rga_dma_buffer :=
  if (env.map_attachment i).1 < 0 then ((env.map_attachment i).1, slot)
  else ((env.map_attachment i).1,
    { slot with dma_buf := dma_buf, mapped := true, sgt := some (env.map_attachment i).2,
                iova := ((env.map_attachment i).2.sgl.head?.map (fun sg => sg.dma_address)).getD 0,
                size := ((env.map_attachment i).2.sgl.head?.map (fun sg => sg.dma_len)).getD 0 })

/-- Modelled from the spec: rga_dma_unmap_buf of rga_dma_buf.c, the framework's
`unmap` and `detach`: the slot no longer holds a device mapping. -/
def rga_dma_unmap_buf (slot : rga_dma_buffer) : rga_dma_buffer :=
  { slot with mapped := false }

/-- The loop of rga_mm_unmap_dma_buffer from index `i` on, over the slots not
yet visited; returns the buffer and the visited-and-remaining slots. -/
def rga_mm_unmap_dma_buffer_loop (ib : rga_internal_buffer) :
    List rga_dma_buffer → Nat → rga_internal_buffer × List rga_dma_buffer
  | [], _ => (ib, [])
  | s :: rest, i =>
    if i = 0 ∧ ib.mm_flag &&& RGA_MEM_PHYSICAL_CONTIGUOUS ≠ 0 ∧ ib.phys_addr > 0 then
      ({ ib with phys_addr := 0 }, rga_dma_unmap_buf s :: rest)
    else
      ((rga_mm_unmap_dma_buffer_loop ib rest (i + 1)).1,
        rga_dma_unmap_buf s :: (rga_mm_unmap_dma_buffer_loop ib rest (i + 1)).2)

/-- The slot array as rga_mm_unmap_dma_buffer leaves it at the moment it is
handed to `kfree`. -/
def rga_mm_unmap_dma_buffer_slots (ib : rga_internal_buffer) : List rga_dma_buffer :=
  (rga_mm_unmap_dma_buffer_loop ib (ib.slots.take ib.dma_buffer_size) 0).2

/-- Teardown of a shared-buffer entry: unmap the slots, free the array. -/
def rga_mm_unmap_dma_buffer (ib : rga_internal_buffer) : rga_internal_buffer :=
  { (rga_mm_unmap_dma_buffer_loop ib (ib.slots.take ib.dma_buffer_size) 0).1 with
    dma_buffer := none }

/-- How the mapping loop was left. -/
inductive map_exit where
  | done
  | FREE_RGA_DMA_BUF
  deriving DecidableEq, Repr

/-- The `if / else if / else` of the mapping loop that picks the map primitive
by the kind of the request and stores its result in `ret`. -/
def rga_mm_map_dma_buffer_call (env : rga_import_env) (external_buffer : rga_external_buffer)
    (i : Nat) (slot : rga_dma_buffer) : Int × rga_dma_buffer :=
  match external_buffer.type with
  | rga_memory_type.RGA_DMA_BUFFER => rga_dma_map_fd env i slot
  | rga_memory_type.RGA_DMA_BUFFER_PTR => rga_dma_map_buf env external_buffer.memory i slot
  | _ => (-EFAULT, slot)

/-- The loop of rga_mm_map_dma_buffer over the schedulers from index `i` on;
`ret` is the C variable of that name. -/
def rga_mm_map_dma_buffer_loop (env : rga_import_env) (external_buffer : rga_external_buffer) :
    List Nat → Nat → Int → rga_internal_buffer → map_exit × Int × rga_internal_buffer
  | [], _, ret, ib => (map_exit.done, ret, ib)
  | core :: rest, i, ret, ib =>
    /- If the physical address is greater than 4G, there is no need to map RGA2. -/
    if core = RGA2_SCHEDULER_CORE0 ∧ ib.mm_flag &&& RGA_MEM_UNDER_4G = 0 ∧ i ≠ 0 then
      rga_mm_map_dma_buffer_loop env external_buffer rest (i + 1) ret ib
    else
      let r := rga_mm_map_dma_buffer_call env external_buffer i (ib.slot i)
      if r.1 < 0 then (map_exit.FREE_RGA_DMA_BUF, r.1, ib)
      else
        let ib1 := ib.set_slot i { r.2 with core := core }
        if i = 0 then
          let sgt := (ib1.slot 0).sgt.getD { sgl := [], nents := 0 }
          let ib2 := if rga_mm_check_range_sgt sgt ≠ 0 then
            { ib1 with mm_flag := ib1.mm_flag ||| RGA_MEM_UNDER_4G } else ib1
          if rga_mm_check_contiguous_sgt sgt then
            let ib3 := { ib2 with mm_flag := ib2.mm_flag ||| RGA_MEM_PHYSICAL_CONTIGUOUS,
                                  phys_addr := sg_phys_first sgt }
            if ib3.phys_addr = 0 then (map_exit.FREE_RGA_DMA_BUF, r.1, ib3)
            else if core = RGA2_SCHEDULER_CORE0 then (map_exit.done, r.1, ib3)
            else rga_mm_map_dma_buffer_loop env external_buffer rest (i + 1) r.1 ib3
          else rga_mm_map_dma_buffer_loop env external_buffer rest (i + 1) r.1 ib2
        else rga_mm_map_dma_buffer_loop env external_buffer rest (i + 1) r.1 ib1

/-- Map a shared buffer for every configured engine. -/
def rga_mm_map_dma_buffer (scheduler : List Nat) (env : rga_import_env)
    (external_buffer : rga_external_buffer) (internal_buffer : rga_internal_buffer) :
    Int × rga_internal_buffer :=
  if env.kcalloc_dma_buffer = false then
    (-ENOMEM, { internal_buffer with dma_buffer_size := scheduler.length })
  else
    match rga_mm_map_dma_buffer_loop env external_buffer scheduler 0 0
        { internal_buffer with
          dma_buffer_size := scheduler.length,
          dma_buffer := some (List.replicate scheduler.length rga_dma_buffer.kzalloc) } with
    | (map_exit.done, _, ib) => (0, ib)
    | (map_exit.FREE_RGA_DMA_BUF, ret, ib) => (ret, rga_mm_unmap_dma_buffer ib)

/-! ## Virtual-address resolution -/

/-- The loop of rga_get_user_pages_from_vma: `n` pages remain, `i` is the loop
index; the walk through pgd, p4d, pud, pmd and pte is the oracle `vma_page`. -/
def rga_get_user_pages_from_vma_loop (env : rga_import_env) (Memory : Nat) :
    Nat → Nat → List Nat → Int × List Nat
  | 0, _, pages => (0, pages)
  | n + 1, i, pages =>
    match env.vma_page (((Memory + i) <<< PAGE_SHIFT) % 2 ^ 64) with
    | none => (RGA_OUT_OF_RESOURCES, pages)
    | some page => rga_get_user_pages_from_vma_loop env Memory n (i + 1) (pages.set i page)

/-- Manual page-table walk for `pageCount` pages starting at page `Memory`. -/
def rga_get_user_pages_from_vma (env : rga_import_env) (pages : List Nat) (Memory : Nat)
    (pageCount : Nat) : Int × List Nat :=
  rga_get_user_pages_from_vma_loop env Memory pageCount 0 pages

/-- The page array after the pin call stored `pinned` at its start. -/
def store_pages (pages : List Nat) (pinned : List Nat) : List Nat :=
  pinned.take pages.length ++ pages.drop pinned.length

/-- Pages handed to `put_page` when the bulk pin came up short. -/
def rga_get_user_pages_put_page (env : rga_import_env) (pageCount : Nat) : List Nat :=
  if env.get_user_pages > 0 ∧ env.get_user_pages ≥ (pageCount : Int) then []
  else if env.get_user_pages > 0 then env.pinned_pages.take env.get_user_pages.toNat
  else []

/-- Bulk pin, with the page-table walk as fallback. -/
def rga_get_user_pages (env : rga_import_env) (pages : List Nat) (Memory : Nat)
    (pageCount : Nat) : Int × List Nat :=
  if env.get_user_pages > 0 ∧ env.get_user_pages ≥ (pageCount : Int) then
    (env.get_user_pages, store_pages pages env.pinned_pages)
  else
    rga_get_user_pages_from_vma env (store_pages pages env.pinned_pages) Memory pageCount

/-- Release the scatter table of a slot. -/
def rga_free_sgt (virt_dma_buf : rga_dma_buffer) : rga_dma_buffer :=
  { virt_dma_buf with sgt := none }

/-- Build the scatter table of a slot from the resolved pages. -/
def rga_alloc_sgt (env : rga_import_env) (i : Nat) (virt_addr : rga_virt_addr)
    (virt_dma_buf : rga_dma_buffer) : Int × rga_dma_buffer :=
  match env.alloc_sgt i with
  | none => (-ENOMEM, virt_dma_buf)
  | some sgt =>
    (0, { virt_dma_buf with sgt := some sgt, size := virt_addr.size, offset := virt_addr.offset })

/-- Pages rga_free_virt_addr hands to `put_page`: the first `result` ones. -/
def rga_free_virt_addr_put_page (virt_addr : Option rga_virt_addr) : List Nat :=
  match virt_addr with
  | none => []
  | some v => v.pages.take v.result.toNat

/-- Free the resolution record; the pointer is set to NULL. -/
def rga_free_virt_addr (_virt_addr : Option rga_virt_addr) : Option rga_virt_addr :=
  none

/-- Resolve a virtual address into a page list. -/
def rga_alloc_virt_addr (env : rga_import_env) (viraddr : Nat) (memory_parm : rga_memory_parm) :
    Int × Option rga_virt_addr :=
  let img_size : Int :=
    if memory_parm.size ≠ 0 then to_int32 memory_parm.size else env.image_size
  let offset := viraddr % PAGE_SIZE
  let count := to_uint32 (RGA_GET_PAGE_COUNT (to_uint64 (img_size + (offset : Int))))
  let size := count * PAGE_SIZE
  if size = 0 then (-EFAULT, none)
  else if env.get_free_pages = false then (-ENOMEM, none)
  else
    let r := rga_get_user_pages env (List.replicate count 0) (viraddr >>> PAGE_SHIFT) count
    if r.1 < 0 then (-EINVAL, none)
    else if env.kzalloc_virt_addr = false then (-ENOMEM, none)
    else
      (0, some { addr := viraddr, pages := r.2, page_count := count, size := size,
                 offset := offset, result := if r.1 > 0 then r.1 else 0 })

/-- The record `internal_buffer->virt_addr` points to. -/
def rga_internal_buffer.virt (ib : rga_internal_buffer) : rga_virt_addr :=
  ib.virt_addr.getD { addr := 0, pages := [], page_count := 0, size := 0, offset := 0, result := 0 }

/-- Modelled from the spec: rga_iommu_unmap_virt_addr of rga_dma_buf.c and the
kernel's dma_unmap_sg, the translation teardown and the DMA-unmap release
primitives: the slot no longer holds a device mapping. -/
def rga_unmap_virt_slot (slot : rga_dma_buffer) : rga_dma_buffer :=
  { slot with mapped := false }

/-- The unmap loop shared by rga_mm_unmap_virt_addr and the `unmap_virt_addr`
label: translation teardown on the RGA3 schedulers, `dma_unmap_sg` on every
other slot whose core is set. -/
def rga_mm_unmap_virt_addr_loop : List Nat → List rga_dma_buffer → List rga_dma_buffer
  | core :: cores, s :: rest =>
    (if core = RGA3_SCHEDULER_CORE0 ∨ core = RGA3_SCHEDULER_CORE1 then rga_unmap_virt_slot s
     else if s.core ≠ 0 then rga_unmap_virt_slot s
     else s) :: rga_mm_unmap_virt_addr_loop cores rest
  | _, slots => slots

/-- The code from the label `unmap_virt_addr` of rga_mm_map_virt_addr to its
return: the array is freed but the pointer is left in place, so the embedding
keeps its last contents. -/
def rga_mm_map_virt_addr_unwind (scheduler : List Nat) (ib : rga_internal_buffer) :
    rga_internal_buffer :=
  { ib with
    dma_buffer := ib.dma_buffer.map
      (fun a => (rga_mm_unmap_virt_addr_loop scheduler a).map rga_free_sgt),
    virt_addr := rga_free_virt_addr ib.virt_addr,
    current_mm := none }

/-- The code from the label `free_sgt_and_dma_buffer` to the return. -/
def rga_mm_map_virt_addr_free (ib : rga_internal_buffer) : rga_internal_buffer :=
  { ib with
    dma_buffer := ib.dma_buffer.map (fun a => a.map rga_free_sgt),
    virt_addr := rga_free_virt_addr ib.virt_addr,
    current_mm := none }

/-- Teardown of a virtual-address entry. -/
def rga_mm_unmap_virt_addr (scheduler : List Nat) (ib : rga_internal_buffer) :
    rga_internal_buffer :=
  { ib with
    dma_buffer := ib.dma_buffer.map
      (fun a => (rga_mm_unmap_virt_addr_loop scheduler a).map rga_free_sgt),
    dma_buffer_size := 0,
    virt_addr := rga_free_virt_addr ib.virt_addr,
    current_mm := none }

/-- First loop of rga_mm_map_virt_addr: one scatter table per engine; the
boolean is false when the loop left through `free_sgt_and_dma_buffer`. -/
def rga_mm_map_virt_addr_sgt_loop (env : rga_import_env) :
    List Nat → Nat → Int → rga_internal_buffer → Bool × Int × rga_internal_buffer
  | [], _, ret, ib => (true, ret, ib)
  | core :: rest, i, ret, ib =>
    /- If the physical address is greater than 4G, there is no need to map RGA2. -/
    if core = RGA2_SCHEDULER_CORE0 ∧ ib.mm_flag &&& RGA_MEM_UNDER_4G = 0 ∧ i ≠ 0 then
      rga_mm_map_virt_addr_sgt_loop env rest (i + 1) ret ib
    else
      let r := rga_alloc_sgt env i ib.virt (ib.slot i)
      if r.1 < 0 then (false, r.1, ib)
      else
        let ib1 := ib.set_slot i r.2
        let ib2 :=
          if i = 0 ∧
              rga_mm_check_range_sgt ((ib1.slot 0).sgt.getD { sgl := [], nents := 0 }) ≠ 0 then
            { ib1 with mm_flag := ib1.mm_flag ||| RGA_MEM_UNDER_4G }
          else ib1
        rga_mm_map_virt_addr_sgt_loop env rest (i + 1) r.1 ib2

/-- Second loop of rga_mm_map_virt_addr: the per-engine mapping; the boolean
is false when the loop left through `unmap_virt_addr`. -/
def rga_mm_map_virt_addr_map_loop (env : rga_import_env) :
    List Nat → Nat → Int → rga_internal_buffer → Bool × Int × rga_internal_buffer
  | [], _, ret, ib => (true, ret, ib)
  | core :: rest, i, ret, ib =>
    if core = RGA2_SCHEDULER_CORE0 ∧ ib.mm_flag &&& RGA_MEM_UNDER_4G = 0 then
      rga_mm_map_virt_addr_map_loop env rest (i + 1) ret ib
    else if core = RGA3_SCHEDULER_CORE0 ∨ core = RGA3_SCHEDULER_CORE1 then
      if (env.iommu_map_virt_addr i).1 < 0 then (false, (env.iommu_map_virt_addr i).1, ib)
      else
        rga_mm_map_virt_addr_map_loop env rest (i + 1) (env.iommu_map_virt_addr i).1
          (ib.set_slot i { ib.slot i with iova := (env.iommu_map_virt_addr i).2,
                                          mapped := true, core := core })
    else
      if env.dma_map_sg i = 0 then (false, 0, ib)
      else
        rga_mm_map_virt_addr_map_loop env rest (i + 1) (env.dma_map_sg i)
          (ib.set_slot i { ib.slot i with mapped := true, core := core })

/-- Resolve and map a virtual-address buffer for every configured engine. -/
def rga_mm_map_virt_addr (scheduler : List Nat) (env : rga_import_env)
    (external_buffer : rga_external_buffer) (internal_buffer : rga_internal_buffer) :
    Int × rga_internal_buffer :=
  match env.current_mm with
  | none => (-EFAULT, { internal_buffer with current_mm := none })
  | some mm =>
    let r := rga_alloc_virt_addr env external_buffer.memory internal_buffer.memory_parm
    if r.1 < 0 then (r.1, { internal_buffer with current_mm := none })
    else if env.kcalloc_dma_buffer = false then
      (-ENOMEM, { internal_buffer with virt_addr := rga_free_virt_addr r.2, current_mm := none })
    else
      match rga_mm_map_virt_addr_sgt_loop env scheduler 0 r.1
          { internal_buffer with
            current_mm := some mm, virt_addr := r.2,
            dma_buffer := some (List.replicate scheduler.length rga_dma_buffer.kzalloc),
            dma_buffer_size := scheduler.length } with
      | (false, ret, ib) => (ret, rga_mm_map_virt_addr_free ib)
      | (true, ret, ib) =>
        match rga_mm_map_virt_addr_map_loop env scheduler 0 ret ib with
        | (false, ret2, ib2) => (ret2, rga_mm_map_virt_addr_unwind scheduler ib2)
        | (true, _, ib2) => (0, ib2)

/-- Undo rga_mm_map_buffer according to the kind of the entry. -/
def rga_mm_unmap_buffer (scheduler : List Nat) (internal_buffer : rga_internal_buffer) :
    Int × rga_internal_buffer :=
  match internal_buffer.type with
  | rga_memory_type.RGA_DMA_BUFFER => (0, rga_mm_unmap_dma_buffer internal_buffer)
  | rga_memory_type.RGA_DMA_BUFFER_PTR => (0, rga_mm_unmap_dma_buffer internal_buffer)
  | rga_memory_type.RGA_VIRTUAL_ADDRESS => (0, rga_mm_unmap_virt_addr scheduler internal_buffer)
  | rga_memory_type.RGA_PHYSICAL_ADDRESS => (0, { internal_buffer with phys_addr := 0 })
  | rga_memory_type.ILLEGAL _ => (-EFAULT, internal_buffer)

/-- Populate the mapping state of a new entry according to its kind. -/
def rga_mm_map_buffer (scheduler : List Nat) (env : rga_import_env)
    (external_buffer : rga_external_buffer) (internal_buffer : rga_internal_buffer) :
    Int × rga_internal_buffer :=
  let ib0 := { internal_buffer with memory_parm := external_buffer.memory_parm }
  match external_buffer.type with
  | rga_memory_type.RGA_DMA_BUFFER =>
    let r := rga_mm_map_dma_buffer scheduler env external_buffer
      { ib0 with type := external_buffer.type }
    if r.1 < 0 then (r.1, r.2)
    else (0, { r.2 with mm_flag := r.2.mm_flag ||| RGA_MEM_NEED_USE_IOMMU })
  | rga_memory_type.RGA_DMA_BUFFER_PTR =>
    let r := rga_mm_map_dma_buffer scheduler env external_buffer
      { ib0 with type := external_buffer.type }
    if r.1 < 0 then (r.1, r.2)
    else (0, { r.2 with mm_flag := r.2.mm_flag ||| RGA_MEM_NEED_USE_IOMMU })
  | rga_memory_type.RGA_VIRTUAL_ADDRESS =>
    let r := rga_mm_map_virt_addr scheduler env external_buffer
      { ib0 with type := rga_memory_type.RGA_VIRTUAL_ADDRESS }
    if r.1 < 0 then (r.1, r.2)
    else (0, { r.2 with mm_flag := r.2.mm_flag ||| RGA_MEM_NEED_USE_IOMMU })
  | rga_memory_type.RGA_PHYSICAL_ADDRESS =>
    (0, { ib0 with type := rga_memory_type.RGA_PHYSICAL_ADDRESS,
                   phys_addr := external_buffer.memory })
  | rga_memory_type.ILLEGAL _ => (-EFAULT, ib0)

/-! ## The handle registry -/

/-- The kernel's idr_find: the object stored under `id`. -/
def idr_find (i : idr) (id : Nat) : Option rga_internal_buffer :=
  i.entries.find? (fun e => e.handle == id)

/-- The kernel's idr_remove: drop the object stored under `id`. -/
def idr_remove (i : idr) (id : Nat) : idr :=
  { i with entries := i.entries.filter (fun e => e.handle != id) }

/-- Put an object at its place in the id order. -/
def idr_insert (e : rga_internal_buffer) : List rga_internal_buffer → List rga_internal_buffer
  | [] => [e]
  | x :: xs => if e.handle < x.handle then e :: x :: xs else x :: idr_insert e xs

/-- Modelled from the spec: idr_alloc of lib/idr.c, the handle allocator,
"unique, monotonically allocated, never reused while any buffer is live,
starting at 1"; a released value "is never reassigned while the allocator
still has higher unused values".  The id handed out is the cursor (at least
`start`), the cursor then moves past it.  The object is stored under the id,
which the caller writes to its `handle` field.  The id space is taken not to
run out. -/
def idr_alloc (i : idr) (ptr : rga_internal_buffer) (start : Nat) : Nat × idr :=
  (max start i.idr_next,
    { i with entries := idr_insert { ptr with handle := max start i.idr_next } i.entries,
             idr_next := max start i.idr_next + 1 })

/-- The kernel's idr_init_base. -/
def idr_init_base (base : Nat) : idr :=
  { entries := [], idr_base := base, idr_next := 0 }

/-- Set up an empty manager. -/
def rga_mm_init : rga_mm :=
  { memory_idr := idr_init_base 1, buffer_count := 0 }

/-- The kernel's kref_init. -/
def kref_init (ib : rga_internal_buffer) : rga_internal_buffer :=
  { ib with refcount := 1 }

/-- Apply `f` to the object with handle `h`. -/
def idr_modify (i : idr) (h : Nat) (f : rga_internal_buffer → rga_internal_buffer) : idr :=
  { i with entries := i.entries.map (fun e => if e.handle = h then f e else e) }

/-- The kernel's kref_get on the object with handle `h`. -/
def kref_get (mm : rga_mm) (h : Nat) : rga_mm :=
  { mm with memory_idr :=
      idr_modify mm.memory_idr h (fun e => { e with refcount := e.refcount + 1 }) }

/-- Release callback of the refcount: unmap, remove from the IDR, free. -/
def rga_mm_kref_release_buffer (scheduler : List Nat) (mm : rga_mm)
    (internal_buffer : rga_internal_buffer) : rga_mm :=
  { memory_idr :=
      idr_remove mm.memory_idr (rga_mm_unmap_buffer scheduler internal_buffer).2.handle,
    buffer_count := mm.buffer_count - 1 }

/-- The kernel's kref_put with rga_mm_kref_release_buffer as callback, on the
object with handle `h`: the last reference releases, any other is counted
down.  A pointer to an object no longer in the IDR is dangling; nothing is
done for it. -/
def kref_put (scheduler : List Nat) (mm : rga_mm) (h : Nat) : rga_mm :=
  match idr_find mm.memory_idr h with
  | none => mm
  | some e =>
    if e.refcount = 1 then rga_mm_kref_release_buffer scheduler mm e
    else { mm with memory_idr :=
             idr_modify mm.memory_idr h (fun e => { e with refcount := e.refcount - 1 }) }

/-- Called at driver close to release the memory's handle references. -/
def rga_mm_handle_remove (scheduler : List Nat) (mm : rga_mm) (ptr : rga_internal_buffer) :
    rga_mm :=
  rga_mm_kref_release_buffer scheduler mm ptr

/-- What rga_mm_lookup_external returns: an error pointer, NULL, or an entry. -/
inductive lookup_result where
  | ERR_PTR
  | NULL
  | found (internal_buffer : rga_internal_buffer)
  deriving DecidableEq, Repr

/-- Pointer result of an `idr_for_each_entry` scan. -/
def lookup_result.of_scan : Option rga_internal_buffer → lookup_result
  | none => lookup_result.NULL
  | some e => lookup_result.found e

/-- Test of the shared-buffer scans: the array is present and its slot 0 holds
`dma_buf`. -/
def slot0_holds (temp_buffer : rga_internal_buffer) (dma_buf : Nat) : Bool :=
  match temp_buffer.dma_buffer with
  | none => false
  | some [] => false
  | some (s :: _) => s.dma_buf == dma_buf

/-- Test of the virtual-address scan. -/
def virt_addr_is (temp_buffer : rga_internal_buffer) (memory : Nat) : Bool :=
  match temp_buffer.virt_addr with
  | none => false
  | some v => v.addr == memory

/-- Identity lookup: the first entry, in id order, that matches the request. -/
def rga_mm_lookup_external (mm_session : rga_mm) (external_buffer : rga_external_buffer)
    (env : rga_import_env) : lookup_result :=
  match external_buffer.type with
  | rga_memory_type.RGA_DMA_BUFFER =>
    match env.dma_buf_get with
    | none => lookup_result.ERR_PTR
    | some dma_buf =>
      lookup_result.of_scan
        (mm_session.memory_idr.entries.find? (fun temp_buffer => slot0_holds temp_buffer dma_buf))
  | rga_memory_type.RGA_VIRTUAL_ADDRESS =>
    lookup_result.of_scan
      (mm_session.memory_idr.entries.find?
        (fun temp_buffer => virt_addr_is temp_buffer external_buffer.memory))
  | rga_memory_type.RGA_PHYSICAL_ADDRESS =>
    lookup_result.of_scan
      (mm_session.memory_idr.entries.find?
        (fun temp_buffer => temp_buffer.phys_addr == external_buffer.memory))
  | rga_memory_type.RGA_DMA_BUFFER_PTR =>
    lookup_result.of_scan
      (mm_session.memory_idr.entries.find?
        (fun temp_buffer => slot0_holds temp_buffer external_buffer.memory))
  | rga_memory_type.ILLEGAL _ => lookup_result.NULL

/-- Handle lookup; the parameter is a `uint32_t`. -/
def rga_mm_lookup_handle (mm_session : rga_mm) (handle : Nat) : Option rga_internal_buffer :=
  idr_find mm_session.memory_idr (handle % 2 ^ 32)

/-- Flags of the entry behind a handle, or -EINVAL. -/
def rga_mm_lookup_flag (mm_session : rga_mm) (handle : Nat) : Int :=
  match rga_mm_lookup_handle mm_session handle with
  | none => -EINVAL
  | some output_buffer => to_int32 output_buffer.mm_flag

/-- Device address of the slot mapped for `core`, 0 when there is none. -/
def rga_mm_lookup_iova (buffer : rga_internal_buffer) (core : Nat) : Nat :=
  match (buffer.slots.take buffer.dma_buffer_size).find? (fun s => s.core == core) with
  | some s => (s.iova + s.offset) % 2 ^ 64
  | none => 0

/-- Scatter table of the slot mapped for `core`, NULL when there is none. -/
def rga_mm_lookup_sgt (buffer : rga_internal_buffer) (core : Nat) : Option sg_table :=
  match (buffer.slots.take buffer.dma_buffer_size).find? (fun s => s.core == core) with
  | some s => s.sgt
  | none => none

/-- Import: bump the entry the request resolves to, or build a new one. -/
def rga_mm_import_buffer (drv : rga_drvdata) (external_buffer : rga_external_buffer)
    (session : Nat) (env : rga_import_env) : Nat × rga_drvdata :=
  match drv.mm with
  | none => (0, drv)
  | some mm =>
    /- first, Check whether to rga_mm -/
    match rga_mm_lookup_external mm external_buffer env with
    | lookup_result.found internal_buffer =>
      (internal_buffer.handle, { drv with mm := some (kref_get mm internal_buffer.handle) })
    | _ =>
      /- finally, map and cached external_buffer in rga_mm -/
      if env.kzalloc_internal_buffer = false then (0, drv)
      else if (rga_mm_map_buffer drv.scheduler env external_buffer
          rga_internal_buffer.kzalloc).1 < 0 then (0, drv)
      else
        ((idr_alloc mm.memory_idr
            { kref_init (rga_mm_map_buffer drv.scheduler env external_buffer
                rga_internal_buffer.kzalloc).2 with session := session } 1).1,
          { drv with mm := some (rga_mm.mk
              (idr_alloc mm.memory_idr
                { kref_init (rga_mm_map_buffer drv.scheduler env external_buffer
                    rga_internal_buffer.kzalloc).2 with session := session } 1).2
              (mm.buffer_count + 1)) })

/-- Release one reference of the entry behind `handle`. -/
def rga_mm_release_buffer (drv : rga_drvdata) (handle : Nat) : Int × rga_drvdata :=
  match drv.mm with
  | none => (-EFAULT, drv)
  | some mm =>
    /- Find the buffer that has been imported -/
    match rga_mm_lookup_handle mm handle with
    | none => (-ENOENT, drv)
    | some internal_buffer =>
      (0, { drv with mm := some (kref_put drv.scheduler mm internal_buffer.handle) })

/-- The `idr_for_each_entry` loop of rga_mm_session_release_buffer.  The walk
visits each id once, in ascending order, and a put removes at most the entry
being visited, so it is a walk over the entries present at the start. -/
def rga_mm_session_release_buffer_loop (scheduler : List Nat) (session : Nat) :
    List rga_internal_buffer → rga_mm → rga_mm
  | [], mm => mm
  | buffer :: rest, mm =>
    rga_mm_session_release_buffer_loop scheduler session rest
      (if session = buffer.session then kref_put scheduler mm buffer.handle else mm)

/-- Drop one reference of every entry recorded for `session`. -/
def rga_mm_session_release_buffer (drv : rga_drvdata) (session : Nat) : Int × rga_drvdata :=
  match drv.mm with
  | none => (-EFAULT, drv)
  | some mm =>
    (0, { drv with mm := some (rga_mm_session_release_buffer_loop drv.scheduler session
            mm.memory_idr.entries mm) })

/-! ## Job channel binding -/

/-- The image description of one channel; the three address fields carry
handles on entry and device addresses on return. -/
structure rga_img_info_t where
  yrgb_addr : Nat
  uv_addr : Nat
  v_addr : Nat
  format : Nat
  vir_w : Nat
  vir_h : Nat
  deriving DecidableEq, Repr

/-- The MMU part of the command. -/
structure rga_mmu_t where
  mmu_en : Nat
  mmu_flag : Nat
  deriving DecidableEq, Repr

/-- The command of a job, as far as the manager reads or writes it. -/
structure rga_req where
  render_mode : Nat
  src : rga_img_info_t
  dst : rga_img_info_t
  pat : rga_img_info_t
  bsfilter_flag : Nat
  mmu_info : rga_mmu_t
  deriving DecidableEq, Repr

/-- Per-channel buffer state of a job.  The header names the first slot both
`addr` and `y_addr`. -/
structure rga_job_buffer where
  y_addr : Option Nat
  uv_addr : Option Nat
  v_addr : Option Nat
  page_table : Option (List Nat)
  page_count : Int
  deriving DecidableEq, Repr

/-- The single-handle name of the first slot. -/
def rga_job_buffer.addr (job_buf : rga_job_buffer) : Option Nat :=
  job_buf.y_addr

/-- The zeroed per-channel state of a new job. -/
def rga_job_buffer.kzalloc : rga_job_buffer :=
  { y_addr := none, uv_addr := none, v_addr := none, page_table := none, page_count := 0 }

/-- A job; `scheduler` is what rga_job_get_scheduler returns for it. -/
structure rga_job where
  rga_command_base : rga_req
  core : Nat
  scheduler : Option Nat
  src_buffer : rga_job_buffer
  dst_buffer : rga_job_buffer
  src1_buffer : rga_job_buffer
  els_buffer : rga_job_buffer
  deriving DecidableEq, Repr

/-- What the helpers of rga_common.c and the page allocator return while one
job is prepared. -/
structure rga_job_env where
  /-- Sizes computed by `rga_image_size_cal` from width, height and format:
  whole image, then the three planes. -/
  image_size_cal : Nat → Nat → Nat → Int × Int × Int × Int
  /-- Effect of `rga_convert_addr(img, false)`. -/
  convert_addr : rga_img_info_t → rga_img_info_t
  /-- Result of `__get_free_pages` for the page table of the source channel. -/
  get_free_pages_src : Bool
  /-- Result of `__get_free_pages` for the page table of the destination channel. -/
  get_free_pages_dst : Bool
  /-- Result of `__get_free_pages` for the page table of the pattern channel. -/
  get_free_pages_pat : Bool

/-- The object a buffer pointer of a job points to. -/
def deref (mm : rga_mm) (p : Option Nat) : Option rga_internal_buffer :=
  p.bind (idr_find mm.memory_idr)

/-- Whether the engine needs translated addresses for the buffer. -/
def rga_mm_is_need_mmu (core : Nat) (buffer : Option rga_internal_buffer) : Bool :=
  match buffer with
  | none => false
  | some b =>
    if b.mm_flag &&& RGA_MEM_PHYSICAL_CONTIGUOUS ≠ 0 ∧ core = RGA2_SCHEDULER_CORE0 then false
    else if b.mm_flag &&& RGA_MEM_NEED_USE_IOMMU ≠ 0 then true
    else false

/-- Derive the MMU-enable bits of the command from the four channels. -/
def rga_mm_set_mmu_flag (mm : rga_mm) (job : rga_job) : Int × rga_job :=
  let src_mmu_en := rga_mm_is_need_mmu job.core (deref mm job.src_buffer.addr)
  let src1_mmu_en := rga_mm_is_need_mmu job.core (deref mm job.src1_buffer.addr)
  let dst_mmu_en := rga_mm_is_need_mmu job.core (deref mm job.dst_buffer.addr)
  let els_mmu_en := rga_mm_is_need_mmu job.core (deref mm job.els_buffer.addr)
  let f0 := job.rga_command_base.mmu_info.mmu_flag
  let f1 := if src_mmu_en then f0 ||| (1 <<< 8) else f0
  let f2 := if src1_mmu_en then f1 ||| (1 <<< 9) else f1
  let f3 := if dst_mmu_en then f2 ||| (1 <<< 10) else f2
  let f4 := if els_mmu_en then f3 ||| (1 <<< 11) else f3
  if f4 &&& (0xf <<< 8) ≠ 0 then
    (0, { job with rga_command_base := { job.rga_command_base with
            mmu_info := { mmu_en := 1, mmu_flag := f4 ||| 1 ||| (1 <<< 31) } } })
  else
    (0, { job with rga_command_base := { job.rga_command_base with
            mmu_info := { job.rga_command_base.mmu_info with mmu_flag := f4 } } })

/-- The inner `for` loop of rga_mm_sgt_to_page_table: `n` iterations remain,
`i` is the loop index; the boolean is `break_flag`. -/
def rga_mm_sgt_to_page_table_fill (Address : Nat) (mapped_size : Nat) (pageCount : Nat)
    (base : Nat) : Nat → Nat → List Nat → Bool × List Nat
  | 0, _, page_table => (false, page_table)
  | n + 1, i, page_table =>
    if (mapped_size + i) % 2 ^ 32 ≥ pageCount then (true, page_table)
    else
      rga_mm_sgt_to_page_table_fill Address mapped_size pageCount base n (i + 1)
        (page_table.set (base + (mapped_size + i) % 2 ^ 32)
          ((Address + (i <<< PAGE_SHIFT) % 2 ^ 32) % 2 ^ 32))

/-- The `do ... while` loop of rga_mm_sgt_to_page_table over the chain from
the current segment on. -/
def rga_mm_sgt_to_page_table_loop (nents : Nat) (pageCount : Nat) (use_dma_address : Int)
    (base : Nat) : List scatterlist → Nat → Nat → List Nat → List Nat
  | [], _, _, page_table => page_table
  | sgl :: rest, mapped_size, sg_num, page_table =>
    let len := if (sgl.dma_len >>> PAGE_SHIFT) % 2 ^ 32 = 0
      then (sgl.length >>> PAGE_SHIFT) % 2 ^ 32 else (sgl.dma_len >>> PAGE_SHIFT) % 2 ^ 32
    let Address := if use_dma_address ≠ 0 then sgl.dma_address else sgl.phys
    let r := rga_mm_sgt_to_page_table_fill Address mapped_size pageCount base len 0 page_table
    if r.1 then r.2
    else if (mapped_size + len) % 2 ^ 32 < pageCount ∧ (sg_num + 1) % 2 ^ 32 < nents then
      rga_mm_sgt_to_page_table_loop nents pageCount use_dma_address base rest
        ((mapped_size + len) % 2 ^ 32) ((sg_num + 1) % 2 ^ 32) r.2
    else r.2

/-- Emit the page-frame entries of a scatter table into `page_table`, starting
at entry `base` of the array (the C caller passes `page_table + base`). -/
def rga_mm_sgt_to_page_table (sg : sg_table) (page_table : List Nat) (base : Nat)
    (pageCount : Int) (use_dma_address : Int) : Int × List Nat :=
  (0, rga_mm_sgt_to_page_table_loop sg.nents (to_uint32 pageCount) use_dma_address base
        sg.sgl 0 0 page_table)

/-- Intra-page offset recorded for the buffer behind a job pointer, 0 when it
was not resolved from a virtual address. -/
def virt_offset (mm : rga_mm) (p : Option Nat) : Int :=
  match deref mm p with
  | none => 0
  | some b =>
    match b.virt_addr with
    | none => 0
    | some v => to_int32 v.offset

/-- Scatter table, for `core`, of the buffer behind a job pointer. -/
def lookup_sgt_of (mm : rga_mm) (p : Option Nat) (core : Nat) : Option sg_table :=
  match deref mm p with
  | none => none
  | some b => rga_mm_lookup_sgt b core

/-- Build the explicit page table of a channel for the physical-only engine. -/
def rga_mm_set_mmu_base (mm : rga_mm) (env : rga_job_env) (get_free_pages : Bool)
    (job : rga_job) (img : rga_img_info_t) (job_buf : rga_job_buffer) :
    Int × rga_img_info_t × rga_job_buffer :=
  let sz := env.image_size_cal img.vir_w img.vir_h img.format
  /- using third-address -/
  if job_buf.uv_addr ≠ none then
    let yrgb_offset := virt_offset mm job_buf.y_addr
    let uv_offset := virt_offset mm job_buf.uv_addr
    let v_offset := virt_offset mm job_buf.v_addr
    let yrgb_count := to_int32 (to_uint64 (RGA_GET_PAGE_COUNT (sz.2.1 + yrgb_offset)))
    let uv_count := to_int32 (to_uint64 (RGA_GET_PAGE_COUNT (sz.2.2.1 + uv_offset)))
    let v_count := to_int32 (to_uint64 (RGA_GET_PAGE_COUNT (sz.2.2.2 + v_offset)))
    let page_count := to_int32 (to_uint64 (yrgb_count + uv_count + v_count))
    if page_count < 0 then (-EFAULT, img, job_buf)
    else if get_free_pages = false then (-ENOMEM, img, job_buf)
    else
      match lookup_sgt_of mm job_buf.y_addr job.core with
      | none => (-EINVAL, img, job_buf)
      | some sgt_y =>
        match lookup_sgt_of mm job_buf.uv_addr job.core with
        | none => (-EINVAL, img, job_buf)
        | some sgt_uv =>
          match lookup_sgt_of mm job_buf.v_addr job.core with
          | none => (-EINVAL, img, job_buf)
          | some sgt_v =>
            (0,
              { img with
                yrgb_addr := to_uint64 yrgb_offset,
                uv_addr := to_uint64 (to_int32 (to_uint64 (yrgb_count * (PAGE_SIZE : Int)))
                  + uv_offset),
                v_addr := to_uint64 (to_int32 (to_uint64
                  ((yrgb_count + uv_count) * (PAGE_SIZE : Int))) + v_offset) },
              { job_buf with
                page_table := some
                  (rga_mm_sgt_to_page_table sgt_v
                    (rga_mm_sgt_to_page_table sgt_uv
                      (rga_mm_sgt_to_page_table sgt_y
                        (List.replicate page_count.toNat 0) 0 yrgb_count 0).2
                      yrgb_count.toNat uv_count 0).2
                    (yrgb_count + uv_count).toNat v_count 0).2,
                page_count := page_count })
  else
    let img_offset := virt_offset mm job_buf.addr
    let page_count := to_int32 (to_uint64 (RGA_GET_PAGE_COUNT (sz.1 + img_offset)))
    if page_count < 0 then (-EFAULT, img, job_buf)
    else if get_free_pages = false then (-ENOMEM, img, job_buf)
    else
      match lookup_sgt_of mm job_buf.addr job.core with
      | none => (-EINVAL, img, job_buf)
      | some sgt =>
        (0, env.convert_addr { img with yrgb_addr := to_uint64 img_offset },
          { job_buf with
            page_table := some
              (rga_mm_sgt_to_page_table sgt (List.replicate page_count.toNat 0) 0
                page_count 0).2,
            page_count := page_count })

/-- Cache synchronisation before device access; only its return code is
modelled. -/
def rga_mm_sync_dma_sg_for_device (buffer : rga_internal_buffer) (job : rga_job)
    (_dir : dma_data_direction) : Int :=
  match job.scheduler with
  | none => -EFAULT
  | some _ =>
    match rga_mm_lookup_sgt buffer job.core with
    | none => -EINVAL
    | some _ => 0

/-- Cache synchronisation after device access; only its return code is
modelled. -/
def rga_mm_sync_dma_sg_for_cpu (buffer : rga_internal_buffer) (job : rga_job)
    (_dir : dma_data_direction) : Int :=
  match job.scheduler with
  | none => -EFAULT
  | some _ =>
    match rga_mm_lookup_sgt buffer job.core with
    | none => -EINVAL
    | some _ => 0

/-- What rga_mm_get_buffer leaves behind: its return code, the manager, and
the two locations it writes through (`*channel_addr`, `*buf`). -/
structure get_buffer_result where
  ret : Int
  mm : rga_mm
  channel_addr : Nat
  buf : Option Nat
  deriving DecidableEq, Repr

/-- Acquire the entry behind `handle` for a job and compute the address the
job's engine uses for it. -/
def rga_mm_get_buffer (mm : rga_mm) (job : rga_job) (handle : Nat) (channel_addr : Nat)
    (buf : Option Nat) (dir : dma_data_direction) : get_buffer_result :=
  if handle = 0 then { ret := -EFAULT, mm := mm, channel_addr := channel_addr, buf := buf }
  else
    match rga_mm_lookup_handle mm handle with
    | none => { ret := -EFAULT, mm := mm, channel_addr := channel_addr, buf := none }
    | some internal_buffer =>
      let mm1 := kref_get mm internal_buffer.handle
      let p := some internal_buffer.handle
      match internal_buffer.type with
      | rga_memory_type.RGA_DMA_BUFFER | rga_memory_type.RGA_DMA_BUFFER_PTR =>
        if job.core = RGA3_SCHEDULER_CORE0 ∨ job.core = RGA3_SCHEDULER_CORE1 then
          if rga_mm_lookup_iova internal_buffer job.core = 0 then
            { ret := -EINVAL, mm := mm1, channel_addr := channel_addr, buf := p }
          else
            { ret := 0, mm := mm1,
              channel_addr := rga_mm_lookup_iova internal_buffer job.core, buf := p }
        else if job.core = RGA2_SCHEDULER_CORE0 ∧
            internal_buffer.mm_flag &&& RGA_MEM_PHYSICAL_CONTIGUOUS ≠ 0 then
          { ret := 0, mm := mm1, channel_addr := internal_buffer.phys_addr, buf := p }
        else
          { ret := 0, mm := mm1, channel_addr := 0, buf := p }
      | rga_memory_type.RGA_VIRTUAL_ADDRESS =>
        if (job.core = RGA3_SCHEDULER_CORE0 ∨ job.core = RGA3_SCHEDULER_CORE1) ∧
            rga_mm_lookup_iova internal_buffer job.core = 0 then
          { ret := -EINVAL, mm := mm1, channel_addr := channel_addr, buf := p }
        else if rga_mm_sync_dma_sg_for_device internal_buffer job dir < 0 then
          { ret := rga_mm_sync_dma_sg_for_device internal_buffer job dir, mm := mm1,
            channel_addr := channel_addr, buf := p }
        else
          { ret := 0, mm := mm1,
            channel_addr :=
              if job.core = RGA3_SCHEDULER_CORE0 ∨ job.core = RGA3_SCHEDULER_CORE1 then
                rga_mm_lookup_iova internal_buffer job.core
              else internal_buffer.virt.addr,
            buf := p }
      | rga_memory_type.RGA_PHYSICAL_ADDRESS =>
        { ret := 0, mm := mm1, channel_addr := internal_buffer.phys_addr, buf := p }
      | rga_memory_type.ILLEGAL _ =>
        { ret := -EFAULT, mm := mm1, channel_addr := channel_addr, buf := p }

/-- Return a job's reference to the entry behind the pointer. -/
def rga_mm_put_buffer (scheduler : List Nat) (mm : rga_mm) (_job : rga_job)
    (internal_buffer : Nat) (_dir : dma_data_direction) : rga_mm :=
  kref_put scheduler mm internal_buffer

/-- The idiom `handle = img->field; if (handle > 0) ret = rga_mm_get_buffer(...)`
of rga_mm_get_channel_handle_info: `handle` is an `int`, so the field is
narrowed; with no handle nothing is touched. -/
def get_plane (mm : rga_mm) (job : rga_job) (field : Nat) (buf : Option Nat)
    (dir : dma_data_direction) : get_buffer_result :=
  if to_int32 field > 0 then rga_mm_get_buffer mm job (to_uint64 (to_int32 field)) field buf dir
  else { ret := 0, mm := mm, channel_addr := field, buf := buf }

/-- What rga_mm_get_channel_handle_info leaves behind. -/
structure channel_result where
  ret : Int
  mm : rga_mm
  img : rga_img_info_t
  job_buf : rga_job_buffer
  deriving DecidableEq, Repr

/-- The tail of rga_mm_get_channel_handle_info: build the page table when the
job runs on RGA2 and the first buffer needs translation; the result of
rga_mm_set_mmu_base is not looked at. -/
def get_channel_tail (mm : rga_mm) (env : rga_job_env) (get_free_pages : Bool) (job : rga_job)
    (img : rga_img_info_t) (job_buf : rga_job_buffer) : channel_result :=
  if job.core = RGA2_SCHEDULER_CORE0 ∧
      rga_mm_is_need_mmu job.core (deref mm job_buf.addr) = true then
    { ret := 0, mm := mm,
      img := (rga_mm_set_mmu_base mm env get_free_pages job img job_buf).2.1,
      job_buf := (rga_mm_set_mmu_base mm env get_free_pages job img job_buf).2.2 }
  else { ret := 0, mm := mm, img := img, job_buf := job_buf }

/-- Resolve the handles of one channel. -/
def rga_mm_get_channel_handle_info (mm : rga_mm) (env : rga_job_env) (get_free_pages : Bool)
    (job : rga_job) (img : rga_img_info_t) (job_buf : rga_job_buffer)
    (dir : dma_data_direction) : channel_result :=
  /- using third-address -/
  if img.uv_addr > 0 then
    let y := get_plane mm job img.yrgb_addr job_buf.y_addr dir
    if y.ret < 0 then
      { ret := y.ret, mm := y.mm, img := img, job_buf := { job_buf with y_addr := y.buf } }
    else
      let uv := get_plane y.mm job img.uv_addr job_buf.uv_addr dir
      if uv.ret < 0 then
        { ret := uv.ret, mm := uv.mm, img := { img with yrgb_addr := y.channel_addr },
          job_buf := { job_buf with y_addr := y.buf, uv_addr := uv.buf } }
      else
        let v := get_plane uv.mm job img.v_addr job_buf.v_addr dir
        if v.ret < 0 then
          { ret := v.ret, mm := v.mm,
            img := { img with yrgb_addr := y.channel_addr, uv_addr := uv.channel_addr },
            job_buf := { job_buf with y_addr := y.buf, uv_addr := uv.buf, v_addr := v.buf } }
        else
          get_channel_tail v.mm env get_free_pages job
            { img with yrgb_addr := y.channel_addr, uv_addr := uv.channel_addr,
                       v_addr := v.channel_addr }
            { job_buf with y_addr := y.buf, uv_addr := uv.buf, v_addr := v.buf }
  else
    let y := get_plane mm job img.yrgb_addr job_buf.addr dir
    if y.ret < 0 then
      { ret := y.ret, mm := y.mm, img := img, job_buf := { job_buf with y_addr := y.buf } }
    else
      get_channel_tail y.mm env get_free_pages job
        (env.convert_addr { img with yrgb_addr := y.channel_addr })
        { job_buf with y_addr := y.buf }

/-- Return the references of one channel and free its page table. -/
def rga_mm_put_channel_handle_info (scheduler : List Nat) (mm : rga_mm) (job : rga_job)
    (job_buf : rga_job_buffer) (dir : dma_data_direction) : rga_mm :=
  let mm1 := match job_buf.y_addr with
    | some p => rga_mm_put_buffer scheduler mm job p dir
    | none => mm
  let mm2 := match job_buf.uv_addr with
    | some p => rga_mm_put_buffer scheduler mm1 job p dir
    | none => mm1
  match job_buf.v_addr with
  | some p => rga_mm_put_buffer scheduler mm2 job p dir
  | none => mm2

/-- What rga_mm_get_handle_info leaves behind. -/
structure handle_info_result where
  ret : Int
  drv : rga_drvdata
  job : rga_job

/-- One `if (likely(img.yrgb_addr > 0)) ret = rga_mm_get_channel_handle_info(...)`
block of rga_mm_get_handle_info. -/
def channel_step (mm : rga_mm) (env : rga_job_env) (get_free_pages : Bool) (job : rga_job)
    (img : rga_img_info_t) (job_buf : rga_job_buffer) (dir : dma_data_direction) :
    channel_result :=
  if img.yrgb_addr > 0 then
    rga_mm_get_channel_handle_info mm env get_free_pages job img job_buf dir
  else { ret := 0, mm := mm, img := img, job_buf := job_buf }

/-- Resolve the handles of all channels of a job and set its MMU flags.  The
channel functions read only `core` and `scheduler` of the job, which no
channel changes, so each call is handed the job as it was on entry and the
channel results are written back at the return.  The manager pointer is read
without a NULL test; the embedding answers -EFAULT for an uninitialised
driver, where the C code would fault. -/
def rga_mm_get_handle_info (drv : rga_drvdata) (env : rga_job_env) (job : rga_job) :
    handle_info_result :=
  match drv.mm with
  | none => { ret := -EFAULT, drv := drv, job := job }
  | some mm =>
    let req := job.rga_command_base
    let s := channel_step mm env env.get_free_pages_src job req.src job.src_buffer
      dma_data_direction.DMA_TO_DEVICE
    if s.ret < 0 then
      { ret := s.ret, drv := { drv with mm := some s.mm },
        job := { job with
                 rga_command_base := { req with src := s.img },
                 src_buffer := s.job_buf } }
    else
      let d := channel_step s.mm env env.get_free_pages_dst job req.dst job.dst_buffer
        dma_data_direction.DMA_TO_DEVICE
      if d.ret < 0 then
        { ret := d.ret, drv := { drv with mm := some d.mm },
          job := { job with
                   rga_command_base := { req with src := s.img, dst := d.img },
                   src_buffer := s.job_buf, dst_buffer := d.job_buf } }
      else if req.render_mode ≠ UPDATE_PALETTE_TABLE_MODE then
        let p := channel_step d.mm env env.get_free_pages_pat job req.pat job.src1_buffer
          (if req.bsfilter_flag ≠ 0 then dma_data_direction.DMA_BIDIRECTIONAL
           else dma_data_direction.DMA_TO_DEVICE)
        if p.ret < 0 then
          { ret := p.ret, drv := { drv with mm := some p.mm },
            job := { job with
                     rga_command_base := { req with src := s.img, dst := d.img, pat := p.img },
                     src_buffer := s.job_buf, dst_buffer := d.job_buf,
                     src1_buffer := p.job_buf } }
        else
          { ret := 0, drv := { drv with mm := some p.mm },
            job := (rga_mm_set_mmu_flag p.mm
              { job with
                rga_command_base := { req with src := s.img, dst := d.img, pat := p.img },
                src_buffer := s.job_buf, dst_buffer := d.job_buf,
                src1_buffer := p.job_buf }).2 }
      else
        let p := channel_step d.mm env env.get_free_pages_pat job req.pat job.els_buffer
          dma_data_direction.DMA_BIDIRECTIONAL
        if p.ret < 0 then
          { ret := p.ret, drv := { drv with mm := some p.mm },
            job := { job with
                     rga_command_base := { req with src := s.img, dst := d.img, pat := p.img },
                     src_buffer := s.job_buf, dst_buffer := d.job_buf,
                     els_buffer := p.job_buf } }
        else
          { ret := 0, drv := { drv with mm := some p.mm },
            job := (rga_mm_set_mmu_flag p.mm
              { job with
                rga_command_base := { req with src := s.img, dst := d.img, pat := p.img },
                src_buffer := s.job_buf, dst_buffer := d.job_buf,
                els_buffer := p.job_buf }).2 }

/-- Return everything the job's channels hold. -/
def rga_mm_put_handle_info (drv : rga_drvdata) (job : rga_job) : rga_drvdata :=
  match drv.mm with
  | none => drv
  | some mm =>
    { drv with mm := some (rga_mm_put_channel_handle_info drv.scheduler
        (rga_mm_put_channel_handle_info drv.scheduler
          (rga_mm_put_channel_handle_info drv.scheduler
            (rga_mm_put_channel_handle_info drv.scheduler mm job job.src_buffer
              dma_data_direction.DMA_NONE)
            job job.dst_buffer dma_data_direction.DMA_FROM_DEVICE)
          job job.src1_buffer dma_data_direction.DMA_NONE)
        job job.els_buffer dma_data_direction.DMA_NONE) }

/-! ## Sequences of calls -/

/-- The driver together with the jobs that were prepared and not yet completed. -/
structure rga_system where
  drv : rga_drvdata
  jobs : List rga_job

/-- A new job for a command: no buffer acquired yet. -/
def rga_job.kzalloc (req : rga_req) (core : Nat) (scheduler : Option Nat) : rga_job :=
  { rga_command_base := req, core := core, scheduler := scheduler,
    src_buffer := rga_job_buffer.kzalloc, dst_buffer := rga_job_buffer.kzalloc,
    src1_buffer := rga_job_buffer.kzalloc, els_buffer := rga_job_buffer.kzalloc }

/-- The calls collaborators make into the manager.  `get_handle_info` prepares
a new job for the command; `put_handle_info n` completes the `n`-th job still
in preparation. -/
inductive rga_call where
  | import_buffer (external_buffer : rga_external_buffer) (session : Nat) (env : rga_import_env)
  | release_buffer (handle : Nat)
  | session_release_buffer (session : Nat)
  | get_handle_info (req : rga_req) (core : Nat) (scheduler : Option Nat) (env : rga_job_env)
  | put_handle_info (index : Nat)

/-- The driver after rga_mm_init, for a list of scheduler cores. -/
def rga_boot (scheduler : List Nat) : rga_system :=
  { drv := { scheduler := scheduler, mm := some rga_mm_init }, jobs := [] }

/-- Effect of one call. -/
def rga_step (s : rga_system) : rga_call → rga_system
  | rga_call.import_buffer external_buffer session env =>
    { s with drv := (rga_mm_import_buffer s.drv external_buffer session env).2 }
  | rga_call.release_buffer handle =>
    { s with drv := (rga_mm_release_buffer s.drv handle).2 }
  | rga_call.session_release_buffer session =>
    { s with drv := (rga_mm_session_release_buffer s.drv session).2 }
  | rga_call.get_handle_info req core scheduler env =>
    { drv := (rga_mm_get_handle_info s.drv env (rga_job.kzalloc req core scheduler)).drv,
      jobs := (rga_mm_get_handle_info s.drv env (rga_job.kzalloc req core scheduler)).job
        :: s.jobs }
  | rga_call.put_handle_info index =>
    match s.jobs.get? index with
    | none => s
    | some job => { drv := rga_mm_put_handle_info s.drv job, jobs := s.jobs.eraseIdx index }

/-- Effect of a sequence of calls. -/
def rga_run (s : rga_system) (calls : List rga_call) : rga_system :=
  calls.foldl rga_step s

/-- The live entries of the registry. -/
def rga_drvdata.entries (drv : rga_drvdata) : List rga_internal_buffer :=
  match drv.mm with
  | none => []
  | some mm => mm.memory_idr.entries

/-- The buffer pointers a channel state holds. -/
def rga_job_buffer.refs (job_buf : rga_job_buffer) : List Nat :=
  job_buf.y_addr.toList ++ job_buf.uv_addr.toList ++ job_buf.v_addr.toList

/-- The references a job holds: what rga_mm_get_buffer stored in its channel
states and rga_mm_put_buffer has not yet been called for. -/
def rga_job.refs (job : rga_job) : List Nat :=
  job.src_buffer.refs ++ job.dst_buffer.refs ++ job.src1_buffer.refs ++ job.els_buffer.refs

/-- The references held by all jobs in preparation. -/
def rga_system.held (s : rga_system) : List Nat :=
  s.jobs.flatMap rga_job.refs

/-- Ledger of outstanding imports, one occurrence of a handle for each import
that returned it and has not been released: an import adds the handle it
returns, a successful release takes one occurrence of the released handle
away, a session release one occurrence for each entry it puts. -/
def ledger_step (s : rga_system) (owned : List Nat) : rga_call → List Nat
  | rga_call.import_buffer external_buffer session env =>
    if (rga_mm_import_buffer s.drv external_buffer session env).1 = 0 then owned
    else (rga_mm_import_buffer s.drv external_buffer session env).1 :: owned
  | rga_call.release_buffer handle =>
    if (rga_mm_release_buffer s.drv handle).1 = 0 then owned.erase (handle % 2 ^ 32) else owned
  | rga_call.session_release_buffer session =>
    ((s.drv.entries.filter (fun e => session = e.session)).map
      (fun e => e.handle)).foldl List.erase owned
  | _ => owned

/-- The ledger after a sequence of calls. -/
def ledger_run (s : rga_system) (owned : List Nat) : List rga_call → List Nat
  | [] => owned
  | c :: cs => ledger_run (rga_step s c) (ledger_step s owned c) cs

/-- A release is balanced when an outstanding import pays for every reference
it drops. -/
def balanced_step (s : rga_system) (owned : List Nat) : rga_call → Bool
  | rga_call.release_buffer handle =>
    (rga_mm_release_buffer s.drv handle).1 ≠ 0 || decide (handle % 2 ^ 32 ∈ owned)
  | rga_call.session_release_buffer session =>
    ((s.drv.entries.filter (fun e => session = e.session)).map
      (fun e => e.handle)).all (fun h => decide (h ∈ owned))
  | _ => true

/-- Every release of the sequence is balanced. -/
def balanced_run (s : rga_system) (owned : List Nat) : List rga_call → Bool
  | [] => true
  | c :: cs => balanced_step s owned c && balanced_run (rga_step s c) (ledger_step s owned c) cs

/-- The handles the import calls of a sequence returned, in call order. -/
def import_returns (s : rga_system) : List rga_call → List Nat
  | [] => []
  | rga_call.import_buffer external_buffer session env :: cs =>
    (rga_mm_import_buffer s.drv external_buffer session env).1 ::
      import_returns (rga_step s (rga_call.import_buffer external_buffer session env)) cs
  | c :: cs => import_returns (rga_step s c) cs

/-! ## Ghost notions used to state the properties -/

/-- The handles of the live entries, in id order. -/
def rga_mm.handles (mm : rga_mm) : List Nat :=
  mm.memory_idr.entries.map (fun e => e.handle)

/-- The three classes of identity rga_mm_lookup_external compares on. -/
inductive identity_class where
  | shared_object
  | virtual_address
  | physical_address
  deriving DecidableEq, Repr

/-- The identity an entry records: the shared object in slot 0 for the two
shared-buffer kinds, the resolved address for a virtual-address entry, the
address for a physical-address entry; `none` when the entry has no such
record. -/
def entry_identity (e : rga_internal_buffer) : Option (identity_class × Nat) :=
  match e.type with
  | rga_memory_type.RGA_DMA_BUFFER | rga_memory_type.RGA_DMA_BUFFER_PTR =>
    match e.dma_buffer with
    | some (s :: _) => some (identity_class.shared_object, s.dma_buf)
    | _ => none
  | rga_memory_type.RGA_VIRTUAL_ADDRESS =>
    e.virt_addr.map (fun v => (identity_class.virtual_address, v.addr))
  | rga_memory_type.RGA_PHYSICAL_ADDRESS => some (identity_class.physical_address, e.phys_addr)
  | rga_memory_type.ILLEGAL _ => none

/-- Every live entry holds at least one reference. -/
def rga_mm.counts_positive (mm : rga_mm) : Prop :=
  ∀ e ∈ mm.memory_idr.entries, 1 ≤ e.refcount

/-! ## Concrete inputs for the evaluations -/

/-- An environment in which every primitive succeeds. -/
def sample_env : rga_import_env :=
  { kzalloc_internal_buffer := true, kcalloc_dma_buffer := true, dma_buf_get := none,
    map_attachment := fun _ => (0, { sgl := [], nents := 0 }), current_mm := some 1,
    image_size := 4096, get_free_pages := true, get_user_pages := 0, pinned_pages := [],
    vma_page := fun a => some (a / 4096), kzalloc_virt_addr := true,
    alloc_sgt := fun _ => some
      { sgl := [{ phys := 0x1000, length := 4096, dma_address := 0, dma_len := 0 }], nents := 1 },
    iommu_map_virt_addr := fun _ => (0, 0x8000), dma_map_sg := fun _ => 1 }

/-- A scatter segment mapped one-to-one. -/
def sample_segment (phys : Nat) (length : Nat) : scatterlist :=
  { phys := phys, length := length, dma_address := phys, dma_len := length }

/-- An environment whose descriptor resolves to `dma_buf` and whose map
primitive yields the given segments on every engine. -/
def sample_shared_env (dma_buf : Nat) (segments : List scatterlist) : rga_import_env :=
  { sample_env with
    dma_buf_get := some dma_buf,
    map_attachment := fun _ => (0, { sgl := segments, nents := segments.length }) }

/-- Layout of a 4 KiB buffer. -/
def sample_parm : rga_memory_parm :=
  { width := 0, height := 0, format := 0, size := 4096 }

/-- An import request of the given kind and value. -/
def sample_request (type : rga_memory_type) (memory : Nat) : rga_external_buffer :=
  { memory := memory, type := type, memory_parm := sample_parm }

/-- A channel description carrying one handle. -/
def sample_img (handle : Nat) : rga_img_info_t :=
  { yrgb_addr := handle, uv_addr := 0, v_addr := 0, format := 0, vir_w := 64, vir_h := 16 }

/-- A command with the given source and destination handles. -/
def sample_req (src : Nat) (dst : Nat) : rga_req :=
  { render_mode := 0, src := sample_img src, dst := sample_img dst, pat := sample_img 0,
    bsfilter_flag := 0, mmu_info := { mmu_en := 0, mmu_flag := 0 } }

/-- Helpers of a job whose page-table allocations succeed. -/
def sample_job_env : rga_job_env :=
  { image_size_cal := fun _ _ _ => (4096, 4096, 0, 0), convert_addr := fun img => img,
    get_free_pages_src := true, get_free_pages_dst := true, get_free_pages_pat := true }

/-- The engine list of a board with two RGA3 cores and one RGA2 core. -/
def sample_scheduler : List Nat :=
  [RGA3_SCHEDULER_CORE0, RGA3_SCHEDULER_CORE1, RGA2_SCHEDULER_CORE0]

/-- The list `refs` of references accounts for the entries `l`: handles are
distinct, each entry's refcount is the number of occurrences of its handle in
`refs` and is at least 1, and every handle in `refs` is live. -/
def accounted (l : List rga_internal_buffer) (refs : List Nat) : Prop :=
  (l.map (fun e => e.handle)).Nodup ∧
  (∀ e ∈ l, e.refcount = refs.count e.handle ∧ 1 ≤ e.refcount) ∧
  (∀ h ∈ refs, h ∈ l.map (fun e => e.handle))

/-- The entries `l2` come from `l1` by dropping entries and changing
refcounts: handles stay in order, and every entry of `l2` has the handle and
the recorded identity of an entry of `l1`. -/
def derived_from (l1 l2 : List rga_internal_buffer) : Prop :=
  (l2.map (fun e => e.handle)).Sublist (l1.map (fun e => e.handle)) ∧
  ∀ e2 ∈ l2, ∃ e1 ∈ l1, e2.handle = e1.handle ∧ entry_identity e2 = entry_identity e1

/-- Handles are distinct, at least 1, and below the allocation cursor. -/
def rga_mm.fresh (mm : rga_mm) : Prop :=
  mm.handles.Nodup ∧
  ∀ e ∈ mm.memory_idr.entries, 1 ≤ e.handle ∧ e.handle < mm.memory_idr.idr_next

/-- No two entries record the same identity. -/
def identities_unique (l : List rga_internal_buffer) : Prop :=
  ∀ e1 ∈ l, ∀ e2 ∈ l, entry_identity e1 ≠ none → entry_identity e1 = entry_identity e2 → e1 = e2

/-- Invariant of balanced call sequences: the ledger of outstanding imports
together with the references held by jobs accounts for the registry. -/
def rga_system.balanced (s : rga_system) (owned : List Nat) : Prop :=
  ∃ mm, s.drv.mm = some mm ∧ mm.fresh ∧ accounted mm.memory_idr.entries (owned ++ s.held)

/-- The entry a creating import stores: the mapped buffer with its first
reference, its session, and the handle the allocator hands out. -/
def imported_entry (drv : rga_drvdata) (mm : rga_mm) (ext : rga_external_buffer)
    (session : Nat) (env : rga_import_env) : rga_internal_buffer :=
  { (rga_mm_map_buffer drv.scheduler env ext rga_internal_buffer.kzalloc).2 with
    refcount := 1, session := session, handle := max 1 mm.memory_idr.idr_next }

/-- The slot holds the shared object the request names: the object behind the
descriptor for a file-descriptor request, the pointer for a pointer request. -/
def holds_request_object (env : rga_import_env) (ext : rga_external_buffer)
    (s : rga_dma_buffer) : Prop :=
  (ext.type = rga_memory_type.RGA_DMA_BUFFER → env.dma_buf_get = some s.dma_buf) ∧
  (ext.type = rga_memory_type.RGA_DMA_BUFFER_PTR → s.dma_buf = ext.memory)

/-- Slot 0 of the array, when there is one, holds the object the request names. -/
def head_holds (env : rga_import_env) (ext : rga_external_buffer)
    (a : Option (List rga_dma_buffer)) : Prop :=
  ∀ s t, a = some (s :: t) → holds_request_object env ext s

/-- The manager `mm2` is `mm` after one kref_get for each element of `refs`,
all of them handles of live entries. -/
def acquired (mm : rga_mm) (refs : List Nat) (mm2 : rga_mm) : Prop :=
  mm2 = refs.foldl kref_get mm ∧ ∀ h ∈ refs, h ∈ mm.handles

/-- No buffer pointer is stored in the channel state. -/
def rga_job_buffer.is_empty (job_buf : rga_job_buffer) : Prop :=
  job_buf.y_addr = none ∧ job_buf.uv_addr = none ∧ job_buf.v_addr = none

/-- No buffer pointer is stored in any channel state of the job. -/
def rga_job.is_empty (job : rga_job) : Prop :=
  job.src_buffer.is_empty ∧ job.dst_buffer.is_empty ∧ job.src1_buffer.is_empty ∧
    job.els_buffer.is_empty

/-- The manager with `refs.count h` references more on every entry `h`. -/
def rga_mm.bump (mm : rga_mm) (refs : List Nat) : rga_mm :=
  { mm with memory_idr := { mm.memory_idr with
      entries := mm.memory_idr.entries.map
        (fun e => { e with refcount := e.refcount + refs.count e.handle }) } }

/-- True when the identity lookup found an entry. -/
def lookup_result.is_found : lookup_result → Bool
  | lookup_result.found _ => true
  | _ => false

/-- The identity lookup as the import call performs it on the driver's manager. -/
def rga_drvdata.lookup_external (drv : rga_drvdata) (external_buffer : rga_external_buffer)
    (env : rga_import_env) : lookup_result :=
  match drv.mm with
  | none => lookup_result.NULL
  | some mm => rga_mm_lookup_external mm external_buffer env

/-- Import of the physical address `a` by `session`, every primitive succeeding. -/
def sample_import_physical (a : Nat) (session : Nat) : rga_call :=
  rga_call.import_buffer (sample_request rga_memory_type.RGA_PHYSICAL_ADDRESS a) session
    sample_env

/-- Import by descriptor 3 of the shared object `dma_buf`, which every engine
maps to the given segments. -/
def sample_import_fd (dma_buf : Nat) (segments : List scatterlist) (session : Nat) : rga_call :=
  rga_call.import_buffer (sample_request rga_memory_type.RGA_DMA_BUFFER 3) session
    (sample_shared_env dma_buf segments)

/-- Preparation of a job on the RGA2 core with the given source and
destination handles. -/
def sample_get (src : Nat) (dst : Nat) : rga_call :=
  rga_call.get_handle_info (sample_req src dst) RGA2_SCHEDULER_CORE0 (some 2) sample_job_env

/-- Handle and refcount of every live entry. -/
def rga_drvdata.counts (drv : rga_drvdata) : List (Nat × Nat) :=
  drv.entries.map (fun e => (e.handle, e.refcount))

/-- Run length of a segment in whole pages as the page-table walk takes it:
the device-mapped length when that is at least one page, else the physical
length. -/
def segment_run_length (sg : scatterlist) : Nat :=
  if sg.dma_len / PAGE_SIZE = 0 then sg.length / PAGE_SIZE else sg.dma_len / PAGE_SIZE

/-- The address the walk starts a segment at: the device address when
`use_dma_address` is set, else the physical address. -/
def segment_address (use_dma_address : Int) (sg : scatterlist) : Nat :=
  if use_dma_address ≠ 0 then sg.dma_address else sg.phys

/-- The 32-bit page-frame entries of one segment, one for each page of its
run. -/
def segment_frames (use_dma_address : Int) (sg : scatterlist) : List Nat :=
  (List.range (segment_run_length sg)).map
    (fun j => (segment_address use_dma_address sg + j * PAGE_SIZE) % 2 ^ 32)

/-- The page-frame entries of the segments the walk can reach, in segment
order: the first segment, and the following ones up to `nents` segments in
all. -/
def table_frames (use_dma_address : Int) (sg : sg_table) : List Nat :=
  (sg.sgl.take (max 1 sg.nents)).flatMap (segment_frames use_dma_address)

/-- The fields of a scatter table fit their C types (`unsigned int`). -/
def sg_table.well_formed (sg : sg_table) : Prop :=
  sg.sgl.length < 2 ^ 32 ∧ ∀ s ∈ sg.sgl, s.length < 2 ^ 32 ∧ s.dma_len < 2 ^ 32

/-- A channel state with three plane buffers for which rga_mm_set_mmu_base
can build the table: the planes have page counts `c1`, `c2`, `c3` (the page
count of the plane's byte size plus its intra-page offset `o1`, `o2`, `o3`),
the sizes fit a C `int`, and every plane has a scatter table for the job's
engine whose fields fit their C types. -/
def three_planes_ready (mm : rga_mm) (env : rga_job_env) (job : rga_job)
    (img : rga_img_info_t) (job_buf : rga_job_buffer) (c1 c2 c3 o1 o2 o3 : Nat)
    (sy suv sv : sg_table) : Prop :=
  job_buf.uv_addr ≠ none ∧
  virt_offset mm job_buf.y_addr = (o1 : Int) ∧
  virt_offset mm job_buf.uv_addr = (o2 : Int) ∧
  virt_offset mm job_buf.v_addr = (o3 : Int) ∧
  RGA_GET_PAGE_COUNT
    ((env.image_size_cal img.vir_w img.vir_h img.format).2.1 + (o1 : Int)) = (c1 : Int) ∧
  RGA_GET_PAGE_COUNT
    ((env.image_size_cal img.vir_w img.vir_h img.format).2.2.1 + (o2 : Int)) = (c2 : Int) ∧
  RGA_GET_PAGE_COUNT
    ((env.image_size_cal img.vir_w img.vir_h img.format).2.2.2 + (o3 : Int)) = (c3 : Int) ∧
  (c1 + c2 + c3 + 1) * PAGE_SIZE ≤ 2 ^ 31 ∧
  (o1 < PAGE_SIZE ∧ o2 < PAGE_SIZE ∧ o3 < PAGE_SIZE) ∧
  lookup_sgt_of mm job_buf.y_addr job.core = some sy ∧
  lookup_sgt_of mm job_buf.uv_addr job.core = some suv ∧
  lookup_sgt_of mm job_buf.v_addr job.core = some sv ∧
  sy.well_formed ∧ suv.well_formed ∧ sv.well_formed

/-- A registry with three shared buffers of 4, 2 and 2 pages, handles 1, 2, 3. -/
def sample_planes_mm : rga_mm :=
  (rga_run (rga_boot sample_scheduler)
    [sample_import_fd 0x5000 [sample_segment 0x10000 8192, sample_segment 0x30000 8192] 7,
     sample_import_fd 0x6000 [sample_segment 0x50000 4096, sample_segment 0x70000 4096] 7,
     sample_import_fd 0x7000 [sample_segment 0x90000 4096, sample_segment 0xb0000 4096] 7]
    ).drv.mm.getD rga_mm_init

/-- Helpers of a job whose image has planes of 16384, 8192 and 4096 bytes. -/
def sample_planes_env : rga_job_env :=
  { sample_job_env with image_size_cal := fun _ _ _ => (28672, 16384, 8192, 4096) }

/-- The channel state holding the three plane buffers of `sample_planes_mm`. -/
def sample_planes_buf : rga_job_buffer :=
  { rga_job_buffer.kzalloc with y_addr := some 1, uv_addr := some 2, v_addr := some 3 }

/-- Import of the virtual address `a` by `session`, every primitive succeeding. -/
def sample_import_virtual (a : Nat) (session : Nat) : rga_call :=
  rga_call.import_buffer (sample_request rga_memory_type.RGA_VIRTUAL_ADDRESS a) session
    sample_env

/-- A table of two one-page segments that the device mapping merged into one
device segment of two pages. -/
def sample_merged_table : sg_table :=
  { sgl := [{ phys := 0x10000, length := 4096, dma_address := 0x80000, dma_len := 8192 },
            { phys := 0x30000, length := 4096, dma_address := 0, dma_len := 0 }],
    nents := 1 }

/-- A table of two segments of two pages each, both mapped. -/
def sample_two_segment_table : sg_table :=
  { sgl := [sample_segment 0x10000 8192, sample_segment 0x30000 8192], nents := 2 }

/-- Whether the channel with state `job_buf` needs translation on the engine
of the job, as rga_mm_set_mmu_flag asks it. -/
def needs_translation (mm : rga_mm) (job : rga_job) (job_buf : rga_job_buffer) : Bool :=
  rga_mm_is_need_mmu job.core (deref mm job_buf.addr)

/-- A command with source handle 1 whose `mmu_flag` arrives with bit 8 set. -/
def sample_req_bit8 : rga_req :=
  { sample_req 1 0 with mmu_info := { mmu_en := 0, mmu_flag := 0x100 } }

/-- One of the channel bits 8 to 11 of the flag word is set. -/
def rga_mmu_t.channel_bit_set (info : rga_mmu_t) : Bool :=
  info.mmu_flag.testBit 8 || info.mmu_flag.testBit 9 || info.mmu_flag.testBit 10 ||
    info.mmu_flag.testBit 11

/-- The MMU word `after` is `before` with the bits of the channels that need
translation or-ed in: bits 8, 9, 10, 11 for the source, the second source or
pattern, the destination and the lookup table; bit 0, bit 31 and `mmu_en` are
raised when one of these four bits is set. -/
def mmu_flag_accumulated (before after : rga_mmu_t) (src src1 dst els : Bool) : Prop :=
  after.mmu_flag.testBit 8 = (before.mmu_flag.testBit 8 || src) ∧
  after.mmu_flag.testBit 9 = (before.mmu_flag.testBit 9 || src1) ∧
  after.mmu_flag.testBit 10 = (before.mmu_flag.testBit 10 || dst) ∧
  after.mmu_flag.testBit 11 = (before.mmu_flag.testBit 11 || els) ∧
  after.mmu_flag.testBit 0 = (before.mmu_flag.testBit 0 || after.channel_bit_set) ∧
  after.mmu_flag.testBit 31 = (before.mmu_flag.testBit 31 || after.channel_bit_set) ∧
  after.mmu_en = if after.channel_bit_set = true then 1 else before.mmu_en

/-- A job on the RGA2 core for the command. -/
def sample_rga2_job (req : rga_req) : rga_job :=
  rga_job.kzalloc req RGA2_SCHEDULER_CORE0 (some 2)

/-- The driver after one import of the virtual address 0x7f0000. -/
def sample_virtual_drv : rga_drvdata :=
  (rga_run (rga_boot sample_scheduler) [sample_import_virtual 0x7f0000 7]).drv

/-- The driver after one import of the physical address 0x1000. -/
def sample_physical_drv : rga_drvdata :=
  (rga_run (rga_boot sample_scheduler) [sample_import_physical 0x1000 7]).drv

/-- The request resolves to `N` pages, `N` at least 1, and the allocations of
rga_alloc_virt_addr succeed. -/
def alloc_ready (env : rga_import_env) (viraddr : Nat) (memory_parm : rga_memory_parm)
    (N : Nat) : Prop :=
  to_uint32 (RGA_GET_PAGE_COUNT (to_uint64
    ((if memory_parm.size ≠ 0 then to_int32 memory_parm.size else env.image_size) +
      ((viraddr % PAGE_SIZE : Nat) : Int)))) = N ∧
  0 < N ∧ env.get_free_pages = true ∧ env.kzalloc_virt_addr = true

/-- Layout of an 8 KiB buffer. -/
def sample_two_page_parm : rga_memory_parm :=
  { width := 0, height := 0, format := 0, size := 8192 }

/-- An environment in which the bulk pin resolves both pages of an 8 KiB buffer. -/
def sample_full_pin_env : rga_import_env :=
  { sample_env with get_user_pages := 2, pinned_pages := [77, 78] }

/-- An environment in which the bulk pin resolves one page and stops. -/
def sample_partial_pin_env : rga_import_env :=
  { sample_env with get_user_pages := 1, pinned_pages := [77] }

/-- An environment whose descriptor resolves to the object 0x5000, mapped by
every engine to two segments above the 4 GiB boundary. -/
def sample_high_env : rga_import_env :=
  sample_shared_env 0x5000 [sample_segment 0x100000000 4096, sample_segment 0x100002000 4096]

/-- A board whose scheduler list starts with the RGA2 core. -/
def sample_scheduler_rga2_first : List Nat :=
  [RGA2_SCHEDULER_CORE0, RGA3_SCHEDULER_CORE0, RGA3_SCHEDULER_CORE1]

/-- The identity an import request names, as rga_mm_lookup_external reads it:
the shared object behind the descriptor or the pointer, the virtual address,
or the physical address; `none` when the descriptor does not resolve or the
kind is illegal. -/
def request_key (external_buffer : rga_external_buffer) (env : rga_import_env) :
    Option (identity_class × Nat) :=
  match external_buffer.type with
  | rga_memory_type.RGA_DMA_BUFFER =>
    env.dma_buf_get.map (fun dma_buf => (identity_class.shared_object, dma_buf))
  | rga_memory_type.RGA_DMA_BUFFER_PTR =>
    some (identity_class.shared_object, external_buffer.memory)
  | rga_memory_type.RGA_VIRTUAL_ADDRESS =>
    some (identity_class.virtual_address, external_buffer.memory)
  | rga_memory_type.RGA_PHYSICAL_ADDRESS =>
    some (identity_class.physical_address, external_buffer.memory)
  | rga_memory_type.ILLEGAL _ => none

/-- The identity recorded by the live entry under `handle`, `none` when there
is no such entry or it records none. -/
def rga_drvdata.identity_of (drv : rga_drvdata) (handle : Nat) :
    Option (identity_class × Nat) :=
  (drv.entries.find? (fun e => e.handle == handle)).bind entry_identity

/-- An import resolves by identity when it fails or the entry under the handle
it returns records the identity its request names. -/
def resolves_by_identity_step (s : rga_system) : rga_call → Bool
  | rga_call.import_buffer external_buffer session env =>
    decide ((rga_mm_import_buffer s.drv external_buffer session env).1 = 0) ||
    decide ((rga_mm_import_buffer s.drv external_buffer session env).2.identity_of
      (rga_mm_import_buffer s.drv external_buffer session env).1
        = request_key external_buffer env)
  | _ => true

/-- Every import of the sequence resolves by identity. -/
def resolves_by_identity (s : rga_system) : List rga_call → Bool
  | [] => true
  | c :: cs => resolves_by_identity_step s c && resolves_by_identity (rga_step s c) cs

/-- The environment `env` with other outcomes of the map primitives for the
engine at index `j`: of the attach-and-map of a shared buffer, of
rga_iommu_map_virt_addr and of dma_map_sg. -/
def rga_import_env.with_map_outcome (env : rga_import_env) (j : Nat) (a : Int × sg_table)
    (b : Int × Nat) (c : Nat) : rga_import_env :=
  { env with
    map_attachment := fun i => if i = j then a else env.map_attachment i,
    iommu_map_virt_addr := fun i => if i = j then b else env.iommu_map_virt_addr i,
    dma_map_sg := fun i => if i = j then c else env.dma_map_sg i }
theorem unmap_dma_buffer_loop_handle (ib : rga_internal_buffer) (slots : List rga_dma_buffer)
    (i : Nat) : (rga_mm_unmap_dma_buffer_loop ib slots i).1.handle = ib.handle := by
  induction slots generalizing i with
  | nil => rfl
  | cons s rest ih =>
    simp only [rga_mm_unmap_dma_buffer_loop]
    split
    · rfl
    · exact ih (i + 1)

theorem rga_mm_unmap_buffer_handle (scheduler : List Nat) (ib : rga_internal_buffer) :
    (rga_mm_unmap_buffer scheduler ib).2.handle = ib.handle := by
  unfold rga_mm_unmap_buffer
  split <;> simp [rga_mm_unmap_dma_buffer, rga_mm_unmap_virt_addr, unmap_dma_buffer_loop_handle]

theorem kref_release_eq (scheduler : List Nat) (mm : rga_mm) (e : rga_internal_buffer) :
    rga_mm_kref_release_buffer scheduler mm e =
      { memory_idr := idr_remove mm.memory_idr e.handle, buffer_count := mm.buffer_count - 1 } := by
  simp [rga_mm_kref_release_buffer, rga_mm_unmap_buffer_handle]

theorem find_handle_none {l : List rga_internal_buffer} {h : Nat}
    (hne : ∀ e ∈ l, e.handle ≠ h) : l.find? (fun e => e.handle == h) = none := by
  rw [List.find?_eq_none]
  intro e he
  simpa using hne e he

theorem find_handle_some {l : List rga_internal_buffer} {h : Nat} {e : rga_internal_buffer}
    (hf : l.find? (fun e => e.handle == h) = some e) : e ∈ l ∧ e.handle = h := by
  refine ⟨List.mem_of_find?_eq_some hf, ?_⟩
  simpa using List.find?_some hf

theorem nodup_handle_inj {l : List rga_internal_buffer}
    (hnd : (l.map (fun e => e.handle)).Nodup) {a b : rga_internal_buffer}
    (ha : a ∈ l) (hb : b ∈ l) (hab : a.handle = b.handle) : a = b :=
  List.inj_on_of_nodup_map hnd ha hb hab

theorem kref_get_entries (mm : rga_mm) (h : Nat) :
    (kref_get mm h).memory_idr.entries =
      mm.memory_idr.entries.map
        (fun e => if e.handle = h then { e with refcount := e.refcount + 1 } else e) := rfl

theorem kref_get_idr_next (mm : rga_mm) (h : Nat) :
    (kref_get mm h).memory_idr.idr_next = mm.memory_idr.idr_next := rfl

theorem kref_get_buffer_count (mm : rga_mm) (h : Nat) :
    (kref_get mm h).buffer_count = mm.buffer_count := rfl

theorem kref_get_handles (mm : rga_mm) (h : Nat) : (kref_get mm h).handles = mm.handles := by
  unfold rga_mm.handles
  rw [kref_get_entries, List.map_map]
  apply List.map_congr_left
  intro e _
  by_cases he : e.handle = h <;> simp [he]

theorem kref_put_idr_next (scheduler : List Nat) (mm : rga_mm) (h : Nat) :
    (kref_put scheduler mm h).memory_idr.idr_next = mm.memory_idr.idr_next := by
  unfold kref_put
  split
  · rfl
  · split
    · rw [kref_release_eq]; rfl
    · rfl

/-- What kref_put does to the entry list: nothing for a dangling pointer,
removal at the last reference, a countdown otherwise. -/
theorem kref_put_entries (scheduler : List Nat) (mm : rga_mm) (h : Nat) :
    (idr_find mm.memory_idr h = none ∧ kref_put scheduler mm h = mm) ∨
    (∃ b, idr_find mm.memory_idr h = some b ∧ b.refcount = 1 ∧
      (kref_put scheduler mm h).memory_idr.entries =
        mm.memory_idr.entries.filter (fun e => e.handle != h)) ∨
    (∃ b, idr_find mm.memory_idr h = some b ∧ b.refcount ≠ 1 ∧
      (kref_put scheduler mm h).memory_idr.entries =
        mm.memory_idr.entries.map
          (fun e => if e.handle = h then { e with refcount := e.refcount - 1 } else e)) := by
  unfold kref_put
  cases hf : idr_find mm.memory_idr h with
  | none => exact Or.inl ⟨rfl, rfl⟩
  | some b =>
    have hb := (find_handle_some hf).2
    by_cases hrc : b.refcount = 1
    · refine Or.inr (Or.inl ⟨b, rfl, hrc, ?_⟩)
      simp only [hrc, if_true, kref_release_eq, idr_remove, hb]
    · refine Or.inr (Or.inr ⟨b, rfl, hrc, ?_⟩)
      simp only [hrc, if_false, idr_modify]

theorem derived_from_refl (l : List rga_internal_buffer) : derived_from l l :=
  ⟨List.Sublist.refl _, fun e he => ⟨e, he, rfl, rfl⟩⟩

theorem derived_from_trans {l1 l2 l3 : List rga_internal_buffer}
    (h12 : derived_from l1 l2) (h23 : derived_from l2 l3) : derived_from l1 l3 := by
  refine ⟨h23.1.trans h12.1, ?_⟩
  intro e3 he3
  obtain ⟨e2, he2, hh2, hi2⟩ := h23.2 e3 he3
  obtain ⟨e1, he1, hh1, hi1⟩ := h12.2 e2 he2
  exact ⟨e1, he1, hh2.trans hh1, hi2.trans hi1⟩

theorem derived_from_map_refcount (l : List rga_internal_buffer) (h : Nat) (g : Nat → Nat) :
    derived_from l
      (l.map (fun e => if e.handle = h then { e with refcount := g e.refcount } else e)) := by
  constructor
  · rw [List.map_map]
    have : (l.map ((fun (e : rga_internal_buffer) => e.handle) ∘
        (fun e => if e.handle = h then { e with refcount := g e.refcount } else e)))
        = l.map (fun e => e.handle) := by
      apply List.map_congr_left
      intro e _
      by_cases he : e.handle = h <;> simp [he]
    rw [this]
  · intro e2 he2
    obtain ⟨e, he, rfl⟩ := List.mem_map.1 he2
    refine ⟨e, he, ?_, ?_⟩
    · by_cases hh : e.handle = h <;> simp [hh]
    · by_cases hh : e.handle = h
      · simp only [hh, if_true]
        unfold entry_identity
        rfl
      · simp [hh]

theorem derived_from_filter (l : List rga_internal_buffer) (p : rga_internal_buffer → Bool) :
    derived_from l (l.filter p) :=
  ⟨(List.filter_sublist l).map _, fun e he => ⟨e, List.mem_of_mem_filter he, rfl, rfl⟩⟩

theorem derived_from_kref_get (mm : rga_mm) (h : Nat) :
    derived_from mm.memory_idr.entries (kref_get mm h).memory_idr.entries := by
  rw [kref_get_entries]
  exact derived_from_map_refcount _ h (fun n => n + 1)

theorem derived_from_kref_put (scheduler : List Nat) (mm : rga_mm) (h : Nat) :
    derived_from mm.memory_idr.entries (kref_put scheduler mm h).memory_idr.entries := by
  rcases kref_put_entries scheduler mm h with ⟨_, heq⟩ | ⟨b, _, _, heq⟩ | ⟨b, _, _, heq⟩
  · rw [heq]; exact derived_from_refl _
  · rw [heq]; exact derived_from_filter _ _
  · rw [heq]; exact derived_from_map_refcount _ h (fun n => n - 1)

theorem fresh_of_derived {mm mm2 : rga_mm} (hf : mm.fresh)
    (hd : derived_from mm.memory_idr.entries mm2.memory_idr.entries)
    (hn : mm2.memory_idr.idr_next = mm.memory_idr.idr_next) : mm2.fresh := by
  refine ⟨hf.1.sublist hd.1, ?_⟩
  intro e2 he2
  obtain ⟨e1, he1, hh, _⟩ := hd.2 e2 he2
  rw [hh, hn]
  exact hf.2 e1 he1

theorem identities_unique_of_derived {l1 l2 : List rga_internal_buffer}
    (hnd : (l1.map (fun e => e.handle)).Nodup)
    (hu : identities_unique l1) (hd : derived_from l1 l2) : identities_unique l2 := by
  intro a ha b hb hne heq
  obtain ⟨a1, ha1, hah, hai⟩ := hd.2 a ha
  obtain ⟨b1, hb1, hbh, hbi⟩ := hd.2 b hb
  have h1 : a1 = b1 := hu a1 ha1 b1 hb1 (by rw [← hai]; exact hne) (by rw [← hai, ← hbi]; exact heq)
  have h2 : a.handle = b.handle := by rw [hah, hbh, h1]
  exact nodup_handle_inj (hnd.sublist hd.1) ha hb h2

theorem accounted_perm {l : List rga_internal_buffer} {refs refs2 : List Nat}
    (ha : accounted l refs) (hp : refs.Perm refs2) : accounted l refs2 := by
  refine ⟨ha.1, ?_, ?_⟩
  · intro e he
    rw [← hp.count_eq]
    exact ha.2.1 e he
  · intro h hh
    exact ha.2.2 h (hp.mem_iff.2 hh)

theorem accounted_kref_get {mm : rga_mm} {refs : List Nat} {h : Nat}
    (ha : accounted mm.memory_idr.entries refs) (hh : h ∈ mm.handles) :
    accounted (kref_get mm h).memory_idr.entries (h :: refs) := by
  have hhd : (kref_get mm h).handles = mm.handles := kref_get_handles mm h
  unfold rga_mm.handles at hhd hh
  refine ⟨by rw [hhd]; exact ha.1, ?_, ?_⟩
  · intro e2 he2
    rw [kref_get_entries] at he2
    obtain ⟨e, he, rfl⟩ := List.mem_map.1 he2
    have := ha.2.1 e he
    by_cases hc : e.handle = h
    · simp only [hc, if_true, List.count_cons_self]
      rw [← hc]
      omega
    · have hc2 : h ≠ e.handle := fun x => hc x.symm
      simp only [hc, if_false]
      rw [List.count_cons_of_ne hc]
      exact this
  · intro x hx
    rw [hhd]
    rcases List.mem_cons.1 hx with rfl | hx
    · exact hh
    · exact ha.2.2 x hx

theorem accounted_kref_put (scheduler : List Nat) {mm : rga_mm} {refs : List Nat} {h : Nat}
    (ha : accounted mm.memory_idr.entries (h :: refs)) :
    accounted (kref_put scheduler mm h).memory_idr.entries refs := by
  obtain ⟨hnd, hrc, hlive⟩ := ha
  have hd := derived_from_kref_put scheduler mm h
  have hh : h ∈ mm.memory_idr.entries.map (fun e => e.handle) :=
    hlive h (List.mem_cons_self _ _)
  obtain ⟨b0, hb0, hb0h⟩ := List.mem_map.1 hh
  have hsome : ∀ b, idr_find mm.memory_idr h = some b → b = b0 := by
    intro b hb
    have := find_handle_some hb
    exact nodup_handle_inj hnd this.1 hb0 (by rw [this.2, hb0h])
  have hb0rc := hrc b0 hb0
  rw [hb0h, List.count_cons_self] at hb0rc
  rcases kref_put_entries scheduler mm h with ⟨hnone, _⟩ | ⟨b, hb, hone, heq⟩ | ⟨b, hb, hne, heq⟩
  · exfalso
    unfold idr_find at hnone
    rw [List.find?_eq_none] at hnone
    exact hnone b0 hb0 (by simpa using hb0h)
  · have hbb := hsome b hb
    subst hbb
    have hz : refs.count h = 0 := by omega
    have hnotin : h ∉ refs := List.count_eq_zero.1 hz
    refine ⟨hnd.sublist hd.1, ?_, ?_⟩
    · intro e he
      rw [heq] at he
      obtain ⟨he1, he2⟩ := List.mem_filter.1 he
      have hne : h ≠ e.handle := by
        intro x; simp [x] at he2
      have := hrc e he1
      rw [List.count_cons_of_ne (Ne.symm hne)] at this
      exact this
    · intro x hx
      have hxl := hlive x (List.mem_cons_of_mem _ hx)
      obtain ⟨e, he, hex⟩ := List.mem_map.1 hxl
      rw [heq]
      apply List.mem_map.2
      refine ⟨e, List.mem_filter.2 ⟨he, ?_⟩, hex⟩
      have : e.handle ≠ h := by
        rw [hex]; intro y; exact hnotin (y ▸ hx)
      simpa using this
  · have hbb := hsome b hb
    subst hbb
    have hhandles : (kref_put scheduler mm h).memory_idr.entries.map (fun e => e.handle)
        = mm.memory_idr.entries.map (fun e => e.handle) := by
      rw [heq, List.map_map]
      apply List.map_congr_left
      intro e _
      by_cases he : e.handle = h <;> simp [he]
    refine ⟨by rw [hhandles]; exact hnd, ?_, ?_⟩
    · intro e2 he2
      rw [heq] at he2
      obtain ⟨e, he, rfl⟩ := List.mem_map.1 he2
      by_cases hc : e.handle = h
      · have heb : e = b := nodup_handle_inj hnd he hb0 (by rw [hc, hb0h])
        subst heb
        simp only [hc, if_true]
        omega
      · have hc2 : h ≠ e.handle := fun x => hc x.symm
        have := hrc e he
        rw [List.count_cons_of_ne hc] at this
        simp only [hc, if_false]
        exact this
    · intro x hx
      rw [hhandles]
      exact hlive x (List.mem_cons_of_mem _ hx)

/-! ## Import -/

theorem idr_insert_perm (n : rga_internal_buffer) (l : List rga_internal_buffer) :
    (idr_insert n l).Perm (n :: l) := by
  induction l with
  | nil => exact List.Perm.refl _
  | cons x xs ih =>
    simp only [idr_insert]
    split
    · exact List.Perm.refl _
    · exact (List.Perm.cons x ih).trans (List.Perm.swap n x xs)

theorem mem_idr_insert {n e : rga_internal_buffer} {l : List rga_internal_buffer} :
    e ∈ idr_insert n l ↔ e = n ∨ e ∈ l := by
  rw [(idr_insert_perm n l).mem_iff, List.mem_cons]

theorem lookup_external_found_mem {mm : rga_mm} {ext : rga_external_buffer}
    {env : rga_import_env} {e : rga_internal_buffer}
    (h : rga_mm_lookup_external mm ext env = lookup_result.found e) :
    e ∈ mm.memory_idr.entries := by
  unfold rga_mm_lookup_external at h
  have key : ∀ (o : Option rga_internal_buffer) (p : rga_internal_buffer → Bool),
      o = mm.memory_idr.entries.find? p → lookup_result.of_scan o = lookup_result.found e →
      e ∈ mm.memory_idr.entries := by
    intro o p ho hs
    cases o with
    | none => simp [lookup_result.of_scan] at hs
    | some x =>
      simp only [lookup_result.of_scan, lookup_result.found.injEq] at hs
      subst hs
      exact List.mem_of_find?_eq_some ho.symm
  split at h
  · split at h
    · exact absurd h (by simp)
    · exact key _ _ rfl h
  · exact key _ _ rfl h
  · exact key _ _ rfl h
  · exact key _ _ rfl h
  · exact absurd h (by simp)

/-- The three outcomes of an import: a reference more on the entry the lookup
found, nothing at all, or a new entry under a new handle. -/
theorem import_cases (drv : rga_drvdata) (mm : rga_mm) (ext : rga_external_buffer)
    (session : Nat) (env : rga_import_env) (hmm : drv.mm = some mm) :
    (∃ e, rga_mm_lookup_external mm ext env = lookup_result.found e ∧
      e ∈ mm.memory_idr.entries ∧
      rga_mm_import_buffer drv ext session env =
        (e.handle, { drv with mm := some (kref_get mm e.handle) })) ∨
    ((∀ e, rga_mm_lookup_external mm ext env ≠ lookup_result.found e) ∧
      rga_mm_import_buffer drv ext session env = (0, drv)) ∨
    ((∀ e, rga_mm_lookup_external mm ext env ≠ lookup_result.found e) ∧
      ¬ (rga_mm_map_buffer drv.scheduler env ext rga_internal_buffer.kzalloc).1 < 0 ∧
      rga_mm_import_buffer drv ext session env =
        (max 1 mm.memory_idr.idr_next,
          { drv with mm := some (rga_mm.mk
            (idr.mk (idr_insert (imported_entry drv mm ext session env) mm.memory_idr.entries)
              mm.memory_idr.idr_base (max 1 mm.memory_idr.idr_next + 1))
            (mm.buffer_count + 1)) })) := by
  cases hl : rga_mm_lookup_external mm ext env with
  | found e =>
    refine Or.inl ⟨e, rfl, lookup_external_found_mem hl, ?_⟩
    simp only [rga_mm_import_buffer, hmm, hl]
  | ERR_PTR =>
    right
    by_cases hk : env.kzalloc_internal_buffer = false
    · exact Or.inl ⟨by intro e; simp, by simp [rga_mm_import_buffer, hmm, hl, hk]⟩
    · by_cases hm : (rga_mm_map_buffer drv.scheduler env ext rga_internal_buffer.kzalloc).1 < 0
      · exact Or.inl ⟨by intro e; simp,
          by simp [rga_mm_import_buffer, hmm, hl, hk, hm]⟩
      · refine Or.inr ⟨by intro e; simp, hm, ?_⟩
        simp [rga_mm_import_buffer, hmm, hl, hk, hm, idr_alloc, imported_entry, kref_init]
  | NULL =>
    right
    by_cases hk : env.kzalloc_internal_buffer = false
    · exact Or.inl ⟨by intro e; simp, by simp [rga_mm_import_buffer, hmm, hl, hk]⟩
    · by_cases hm : (rga_mm_map_buffer drv.scheduler env ext rga_internal_buffer.kzalloc).1 < 0
      · exact Or.inl ⟨by intro e; simp,
          by simp [rga_mm_import_buffer, hmm, hl, hk, hm]⟩
      · refine Or.inr ⟨by intro e; simp, hm, ?_⟩
        simp [rga_mm_import_buffer, hmm, hl, hk, hm, idr_alloc, imported_entry, kref_init]

theorem fresh_insert {mm : rga_mm} (hf : mm.fresh) (n : rga_internal_buffer)
    (hn : n.handle = max 1 mm.memory_idr.idr_next) (bc : Int) :
    (rga_mm.mk (idr.mk (idr_insert n mm.memory_idr.entries) mm.memory_idr.idr_base
      (max 1 mm.memory_idr.idr_next + 1)) bc).fresh := by
  have hnot : n.handle ∉ mm.handles := by
    intro hin
    obtain ⟨e, he, heq⟩ := List.mem_map.1 hin
    have := (hf.2 e he).2
    rw [heq, hn] at this
    omega
  constructor
  · unfold rga_mm.handles
    simp only []
    rw [((idr_insert_perm n mm.memory_idr.entries).map _).nodup_iff, List.map_cons]
    exact List.nodup_cons.2 ⟨hnot, hf.1⟩
  · intro e he
    simp only [] at he ⊢
    rcases mem_idr_insert.1 he with rfl | he
    · rw [hn]; omega
    · have := hf.2 e he
      omega

theorem accounted_insert {l : List rga_internal_buffer} {refs : List Nat}
    (ha : accounted l refs) (n : rga_internal_buffer)
    (hnot : n.handle ∉ l.map (fun e => e.handle)) (hrc : n.refcount = 1) :
    accounted (idr_insert n l) (n.handle :: refs) := by
  obtain ⟨hnd, hc, hlive⟩ := ha
  have hnr : n.handle ∉ refs := fun hin => hnot (hlive _ hin)
  refine ⟨?_, ?_, ?_⟩
  · rw [((idr_insert_perm n l).map _).nodup_iff, List.map_cons]
    exact List.nodup_cons.2 ⟨hnot, hnd⟩
  · intro e he
    rcases mem_idr_insert.1 he with rfl | he
    · rw [List.count_cons_self, List.count_eq_zero.2 hnr, hrc]
      exact ⟨rfl, le_refl _⟩
    · have hne : e.handle ≠ n.handle := by
        intro heq
        exact hnot (heq ▸ List.mem_map_of_mem _ he)
      rw [List.count_cons_of_ne hne]
      exact hc e he
  · intro h hh
    rw [((idr_insert_perm n l).map _).mem_iff, List.map_cons]
    rcases List.mem_cons.1 hh with rfl | hh
    · exact List.mem_cons_self _ _
    · exact List.mem_cons_of_mem _ (hlive h hh)

/-! ## What a new entry records -/

theorem unmap_dma_buffer_loop_type (ib : rga_internal_buffer) (slots : List rga_dma_buffer)
    (i : Nat) : (rga_mm_unmap_dma_buffer_loop ib slots i).1.type = ib.type := by
  induction slots generalizing i with
  | nil => rfl
  | cons s rest ih =>
    simp only [rga_mm_unmap_dma_buffer_loop]
    split
    · rfl
    · exact ih (i + 1)

theorem set_slot_type (ib : rga_internal_buffer) (i : Nat) (s : rga_dma_buffer) :
    (ib.set_slot i s).type = ib.type := rfl

theorem set_slot_virt_addr (ib : rga_internal_buffer) (i : Nat) (s : rga_dma_buffer) :
    (ib.set_slot i s).virt_addr = ib.virt_addr := rfl

theorem map_dma_buffer_loop_type (env : rga_import_env) (ext : rga_external_buffer)
    (cores : List Nat) :
    ∀ (i : Nat) (ret : Int) (ib : rga_internal_buffer),
      (rga_mm_map_dma_buffer_loop env ext cores i ret ib).2.2.type = ib.type := by
  induction cores with
  | nil => intro i ret ib; rfl
  | cons c rest ih =>
    intro i ret ib
    simp only [rga_mm_map_dma_buffer_loop]
    split_ifs <;> simp only [ih, set_slot_type]

/-- The object a successful map primitive leaves in the slot is the one the
request names. -/
theorem map_primitive_object (env : rga_import_env) (ext : rga_external_buffer) (i : Nat)
    (slot : rga_dma_buffer) (c : Nat)
    (hok : ¬ (rga_mm_map_dma_buffer_call env ext i slot).1 < 0) :
    holds_request_object env ext
      { (rga_mm_map_dma_buffer_call env ext i slot).2 with core := c } := by
  unfold rga_mm_map_dma_buffer_call at hok ⊢
  constructor
  · intro ht
    rw [ht] at hok ⊢
    simp only [rga_dma_map_fd] at hok ⊢
    cases hg : env.dma_buf_get with
    | none => rw [hg] at hok; simp [EINVAL] at hok
    | some d =>
      rw [hg] at hok
      simp only [] at hok ⊢
      split_ifs at hok ⊢ with h1
      · exact absurd h1 hok
      · rfl
  · intro ht
    rw [ht] at hok ⊢
    simp only [rga_dma_map_buf] at hok ⊢
    split_ifs at hok ⊢ with h1
    · exact absurd h1 hok
    · rfl

theorem set_slot_head_holds (env : rga_import_env) (ext : rga_external_buffer)
    (ib : rga_internal_buffer) (i : Nat) (x : rga_dma_buffer)
    (hib : 1 ≤ i → head_holds env ext ib.dma_buffer) (hx : holds_request_object env ext x) :
    head_holds env ext (ib.set_slot i x).dma_buffer := by
  intro s t hst
  unfold rga_internal_buffer.set_slot at hst
  simp only [] at hst
  cases hb : ib.dma_buffer with
  | none => rw [hb] at hst; simp at hst
  | some a =>
    rw [hb] at hst
    simp only [Option.map_some', Option.some.injEq] at hst
    cases a with
    | nil => simp at hst
    | cons z r =>
      cases i with
      | zero =>
        simp only [List.set_cons_zero, List.cons.injEq] at hst
        rw [← hst.1]; exact hx
      | succ k =>
        simp only [List.set_cons_succ, List.cons.injEq] at hst
        rw [← hst.1]
        exact hib (by omega) z r hb

/-- After a mapping loop that ran to its end, slot 0 holds the object the
request names. -/
theorem map_dma_buffer_loop_head_holds (env : rga_import_env) (ext : rga_external_buffer)
    (cores : List Nat) :
    ∀ (i : Nat) (ret : Int) (ib : rga_internal_buffer),
      (1 ≤ i → head_holds env ext ib.dma_buffer) →
      (1 ≤ i ∨ cores ≠ []) →
      (rga_mm_map_dma_buffer_loop env ext cores i ret ib).1 = map_exit.done →
      head_holds env ext (rga_mm_map_dma_buffer_loop env ext cores i ret ib).2.2.dma_buffer := by
  induction cores with
  | nil =>
    intro i ret ib hib hi _
    rcases hi with hi | hi
    · exact hib hi
    · exact absurd rfl hi
  | cons c rest ih =>
    intro i ret ib hib _ hdone
    simp only [rga_mm_map_dma_buffer_loop] at hdone ⊢
    have hx : head_holds env ext (ib.set_slot i
        { (rga_mm_map_dma_buffer_call env ext i (ib.slot i)).2 with core := c }).dma_buffer ∨
        (rga_mm_map_dma_buffer_call env ext i (ib.slot i)).1 < 0 := by
      by_cases hr : (rga_mm_map_dma_buffer_call env ext i (ib.slot i)).1 < 0
      · exact Or.inr hr
      · exact Or.inl (set_slot_head_holds env ext ib i _ hib
          (map_primitive_object env ext i _ c hr))
    split_ifs at hdone ⊢
    any_goals (first | (refine ih _ _ _ ?_ (Or.inl (by omega)) hdone
                        first
                        | exact fun _ => hib (by omega)
                        | exact fun _ => hx.resolve_right (by assumption)) | skip)
    all_goals exact hx.resolve_right (by assumption)

theorem map_dma_buffer_type (scheduler : List Nat) (env : rga_import_env)
    (ext : rga_external_buffer) (ib : rga_internal_buffer) :
    (rga_mm_map_dma_buffer scheduler env ext ib).2.type = ib.type := by
  unfold rga_mm_map_dma_buffer
  split_ifs
  · rfl
  · have ht := map_dma_buffer_loop_type env ext scheduler 0 0
      { ib with dma_buffer_size := scheduler.length,
                dma_buffer := some (List.replicate scheduler.length rga_dma_buffer.kzalloc) }
    split
    · next h => rw [h] at ht; exact ht
    · next h =>
      rw [h] at ht
      simp only [rga_mm_unmap_dma_buffer, unmap_dma_buffer_loop_type]
      exact ht

/-- A shared-buffer mapping that did not fail leaves, in slot 0, the object
the request names (or no array at all). -/
theorem map_dma_buffer_head_holds (scheduler : List Nat) (env : rga_import_env)
    (ext : rga_external_buffer) (ib : rga_internal_buffer)
    (hok : ¬ (rga_mm_map_dma_buffer scheduler env ext ib).1 < 0) :
    head_holds env ext (rga_mm_map_dma_buffer scheduler env ext ib).2.dma_buffer := by
  unfold rga_mm_map_dma_buffer at hok ⊢
  split_ifs at hok ⊢ with hk
  · simp [ENOMEM] at hok
  · cases scheduler with
    | nil =>
      intro s t hst
      simp [rga_mm_map_dma_buffer_loop] at hst
    | cons c rest =>
      have hl := map_dma_buffer_loop_head_holds env ext (c :: rest) 0 0
        { ib with dma_buffer_size := (c :: rest).length,
                  dma_buffer := some (List.replicate (c :: rest).length rga_dma_buffer.kzalloc) }
        (fun h => absurd h (by omega)) (Or.inr (by simp))
      split
      · next h =>
        rw [h] at hl
        exact hl rfl
      · next h =>
        intro s t hst
        simp [rga_mm_unmap_dma_buffer] at hst

theorem map_virt_addr_sgt_loop_frame (env : rga_import_env) (cores : List Nat) :
    ∀ (i : Nat) (ret : Int) (ib : rga_internal_buffer),
      (rga_mm_map_virt_addr_sgt_loop env cores i ret ib).2.2.type = ib.type ∧
      (rga_mm_map_virt_addr_sgt_loop env cores i ret ib).2.2.virt_addr = ib.virt_addr := by
  induction cores with
  | nil => intro i ret ib; exact ⟨rfl, rfl⟩
  | cons c rest ih =>
    intro i ret ib
    simp only [rga_mm_map_virt_addr_sgt_loop]
    split_ifs <;> first | exact ⟨rfl, rfl⟩ | exact ih _ _ _

theorem map_virt_addr_map_loop_frame (env : rga_import_env) (cores : List Nat) :
    ∀ (i : Nat) (ret : Int) (ib : rga_internal_buffer),
      (rga_mm_map_virt_addr_map_loop env cores i ret ib).2.2.type = ib.type ∧
      (rga_mm_map_virt_addr_map_loop env cores i ret ib).2.2.virt_addr = ib.virt_addr := by
  induction cores with
  | nil => intro i ret ib; exact ⟨rfl, rfl⟩
  | cons c rest ih =>
    intro i ret ib
    simp only [rga_mm_map_virt_addr_map_loop]
    split_ifs <;> first | exact ⟨rfl, rfl⟩ | exact ih _ _ _

theorem alloc_virt_addr_addr (env : rga_import_env) (viraddr : Nat) (parm : rga_memory_parm) :
    ∀ v, (rga_alloc_virt_addr env viraddr parm).2 = some v → v.addr = viraddr := by
  intro v hv
  unfold rga_alloc_virt_addr at hv
  simp only [] at hv
  split_ifs at hv <;> simp at hv <;> (rw [← hv])

/-- A virtual-address mapping keeps the kind of the entry and records no
address other than the one requested. -/
theorem map_virt_addr_frame (scheduler : List Nat) (env : rga_import_env)
    (ext : rga_external_buffer) (ib : rga_internal_buffer) (hib : ib.virt_addr = none) :
    (rga_mm_map_virt_addr scheduler env ext ib).2.type = ib.type ∧
    ∀ v, (rga_mm_map_virt_addr scheduler env ext ib).2.virt_addr = some v →
      v.addr = ext.memory := by
  unfold rga_mm_map_virt_addr
  cases hc : env.current_mm with
  | none => exact ⟨rfl, fun v hv => by simp [hib] at hv⟩
  | some m =>
    simp only []
    split_ifs with h1 h2
    · exact ⟨rfl, fun v hv => by simp [hib] at hv⟩
    · exact ⟨rfl, fun v hv => by simp [rga_free_virt_addr] at hv⟩
    · have hs := map_virt_addr_sgt_loop_frame env scheduler 0
        (rga_alloc_virt_addr env ext.memory ib.memory_parm).1
        { ib with
          current_mm := some m,
          virt_addr := (rga_alloc_virt_addr env ext.memory ib.memory_parm).2,
          dma_buffer := some (List.replicate scheduler.length rga_dma_buffer.kzalloc),
          dma_buffer_size := scheduler.length }
      split
      · next ret ib1 h =>
        rw [h] at hs
        exact ⟨hs.1, fun v hv => by simp [rga_mm_map_virt_addr_free, rga_free_virt_addr] at hv⟩
      · next ret ib1 h =>
        rw [h] at hs
        have hm := map_virt_addr_map_loop_frame env scheduler 0 ret ib1
        split
        · next ret2 ib2 h2 =>
          rw [h2] at hm
          exact ⟨hm.1.trans hs.1,
            fun v hv => by simp [rga_mm_map_virt_addr_unwind, rga_free_virt_addr] at hv⟩
        · next ret2 ib2 h2 =>
          rw [h2] at hm
          refine ⟨hm.1.trans hs.1, fun v hv => ?_⟩
          rw [hm.2, hs.2] at hv
          exact alloc_virt_addr_addr env ext.memory ib.memory_parm v hv

theorem of_scan_not_found {l : List rga_internal_buffer} {p : rga_internal_buffer → Bool}
    (h : ∀ e, lookup_result.of_scan (l.find? p) ≠ lookup_result.found e) :
    ∀ e ∈ l, p e = false := by
  intro e he
  cases hf : l.find? p with
  | some x => rw [hf] at h; exact absurd rfl (h x)
  | none =>
    rw [List.find?_eq_none] at hf
    simpa using hf e he

/-- What a mapping that did not fail records in the new entry, kind by kind. -/
theorem map_buffer_record (scheduler : List Nat) (env : rga_import_env)
    (ext : rga_external_buffer)
    (hok : ¬ (rga_mm_map_buffer scheduler env ext rga_internal_buffer.kzalloc).1 < 0) :
    (rga_mm_map_buffer scheduler env ext rga_internal_buffer.kzalloc).2.type = ext.type ∧
    (ext.type = rga_memory_type.RGA_PHYSICAL_ADDRESS →
      (rga_mm_map_buffer scheduler env ext rga_internal_buffer.kzalloc).2.phys_addr
        = ext.memory) ∧
    (ext.type = rga_memory_type.RGA_VIRTUAL_ADDRESS →
      ∀ v, (rga_mm_map_buffer scheduler env ext rga_internal_buffer.kzalloc).2.virt_addr = some v →
        v.addr = ext.memory) ∧
    head_holds env ext (rga_mm_map_buffer scheduler env ext rga_internal_buffer.kzalloc).2.dma_buffer ∧
    (∀ raw, ext.type ≠ rga_memory_type.ILLEGAL raw) := by
  cases ht : ext.type with
  | ILLEGAL raw =>
    simp [rga_mm_map_buffer, ht, EFAULT] at hok
  | RGA_PHYSICAL_ADDRESS =>
    simp only [rga_mm_map_buffer, ht]
    refine ⟨by trivial, by simp, by simp, ?_, by simp⟩
    intro s t hst
    exact ⟨fun h => by simp [ht] at h, fun h => by simp [ht] at h⟩
  | RGA_VIRTUAL_ADDRESS =>
    simp only [rga_mm_map_buffer, ht] at hok ⊢
    split_ifs at hok ⊢ with h1
    · exact absurd h1 hok
    · have hfr := map_virt_addr_frame scheduler env ext
        { rga_internal_buffer.kzalloc with
          memory_parm := ext.memory_parm, type := rga_memory_type.RGA_VIRTUAL_ADDRESS } rfl
      refine ⟨hfr.1, by simp, fun _ => hfr.2, ?_, by simp⟩
      intro s t hst
      exact ⟨fun h => by simp [ht] at h, fun h => by simp [ht] at h⟩
  | RGA_DMA_BUFFER =>
    simp only [rga_mm_map_buffer, ht] at hok ⊢
    split_ifs at hok ⊢ with h1
    · exact absurd h1 hok
    · refine ⟨?_, by simp, by simp, ?_, by simp⟩
      · simp only [map_dma_buffer_type]
      · exact map_dma_buffer_head_holds scheduler env ext
          { rga_internal_buffer.kzalloc with
            memory_parm := ext.memory_parm, type := rga_memory_type.RGA_DMA_BUFFER } h1
  | RGA_DMA_BUFFER_PTR =>
    simp only [rga_mm_map_buffer, ht] at hok ⊢
    split_ifs at hok ⊢ with h1
    · exact absurd h1 hok
    · refine ⟨?_, by simp, by simp, ?_, by simp⟩
      · simp only [map_dma_buffer_type]
      · exact map_dma_buffer_head_holds scheduler env ext
          { rga_internal_buffer.kzalloc with
            memory_parm := ext.memory_parm, type := rga_memory_type.RGA_DMA_BUFFER_PTR } h1

theorem entry_identity_imported (drv : rga_drvdata) (mm : rga_mm) (ext : rga_external_buffer)
    (session : Nat) (env : rga_import_env) :
    entry_identity (imported_entry drv mm ext session env) =
      entry_identity (rga_mm_map_buffer drv.scheduler env ext rga_internal_buffer.kzalloc).2 :=
  rfl

theorem entry_identity_shared {e : rga_internal_buffer} {k : Nat}
    (h : entry_identity e = some (identity_class.shared_object, k)) :
    ∃ s t, e.dma_buffer = some (s :: t) ∧ s.dma_buf = k := by
  unfold entry_identity at h
  cases ht : e.type <;> rw [ht] at h <;> simp only [] at h
  · cases hb : e.dma_buffer with
    | none => simp [hb] at h
    | some a =>
      cases a with
      | nil => simp [hb] at h
      | cons s t => exact ⟨s, t, rfl, by simpa [hb] using h⟩
  · cases hv : e.virt_addr <;> simp [hv] at h
  · simp at h
  · cases hb : e.dma_buffer with
    | none => simp [hb] at h
    | some a =>
      cases a with
      | nil => simp [hb] at h
      | cons s t => exact ⟨s, t, rfl, by simpa [hb] using h⟩
  · simp at h

theorem entry_identity_virtual {e : rga_internal_buffer} {k : Nat}
    (h : entry_identity e = some (identity_class.virtual_address, k)) :
    ∃ v, e.virt_addr = some v ∧ v.addr = k := by
  unfold entry_identity at h
  cases ht : e.type <;> rw [ht] at h <;> simp only [] at h
  · cases hb : e.dma_buffer with
    | none => simp [hb] at h
    | some a => cases a <;> simp [hb] at h
  · cases hv : e.virt_addr with
    | none => simp [hv] at h
    | some v => exact ⟨v, rfl, by simpa [hv] using h⟩
  · simp at h
  · cases hb : e.dma_buffer with
    | none => simp [hb] at h
    | some a => cases a <;> simp [hb] at h
  · simp at h

theorem entry_identity_physical {e : rga_internal_buffer} {k : Nat}
    (h : entry_identity e = some (identity_class.physical_address, k)) : e.phys_addr = k := by
  unfold entry_identity at h
  cases ht : e.type <;> rw [ht] at h <;> simp only [] at h
  · cases hb : e.dma_buffer with
    | none => simp [hb] at h
    | some a => cases a <;> simp [hb] at h
  · cases hv : e.virt_addr <;> simp [hv] at h
  · simpa using h
  · cases hb : e.dma_buffer with
    | none => simp [hb] at h
    | some a => cases a <;> simp [hb] at h
  · simp at h

/-- The identity of the entry a creating import stores is recorded by no
entry already in the registry. -/
theorem imported_entry_identity (drv : rga_drvdata) (mm : rga_mm) (ext : rga_external_buffer)
    (session : Nat) (env : rga_import_env)
    (hmiss : ∀ e, rga_mm_lookup_external mm ext env ≠ lookup_result.found e)
    (hok : ¬ (rga_mm_map_buffer drv.scheduler env ext rga_internal_buffer.kzalloc).1 < 0) :
    ∀ e ∈ mm.memory_idr.entries, entry_identity e ≠ none →
      entry_identity e ≠ entry_identity (imported_entry drv mm ext session env) := by
  intro e he hne heq
  rw [entry_identity_imported] at heq
  obtain ⟨htype, hphys, hvirt, hhead, hill⟩ := map_buffer_record drv.scheduler env ext hok
  generalize (rga_mm_map_buffer drv.scheduler env ext rga_internal_buffer.kzalloc).2 = n
    at heq htype hphys hvirt hhead
  unfold rga_mm_lookup_external at hmiss
  cases ht : ext.type with
  | ILLEGAL raw => exact hill raw ht
  | RGA_PHYSICAL_ADDRESS =>
    rw [ht] at hmiss htype
    simp only [] at hmiss
    have hp := of_scan_not_found hmiss e he
    have hn : entry_identity n = some (identity_class.physical_address, ext.memory) := by
      unfold entry_identity; rw [htype, hphys ht]
    rw [hn] at heq
    simp [entry_identity_physical heq] at hp
  | RGA_VIRTUAL_ADDRESS =>
    rw [ht] at hmiss htype
    simp only [] at hmiss
    have hp := of_scan_not_found hmiss e he
    have hn : entry_identity n
        = n.virt_addr.map (fun v => (identity_class.virtual_address, v.addr)) := by
      unfold entry_identity; rw [htype]
    rw [hn] at heq
    cases hv2 : n.virt_addr with
    | none => rw [hv2] at heq; exact hne heq
    | some v2 =>
      rw [hv2] at heq
      obtain ⟨v, hv, hva⟩ := entry_identity_virtual heq
      simp [virt_addr_is, hv, hva, hvirt ht v2 hv2] at hp
  | RGA_DMA_BUFFER =>
    rw [ht] at hmiss htype
    simp only [] at hmiss
    cases hb : n.dma_buffer with
    | none =>
      have hn : entry_identity n = none := by unfold entry_identity; rw [htype, hb]
      exact hne (heq.trans hn)
    | some a =>
      cases a with
      | nil =>
        have hn : entry_identity n = none := by unfold entry_identity; rw [htype, hb]
        exact hne (heq.trans hn)
      | cons s t =>
        have hn : entry_identity n = some (identity_class.shared_object, s.dma_buf) := by
          unfold entry_identity; rw [htype, hb]
        obtain ⟨s1, t1, hb1, hs1⟩ := entry_identity_shared (heq.trans hn)
        rw [(hhead s t hb).1 ht] at hmiss
        simp only [] at hmiss
        have hp := of_scan_not_found hmiss e he
        simp [slot0_holds, hb1, hs1] at hp
  | RGA_DMA_BUFFER_PTR =>
    rw [ht] at hmiss htype
    simp only [] at hmiss
    have hp := of_scan_not_found hmiss e he
    cases hb : n.dma_buffer with
    | none =>
      have hn : entry_identity n = none := by unfold entry_identity; rw [htype, hb]
      exact hne (heq.trans hn)
    | some a =>
      cases a with
      | nil =>
        have hn : entry_identity n = none := by unfold entry_identity; rw [htype, hb]
        exact hne (heq.trans hn)
      | cons s t =>
        have hn : entry_identity n = some (identity_class.shared_object, s.dma_buf) := by
          unfold entry_identity; rw [htype, hb]
        obtain ⟨s1, t1, hb1, hs1⟩ := entry_identity_shared (heq.trans hn)
        simp [slot0_holds, hb1, hs1, (hhead s t hb).2 ht] at hp

theorem identities_unique_insert {l : List rga_internal_buffer} (n : rga_internal_buffer)
    (hu : identities_unique l)
    (hn : ∀ e ∈ l, entry_identity e ≠ none → entry_identity e ≠ entry_identity n) :
    identities_unique (idr_insert n l) := by
  intro a ha b hb hne heq
  rcases mem_idr_insert.1 ha with han | ha
  · rcases mem_idr_insert.1 hb with hbn | hb
    · rw [han, hbn]
    · rw [han] at heq hne
      exact absurd heq.symm (hn b hb (by rw [← heq]; exact hne))
  · rcases mem_idr_insert.1 hb with hbn | hb
    · rw [hbn] at heq
      exact absurd heq (hn a ha hne)
    · exact hu a ha b hb hne heq

/-! ## Job references -/

theorem foldl_kref_get_handles (L : List Nat) :
    ∀ mm : rga_mm, (L.foldl kref_get mm).handles = mm.handles := by
  induction L with
  | nil => intro mm; rfl
  | cons a L ih => intro mm; rw [List.foldl_cons, ih, kref_get_handles]

theorem acquired_nil (mm : rga_mm) : acquired mm [] mm := ⟨rfl, by simp⟩

theorem acquired_trans {mm mm2 mm3 : rga_mm} {L1 L2 : List Nat}
    (h1 : acquired mm L1 mm2) (h2 : acquired mm2 L2 mm3) : acquired mm (L1 ++ L2) mm3 := by
  refine ⟨?_, ?_⟩
  · rw [List.foldl_append, ← h1.1]; exact h2.1
  · intro h hh
    rcases List.mem_append.1 hh with hh | hh
    · exact h1.2 h hh
    · have := h2.2 h hh
      rw [h1.1, foldl_kref_get_handles] at this
      exact this

theorem get_buffer_acquired (mm : rga_mm) (job : rga_job) (handle : Nat) (ca : Nat)
    (dir : dma_data_direction) :
    acquired mm (rga_mm_get_buffer mm job handle ca none dir).buf.toList
      (rga_mm_get_buffer mm job handle ca none dir).mm := by
  unfold rga_mm_get_buffer
  by_cases h0 : handle = 0
  · rw [if_pos h0]; exact acquired_nil mm
  · rw [if_neg h0]
    cases hl : rga_mm_lookup_handle mm handle with
    | none => exact acquired_nil mm
    | some e =>
      have he : e.handle ∈ mm.handles :=
        List.mem_map_of_mem _ (find_handle_some hl).1
      have key : acquired mm [e.handle] (kref_get mm e.handle) :=
        ⟨rfl, by simpa using he⟩
      simp only []
      split <;> (try split_ifs) <;> exact key

theorem get_plane_acquired (mm : rga_mm) (job : rga_job) (field : Nat)
    (dir : dma_data_direction) :
    acquired mm (get_plane mm job field none dir).buf.toList
      (get_plane mm job field none dir).mm := by
  unfold get_plane
  split_ifs
  · exact get_buffer_acquired mm job _ _ dir
  · exact acquired_nil mm

theorem set_mmu_base_refs (mm : rga_mm) (env : rga_job_env) (g : Bool) (job : rga_job)
    (img : rga_img_info_t) (jb : rga_job_buffer) :
    (rga_mm_set_mmu_base mm env g job img jb).2.2.refs = jb.refs := by
  unfold rga_mm_set_mmu_base
  simp only []
  split_ifs <;> (repeat' split) <;> rfl

theorem get_channel_tail_frame (mm : rga_mm) (env : rga_job_env) (g : Bool) (job : rga_job)
    (img : rga_img_info_t) (jb : rga_job_buffer) :
    (get_channel_tail mm env g job img jb).mm = mm ∧
    (get_channel_tail mm env g job img jb).job_buf.refs = jb.refs := by
  unfold get_channel_tail
  split_ifs
  · exact ⟨rfl, set_mmu_base_refs mm env g job img jb⟩
  · exact ⟨rfl, rfl⟩

/-- The references a channel acquires are exactly those its state records. -/
theorem get_channel_acquired (mm : rga_mm) (env : rga_job_env) (g : Bool) (job : rga_job)
    (img : rga_img_info_t) (jb : rga_job_buffer) (dir : dma_data_direction)
    (hjb : jb.is_empty) :
    acquired mm (rga_mm_get_channel_handle_info mm env g job img jb dir).job_buf.refs
      (rga_mm_get_channel_handle_info mm env g job img jb dir).mm := by
  obtain ⟨hy, huv, hv⟩ := hjb
  unfold rga_mm_get_channel_handle_info
  simp only [rga_job_buffer.addr, hy, huv, hv]
  have ay := get_plane_acquired mm job img.yrgb_addr dir
  split_ifs with h1 h2 h3 h4 h5
  · simpa [rga_job_buffer.refs, huv, hv] using ay
  · have auv := get_plane_acquired (get_plane mm job img.yrgb_addr none dir).mm job img.uv_addr dir
    simpa [rga_job_buffer.refs, hv] using acquired_trans ay auv
  · have auv := get_plane_acquired (get_plane mm job img.yrgb_addr none dir).mm job img.uv_addr dir
    have av := get_plane_acquired (get_plane (get_plane mm job img.yrgb_addr none dir).mm job
      img.uv_addr none dir).mm job img.v_addr dir
    simpa [rga_job_buffer.refs] using acquired_trans (acquired_trans ay auv) av
  · have auv := get_plane_acquired (get_plane mm job img.yrgb_addr none dir).mm job img.uv_addr dir
    have av := get_plane_acquired (get_plane (get_plane mm job img.yrgb_addr none dir).mm job
      img.uv_addr none dir).mm job img.v_addr dir
    have ht := get_channel_tail_frame (get_plane (get_plane (get_plane mm job img.yrgb_addr none
      dir).mm job img.uv_addr none dir).mm job img.v_addr none dir).mm env g job
    rw [(ht _ _).1, (ht _ _).2]
    simpa [rga_job_buffer.refs] using acquired_trans (acquired_trans ay auv) av
  · simpa [rga_job_buffer.refs, huv, hv] using ay
  · have ht := get_channel_tail_frame (get_plane mm job img.yrgb_addr none dir).mm env g job
    rw [(ht _ _).1, (ht _ _).2]
    simpa [rga_job_buffer.refs, huv, hv] using ay

theorem is_empty_refs {jb : rga_job_buffer} (h : jb.is_empty) : jb.refs = [] := by
  obtain ⟨hy, huv, hv⟩ := h
  simp [rga_job_buffer.refs, hy, huv, hv]

theorem channel_step_acquired (mm : rga_mm) (env : rga_job_env) (g : Bool) (job : rga_job)
    (img : rga_img_info_t) (jb : rga_job_buffer) (dir : dma_data_direction)
    (hjb : jb.is_empty) :
    acquired mm (channel_step mm env g job img jb dir).job_buf.refs
      (channel_step mm env g job img jb dir).mm := by
  unfold channel_step
  split_ifs
  · exact get_channel_acquired mm env g job img jb dir hjb
  · simp only [is_empty_refs hjb]
    exact acquired_nil mm

theorem set_mmu_flag_refs (mm : rga_mm) (job : rga_job) :
    (rga_mm_set_mmu_flag mm job).2.refs = job.refs := by
  unfold rga_mm_set_mmu_flag
  simp only []
  split_ifs <;> rfl

/-- The references rga_mm_get_handle_info acquires for a new job are exactly
those the job records, whatever the return code. -/
theorem get_handle_info_acquired (drv : rga_drvdata) (mm : rga_mm) (env : rga_job_env)
    (job : rga_job) (hmm : drv.mm = some mm) (hjob : job.is_empty) :
    ∃ mm2, (rga_mm_get_handle_info drv env job).drv = { drv with mm := some mm2 } ∧
      acquired mm (rga_mm_get_handle_info drv env job).job.refs mm2 := by
  obtain ⟨hs, hd, hs1, he⟩ := hjob
  unfold rga_mm_get_handle_info
  rw [hmm]
  simp only []
  have as := channel_step_acquired mm env env.get_free_pages_src job job.rga_command_base.src
    job.src_buffer dma_data_direction.DMA_TO_DEVICE hs
  generalize channel_step mm env env.get_free_pages_src job job.rga_command_base.src
    job.src_buffer dma_data_direction.DMA_TO_DEVICE = s at as ⊢
  have ad := channel_step_acquired s.mm env env.get_free_pages_dst job job.rga_command_base.dst
    job.dst_buffer dma_data_direction.DMA_TO_DEVICE hd
  generalize channel_step s.mm env env.get_free_pages_dst job job.rga_command_base.dst
    job.dst_buffer dma_data_direction.DMA_TO_DEVICE = d at ad ⊢
  have ap1 := channel_step_acquired d.mm env env.get_free_pages_pat job job.rga_command_base.pat
    job.src1_buffer (if job.rga_command_base.bsfilter_flag ≠ 0
      then dma_data_direction.DMA_BIDIRECTIONAL else dma_data_direction.DMA_TO_DEVICE) hs1
  generalize channel_step d.mm env env.get_free_pages_pat job job.rga_command_base.pat
    job.src1_buffer (if job.rga_command_base.bsfilter_flag ≠ 0
      then dma_data_direction.DMA_BIDIRECTIONAL else dma_data_direction.DMA_TO_DEVICE) = p1
    at ap1 ⊢
  have ape := channel_step_acquired d.mm env env.get_free_pages_pat job job.rga_command_base.pat
    job.els_buffer dma_data_direction.DMA_BIDIRECTIONAL he
  generalize channel_step d.mm env env.get_free_pages_pat job job.rga_command_base.pat
    job.els_buffer dma_data_direction.DMA_BIDIRECTIONAL = pe at ape ⊢
  have a2 := acquired_trans as ad
  have a31 := acquired_trans a2 ap1
  have a3e := acquired_trans a2 ape
  split_ifs <;> refine ⟨_, rfl, ?_⟩ <;>
    (try rw [set_mmu_flag_refs]) <;>
    simp only [rga_job.refs, is_empty_refs hd, is_empty_refs hs1,
      is_empty_refs he, List.append_nil] <;>
    first | exact as | exact a2 | exact a31 | exact a3e

theorem put_channel_eq (scheduler : List Nat) (mm : rga_mm) (job : rga_job)
    (jb : rga_job_buffer) (dir : dma_data_direction) :
    rga_mm_put_channel_handle_info scheduler mm job jb dir
      = jb.refs.foldl (kref_put scheduler) mm := by
  unfold rga_mm_put_channel_handle_info rga_job_buffer.refs rga_mm_put_buffer
  cases jb.y_addr <;> cases jb.uv_addr <;> cases jb.v_addr <;> rfl

/-- rga_mm_put_handle_info is one kref_put for each reference the job records. -/
theorem put_handle_info_eq (drv : rga_drvdata) (mm : rga_mm) (job : rga_job)
    (hmm : drv.mm = some mm) :
    rga_mm_put_handle_info drv job
      = { drv with mm := some (job.refs.foldl (kref_put drv.scheduler) mm) } := by
  unfold rga_mm_put_handle_info
  rw [hmm]
  simp only [put_channel_eq, rga_job.refs, List.foldl_append]

/-! ## Effect of the calls on the registry -/

theorem foldl_kref_get_derived (L : List Nat) :
    ∀ mm : rga_mm, derived_from mm.memory_idr.entries (L.foldl kref_get mm).memory_idr.entries ∧
      (L.foldl kref_get mm).memory_idr.idr_next = mm.memory_idr.idr_next := by
  induction L with
  | nil => intro mm; exact ⟨derived_from_refl _, rfl⟩
  | cons a L ih =>
    intro mm
    rw [List.foldl_cons]
    exact ⟨derived_from_trans (derived_from_kref_get mm a) (ih _).1,
      (ih _).2.trans (kref_get_idr_next mm a)⟩

theorem foldl_kref_put_derived (scheduler : List Nat) (L : List Nat) :
    ∀ mm : rga_mm,
      derived_from mm.memory_idr.entries (L.foldl (kref_put scheduler) mm).memory_idr.entries ∧
      (L.foldl (kref_put scheduler) mm).memory_idr.idr_next = mm.memory_idr.idr_next := by
  induction L with
  | nil => intro mm; exact ⟨derived_from_refl _, rfl⟩
  | cons a L ih =>
    intro mm
    rw [List.foldl_cons]
    exact ⟨derived_from_trans (derived_from_kref_put scheduler mm a) (ih _).1,
      (ih _).2.trans (kref_put_idr_next scheduler mm a)⟩

theorem session_release_loop_eq (scheduler : List Nat) (session : Nat)
    (R : List rga_internal_buffer) :
    ∀ mm : rga_mm, rga_mm_session_release_buffer_loop scheduler session R mm =
      ((R.filter (fun e => session = e.session)).map (fun e => e.handle)).foldl
        (kref_put scheduler) mm := by
  induction R with
  | nil => intro mm; rfl
  | cons b R ih =>
    intro mm
    simp only [rga_mm_session_release_buffer_loop, List.filter_cons]
    by_cases hs : session = b.session
    · have hd : decide (session = b.session) = true := decide_eq_true hs
      simp only [hd, if_pos hs, if_true, List.map_cons, List.foldl_cons]
      exact ih _
    · have hd : decide (session = b.session) = false := decide_eq_false hs
      simp only [hd, if_neg hs, Bool.false_eq_true, if_false]
      exact ih _

theorem drv_eta {drv : rga_drvdata} {mm : rga_mm} (hmm : drv.mm = some mm) :
    drv = { drv with mm := some mm } := by
  cases drv with
  | mk sch m => simp only [] at hmm; rw [hmm]

/-- Every call either leaves the registry derived from the one before, with
the same allocation cursor, or is an import that stores a new entry. -/
theorem step_effect (s : rga_system) (c : rga_call) (mm : rga_mm) (hmm : s.drv.mm = some mm) :
    ∃ mm2, (rga_step s c).drv = { s.drv with mm := some mm2 } ∧
      ((derived_from mm.memory_idr.entries mm2.memory_idr.entries ∧
          mm2.memory_idr.idr_next = mm.memory_idr.idr_next) ∨
       (∃ ext session env, c = rga_call.import_buffer ext session env ∧
          (∀ e, rga_mm_lookup_external mm ext env ≠ lookup_result.found e) ∧
          ¬ (rga_mm_map_buffer s.drv.scheduler env ext rga_internal_buffer.kzalloc).1 < 0 ∧
          mm2 = rga_mm.mk
            (idr.mk (idr_insert (imported_entry s.drv mm ext session env) mm.memory_idr.entries)
              mm.memory_idr.idr_base (max 1 mm.memory_idr.idr_next + 1))
            (mm.buffer_count + 1))) := by
  have hdrv : s.drv = { s.drv with mm := some mm } := drv_eta hmm
  cases c with
  | import_buffer ext session env =>
    rcases import_cases s.drv mm ext session env hmm with
      ⟨e, _, _, heq⟩ | ⟨_, heq⟩ | ⟨hmiss, hok, heq⟩
    · exact ⟨_, by simp only [rga_step, heq], Or.inl ⟨derived_from_kref_get mm e.handle, rfl⟩⟩
    · refine ⟨mm, ?_, Or.inl ⟨derived_from_refl _, rfl⟩⟩
      simp only [rga_step, heq]
      exact hdrv
    · exact ⟨_, by simp only [rga_step, heq], Or.inr ⟨ext, session, env, rfl, hmiss, hok, rfl⟩⟩
  | release_buffer handle =>
    simp only [rga_step, rga_mm_release_buffer, hmm]
    cases hl : rga_mm_lookup_handle mm handle with
    | none => exact ⟨mm, by simpa using hdrv, Or.inl ⟨derived_from_refl _, rfl⟩⟩
    | some e =>
      exact ⟨_, rfl, Or.inl ⟨derived_from_kref_put _ mm e.handle, kref_put_idr_next _ mm _⟩⟩
  | session_release_buffer session =>
    simp only [rga_step, rga_mm_session_release_buffer, hmm]
    refine ⟨_, rfl, Or.inl ?_⟩
    rw [session_release_loop_eq]
    exact foldl_kref_put_derived _ _ mm
  | get_handle_info req core scheduler env =>
    obtain ⟨mm2, h1, h2⟩ := get_handle_info_acquired s.drv mm env
      (rga_job.kzalloc req core scheduler) hmm
      ⟨⟨rfl, rfl, rfl⟩, ⟨rfl, rfl, rfl⟩, ⟨rfl, rfl, rfl⟩, ⟨rfl, rfl, rfl⟩⟩
    refine ⟨mm2, by simp only [rga_step, h1], Or.inl ?_⟩
    rw [h2.1]
    exact foldl_kref_get_derived _ mm
  | put_handle_info index =>
    simp only [rga_step]
    cases hj : s.jobs.get? index with
    | none => exact ⟨mm, by simpa using hdrv, Or.inl ⟨derived_from_refl _, rfl⟩⟩
    | some job =>
      simp only [put_handle_info_eq s.drv mm job hmm]
      exact ⟨_, rfl, Or.inl (foldl_kref_put_derived _ _ mm)⟩

/-- Handles stay distinct and below the cursor, and recorded identities stay
unique, along every sequence of calls. -/
theorem run_fresh (calls : List rga_call) :
    ∀ (s : rga_system) (mm : rga_mm), s.drv.mm = some mm → mm.fresh →
      identities_unique mm.memory_idr.entries →
      ∃ mm2, (rga_run s calls).drv = { s.drv with mm := some mm2 } ∧ mm2.fresh ∧
        identities_unique mm2.memory_idr.entries := by
  induction calls with
  | nil =>
    intro s mm hmm hf hu
    exact ⟨mm, drv_eta hmm, hf, hu⟩
  | cons c cs ih =>
    intro s mm hmm hf hu
    obtain ⟨mm1, hd1, hcase⟩ := step_effect s c mm hmm
    have hmm1 : (rga_step s c).drv.mm = some mm1 := by rw [hd1]
    have key : mm1.fresh ∧ identities_unique mm1.memory_idr.entries := by
      rcases hcase with ⟨hder, hnext⟩ | ⟨ext, session, env, _, hmiss, hok, rfl⟩
      · exact ⟨fresh_of_derived hf hder hnext, identities_unique_of_derived hf.1 hu hder⟩
      · exact ⟨fresh_insert hf _ rfl _,
          identities_unique_insert _ hu (imported_entry_identity s.drv mm ext session env hmiss hok)⟩
    obtain ⟨mm2, hd2, hf2, hu2⟩ := ih (rga_step s c) mm1 hmm1 key.1 key.2
    refine ⟨mm2, ?_, hf2, hu2⟩
    show (List.foldl rga_step (rga_step s c) cs).drv = _
    have : rga_run (rga_step s c) cs = List.foldl rga_step (rga_step s c) cs := rfl
    rw [← this, hd2, hd1]

theorem rga_mm_init_fresh : rga_mm_init.fresh ∧ identities_unique rga_mm_init.memory_idr.entries := by
  refine ⟨⟨List.nodup_nil, ?_⟩, ?_⟩
  · intro e he; simp [rga_mm_init, idr_init_base] at he
  · intro e he; simp [rga_mm_init, idr_init_base] at he

/-! ## Balanced sequences -/

theorem accounted_foldl_get (L : List Nat) :
    ∀ (mm : rga_mm) (refs : List Nat), accounted mm.memory_idr.entries refs →
      (∀ h ∈ L, h ∈ mm.handles) →
      accounted (L.foldl kref_get mm).memory_idr.entries (L ++ refs) := by
  induction L with
  | nil => intro mm refs ha _; exact ha
  | cons a L ih =>
    intro mm refs ha hL
    rw [List.foldl_cons]
    have h1 := accounted_kref_get ha (hL a (List.mem_cons_self _ _))
    have h2 := ih (kref_get mm a) (a :: refs) h1
      (fun h hh => by rw [kref_get_handles]; exact hL h (List.mem_cons_of_mem _ hh))
    exact accounted_perm h2 List.perm_middle

theorem accounted_foldl_put (scheduler : List Nat) (L : List Nat) :
    ∀ (mm : rga_mm) (refs : List Nat), accounted mm.memory_idr.entries (L ++ refs) →
      accounted (L.foldl (kref_put scheduler) mm).memory_idr.entries refs := by
  induction L with
  | nil => intro mm refs ha; exact ha
  | cons a L ih =>
    intro mm refs ha
    rw [List.foldl_cons]
    exact ih _ refs (accounted_kref_put scheduler ha)

theorem perm_foldl_erase (H : List Nat) :
    ∀ owned : List Nat, H.Nodup → (∀ h ∈ H, h ∈ owned) →
      (H ++ H.foldl List.erase owned).Perm owned := by
  induction H with
  | nil => intro owned _ _; exact List.Perm.refl _
  | cons a H ih =>
    intro owned hnd hsub
    have ha := hsub a (List.mem_cons_self _ _)
    have hnd2 := List.nodup_cons.1 hnd
    have hsub2 : ∀ h ∈ H, h ∈ owned.erase a := by
      intro h hh
      have hne : h ≠ a := fun x => hnd2.1 (x ▸ hh)
      exact (List.mem_erase_of_ne hne).2 (hsub h (List.mem_cons_of_mem _ hh))
    rw [List.foldl_cons, List.cons_append]
    exact ((ih (owned.erase a) hnd2.2 hsub2).cons a).trans (List.perm_cons_erase ha).symm

theorem flatMap_eraseIdx_perm (f : rga_job → List Nat) (l : List rga_job) :
    ∀ (i : Nat) (j : rga_job), l.get? i = some j →
      (l.flatMap f).Perm (f j ++ (l.eraseIdx i).flatMap f) := by
  induction l with
  | nil => intro i j h; simp at h
  | cons x xs ih =>
    intro i j h
    cases i with
    | zero =>
      simp only [List.get?_cons_zero, Option.some.injEq] at h
      subst h
      simp
    | succ k =>
      simp only [List.get?_cons_succ] at h
      simp only [List.eraseIdx_cons_succ, List.flatMap_cons]
      have := ih k j h
      exact (this.append_left (f x)).trans
        (by rw [← List.append_assoc, ← List.append_assoc]
            exact List.perm_append_comm.append_right _)

/-- A balanced call keeps the ledger and the job references in step with the
refcounts. -/
theorem balanced_step_preserves (s : rga_system) (owned : List Nat) (c : rga_call)
    (hb : s.balanced owned) (hg : balanced_step s owned c = true) :
    (rga_step s c).balanced (ledger_step s owned c) := by
  obtain ⟨mm, hmm, hf, ha⟩ := hb
  have hdrv := drv_eta hmm
  cases c with
  | import_buffer ext session env =>
    rcases import_cases s.drv mm ext session env hmm with
      ⟨e, _, he, heq⟩ | ⟨_, heq⟩ | ⟨hmiss, hok, heq⟩
    · have h1 : 1 ≤ e.handle := (hf.2 e he).1
      have hne : ¬ e.handle = 0 := by omega
      refine ⟨kref_get mm e.handle, by simp only [rga_step, heq],
        fresh_of_derived hf (derived_from_kref_get mm e.handle) rfl, ?_⟩
      simp only [ledger_step, heq, hne, if_false, rga_step, rga_system.held]
      exact accounted_kref_get ha (List.mem_map_of_mem _ he)
    · refine ⟨mm, by simp only [rga_step, heq]; exact hmm, hf, ?_⟩
      simp only [ledger_step, heq, if_true, rga_step, rga_system.held]
      exact ha
    · have hne : ¬ max 1 mm.memory_idr.idr_next = 0 := by omega
      refine ⟨_, by simp only [rga_step, heq],
        fresh_insert hf (imported_entry s.drv mm ext session env) rfl (mm.buffer_count + 1), ?_⟩
      simp only [ledger_step, heq, hne, if_false, rga_step, rga_system.held]
      have hnot : (imported_entry s.drv mm ext session env).handle ∉
          mm.memory_idr.entries.map (fun e => e.handle) := by
        intro hin
        obtain ⟨e, he, heq2⟩ := List.mem_map.1 hin
        have := (hf.2 e he).2
        have h3 : (imported_entry s.drv mm ext session env).handle
            = max 1 mm.memory_idr.idr_next := rfl
        omega
      exact accounted_insert ha _ hnot rfl
  | release_buffer handle =>
    simp only [balanced_step, rga_mm_release_buffer, hmm] at hg
    simp only [rga_step, ledger_step, rga_mm_release_buffer, hmm]
    cases hl : rga_mm_lookup_handle mm handle with
    | none =>
      refine ⟨mm, hmm, hf, ?_⟩
      simp only [ENOENT]
      exact ha
    | some e =>
      rw [hl] at hg
      simp only [ne_eq, not_true_eq_false, decide_False, Bool.false_or,
        decide_eq_true_eq] at hg
      have heh : e.handle = handle % 2 ^ 32 := (find_handle_some hl).2
      refine ⟨_, rfl, fresh_of_derived hf (derived_from_kref_put _ mm e.handle)
        (kref_put_idr_next _ mm _), ?_⟩
      simp only [if_true, rga_system.held]
      apply accounted_kref_put
      rw [heh]
      exact accounted_perm ha ((List.perm_cons_erase hg).append_right _)
  | session_release_buffer session =>
    simp only [balanced_step, rga_drvdata.entries, hmm, List.all_eq_true,
      decide_eq_true_eq] at hg
    simp only [rga_step, ledger_step, rga_mm_session_release_buffer, hmm,
      rga_drvdata.entries, rga_system.held]
    rw [session_release_loop_eq]
    refine ⟨_, rfl, fresh_of_derived hf (foldl_kref_put_derived _ _ mm).1
      (foldl_kref_put_derived _ _ mm).2, ?_⟩
    apply accounted_foldl_put
    have hnd : ((mm.memory_idr.entries.filter (fun e => session = e.session)).map
        (fun e => e.handle)).Nodup :=
      ha.1.sublist ((List.filter_sublist _).map _)
    have hp := perm_foldl_erase _ owned hnd hg
    rw [← List.append_assoc]
    exact accounted_perm ha (hp.symm.append_right _)
  | get_handle_info req core scheduler env =>
    obtain ⟨mm2, h1, h2⟩ := get_handle_info_acquired s.drv mm env
      (rga_job.kzalloc req core scheduler) hmm
      ⟨⟨rfl, rfl, rfl⟩, ⟨rfl, rfl, rfl⟩, ⟨rfl, rfl, rfl⟩, ⟨rfl, rfl, rfl⟩⟩
    refine ⟨mm2, by simp only [rga_step, h1], ?_, ?_⟩
    · rw [h2.1]
      exact fresh_of_derived hf (foldl_kref_get_derived _ mm).1 (foldl_kref_get_derived _ mm).2
    · simp only [ledger_step, rga_step, rga_system.held, List.flatMap_cons]
      rw [h2.1]
      have := accounted_foldl_get _ mm _ ha h2.2
      refine accounted_perm this ?_
      rw [← List.append_assoc, ← List.append_assoc]
      exact List.perm_append_comm.append_right _
  | put_handle_info index =>
    simp only [rga_step, ledger_step]
    cases hj : s.jobs.get? index with
    | none => exact ⟨mm, hmm, hf, ha⟩
    | some job =>
      simp only [put_handle_info_eq s.drv mm job hmm, rga_system.held]
      refine ⟨_, rfl, fresh_of_derived hf (foldl_kref_put_derived _ _ mm).1
        (foldl_kref_put_derived _ _ mm).2, ?_⟩
      apply accounted_foldl_put
      have hp := flatMap_eraseIdx_perm rga_job.refs s.jobs index job hj
      refine accounted_perm ha ?_
      have h3 : (owned ++ s.jobs.flatMap rga_job.refs).Perm
          (owned ++ (job.refs ++ (s.jobs.eraseIdx index).flatMap rga_job.refs)) :=
        hp.append_left owned
      refine h3.trans ?_
      rw [← List.append_assoc, ← List.append_assoc]
      exact List.perm_append_comm.append_right _

theorem balanced_run_preserves (calls : List rga_call) :
    ∀ (s : rga_system) (owned : List Nat), s.balanced owned →
      balanced_run s owned calls = true →
      (rga_run s calls).balanced (ledger_run s owned calls) := by
  induction calls with
  | nil => intro s owned hb _; exact hb
  | cons c cs ih =>
    intro s owned hb hg
    simp only [balanced_run, Bool.and_eq_true] at hg
    exact ih _ _ (balanced_step_preserves s owned c hb hg.1) hg.2

theorem rga_boot_balanced (scheduler : List Nat) : (rga_boot scheduler).balanced [] := by
  refine ⟨rga_mm_init, rfl, rga_mm_init_fresh.1, List.nodup_nil, ?_, ?_⟩
  · intro e he; simp [rga_mm_init, idr_init_base] at he
  · intro h hh; simp [rga_system.held, rga_boot] at hh

/-! ## Acquire followed by release -/

theorem bump_nil (mm : rga_mm) : mm.bump [] = mm := by
  unfold rga_mm.bump
  have : mm.memory_idr.entries.map
      (fun e => { e with refcount := e.refcount + ([] : List Nat).count e.handle })
      = mm.memory_idr.entries := by
    conv_rhs => rw [← List.map_id mm.memory_idr.entries]
    apply List.map_congr_left
    intro e _
    simp
  rw [this]

theorem kref_get_bump (mm : rga_mm) (refs : List Nat) (h : Nat) :
    kref_get (mm.bump refs) h = mm.bump (refs ++ [h]) := by
  unfold kref_get rga_mm.bump idr_modify
  simp only [List.map_map]
  congr 2
  apply List.map_congr_left
  intro e _
  by_cases he : e.handle = h
  · simp [he, List.count_append, Nat.add_assoc]
  · have he2 : ¬ h = e.handle := fun x => he x.symm
    simp [he, he2, List.count_append, List.count_cons]

theorem foldl_kref_get_bump (L : List Nat) :
    ∀ (mm : rga_mm) (refs : List Nat), L.foldl kref_get (mm.bump refs) = mm.bump (refs ++ L) := by
  induction L with
  | nil => intro mm refs; simp
  | cons a L ih =>
    intro mm refs
    rw [List.foldl_cons, kref_get_bump, ih]
    simp

theorem foldl_kref_get_eq_bump (L : List Nat) (mm : rga_mm) :
    L.foldl kref_get mm = mm.bump L := by
  have := foldl_kref_get_bump L mm []
  rw [bump_nil] at this
  simpa using this

theorem kref_put_bump (scheduler : List Nat) (mm : rga_mm) (refs : List Nat) (h : Nat)
    (hpos : mm.counts_positive) (hh : h ∈ mm.handles) :
    kref_put scheduler (mm.bump (h :: refs)) h = mm.bump refs := by
  obtain ⟨e0, he0, he0h⟩ := List.mem_map.1 hh
  have hfind : ∃ e1, idr_find mm.memory_idr h = some e1 := by
    cases hf : idr_find mm.memory_idr h with
    | some e1 => exact ⟨e1, rfl⟩
    | none =>
      unfold idr_find at hf
      rw [List.find?_eq_none] at hf
      exact absurd (by simpa using he0h) (hf e0 he0)
  obtain ⟨e1, he1⟩ := hfind
  have he1m := find_handle_some he1
  have hfind2 : idr_find (mm.bump (h :: refs)).memory_idr h
      = some { e1 with refcount := e1.refcount + (h :: refs).count e1.handle } := by
    unfold idr_find rga_mm.bump
    simp only [List.find?_map]
    unfold idr_find at he1
    have : ((fun (e : rga_internal_buffer) => e.handle == h) ∘
        (fun e => { e with refcount := e.refcount + (h :: refs).count e.handle }))
        = (fun (e : rga_internal_buffer) => e.handle == h) := by
      funext e; rfl
    rw [this, he1]
    rfl
  have hge := hpos e1 he1m.1
  unfold kref_put
  rw [hfind2]
  have hne : ¬ (e1.refcount + (h :: refs).count e1.handle = 1) := by
    rw [he1m.2, List.count_cons_self]; omega
  simp only [hne, if_false]
  unfold rga_mm.bump idr_modify
  simp only [List.map_map]
  congr 2
  apply List.map_congr_left
  intro e _
  by_cases he : e.handle = h
  · simp [he]
  · have he2 : ¬ h = e.handle := fun x => he x.symm
    simp [he, he2, List.count_cons]

theorem foldl_kref_put_bump (scheduler : List Nat) (L : List Nat) :
    ∀ (mm : rga_mm), mm.counts_positive → (∀ h ∈ L, h ∈ mm.handles) →
      L.foldl (kref_put scheduler) (mm.bump L) = mm := by
  induction L with
  | nil => intro mm _ _; exact bump_nil mm
  | cons a L ih =>
    intro mm hpos hL
    rw [List.foldl_cons, kref_put_bump scheduler mm L a hpos (hL a (List.mem_cons_self _ _))]
    exact ih mm hpos (fun h hh => hL h (List.mem_cons_of_mem _ hh))

/-- Whatever rga_mm_get_handle_info returns for a new job, the registry holds
one reference more for each pointer the job records, and
rga_mm_put_handle_info gives exactly these back. -/
theorem get_then_put (drv : rga_drvdata) (mm : rga_mm) (env : rga_job_env) (job : rga_job)
    (hmm : drv.mm = some mm) (hjob : job.is_empty) (hpos : mm.counts_positive) :
    (rga_mm_get_handle_info drv env job).drv
        = { drv with mm := some (mm.bump (rga_mm_get_handle_info drv env job).job.refs) } ∧
    rga_mm_put_handle_info (rga_mm_get_handle_info drv env job).drv
        (rga_mm_get_handle_info drv env job).job = drv := by
  obtain ⟨mm2, h1, h2, h3⟩ := get_handle_info_acquired drv mm env job hmm hjob
  rw [foldl_kref_get_eq_bump] at h2
  subst h2
  refine ⟨h1, ?_⟩
  rw [h1, put_handle_info_eq _ _ _ rfl]
  simp only [foldl_kref_put_bump drv.scheduler _ mm hpos h3]
  exact (drv_eta hmm).symm

/-! ## Sequences of import and release calls -/

theorem import_returns_below (calls : List rga_call) :
    ∀ (s : rga_system) (mm : rga_mm), s.drv.mm = some mm → mm.fresh →
      ∃ mm2, (rga_run s calls).drv.mm = some mm2 ∧
        mm.memory_idr.idr_next ≤ mm2.memory_idr.idr_next ∧
        ∀ h ∈ import_returns s calls, h < max 1 mm2.memory_idr.idr_next := by
  induction calls with
  | nil =>
    intro s mm hmm _
    exact ⟨mm, hmm, Nat.le_refl _, fun h hh => by simp [import_returns] at hh⟩
  | cons c cs ih =>
    intro s mm hmm hf
    obtain ⟨mm1, hd1, hcase⟩ := step_effect s c mm hmm
    have hmm1 : (rga_step s c).drv.mm = some mm1 := by rw [hd1]
    have key : mm1.fresh ∧ mm.memory_idr.idr_next ≤ mm1.memory_idr.idr_next := by
      rcases hcase with ⟨hder, hnext⟩ | ⟨ext, session, env, _, _, _, rfl⟩
      · exact ⟨fresh_of_derived hf hder hnext, by omega⟩
      · refine ⟨fresh_insert hf _ rfl _, ?_⟩
        show mm.memory_idr.idr_next ≤ max 1 mm.memory_idr.idr_next + 1
        omega
    obtain ⟨mm2, hd2, hle, hall⟩ := ih (rga_step s c) mm1 hmm1 key.1
    refine ⟨mm2, hd2, by omega, ?_⟩
    cases c with
    | import_buffer ext session env =>
      intro h hh
      simp only [import_returns, List.mem_cons] at hh
      rcases hh with rfl | hh
      · rcases import_cases s.drv mm ext session env hmm with
          ⟨e, _, hem, heq⟩ | ⟨_, heq⟩ | ⟨_, _, heq⟩
        · rw [heq]
          have := (hf.2 e hem).2
          show e.handle < _
          omega
        · rw [heq]
          show 0 < _
          omega
        · have h2 : (rga_mm_import_buffer s.drv ext session env).2
              = { s.drv with mm := some mm1 } := hd1
          rw [heq] at h2
          simp only [rga_drvdata.mk.injEq, Option.some.injEq, true_and] at h2
          rw [heq]
          show max 1 mm.memory_idr.idr_next < _
          have : mm1.memory_idr.idr_next = max 1 mm.memory_idr.idr_next + 1 := by
            rw [← h2]
          omega
      · exact hall h hh
    | release_buffer handle => exact hall
    | session_release_buffer session => exact hall
    | get_handle_info req core scheduler env => exact hall
    | put_handle_info index => exact hall

theorem positive_kref_get {mm : rga_mm} (hp : mm.counts_positive) (h : Nat) :
    (kref_get mm h).counts_positive := by
  intro e he
  rw [kref_get_entries] at he
  obtain ⟨e0, he0, rfl⟩ := List.mem_map.1 he
  have := hp e0 he0
  split_ifs
  · show 1 ≤ e0.refcount + 1
    omega
  · exact this

theorem positive_kref_put (scheduler : List Nat) {mm : rga_mm} (hf : mm.fresh)
    (hp : mm.counts_positive) (h : Nat) : (kref_put scheduler mm h).counts_positive := by
  rcases kref_put_entries scheduler mm h with ⟨_, heq⟩ | ⟨b, _, _, heq⟩ | ⟨b, hb, hrc, heq⟩
  · rw [heq]; exact hp
  · intro e he
    rw [heq] at he
    exact hp e (List.mem_filter.1 he).1
  · intro e he
    rw [heq] at he
    obtain ⟨e0, he0, rfl⟩ := List.mem_map.1 he
    have h0 := hp e0 he0
    split_ifs with hh
    · have hbm := find_handle_some hb
      have : e0 = b := nodup_handle_inj hf.1 he0 hbm.1 (by rw [hh, hbm.2])
      subst this
      show 1 ≤ e0.refcount - 1
      omega
    · exact h0

theorem positive_foldl_get (L : List Nat) :
    ∀ mm : rga_mm, mm.counts_positive → (L.foldl kref_get mm).counts_positive := by
  induction L with
  | nil => intro mm hp; exact hp
  | cons a L ih => intro mm hp; exact ih _ (positive_kref_get hp a)

theorem positive_foldl_put (scheduler : List Nat) (L : List Nat) :
    ∀ mm : rga_mm, mm.fresh → mm.counts_positive →
      (L.foldl (kref_put scheduler) mm).counts_positive := by
  induction L with
  | nil => intro mm _ hp; exact hp
  | cons a L ih =>
    intro mm hf hp
    exact ih _ (fresh_of_derived hf (derived_from_kref_put scheduler mm a)
      (kref_put_idr_next scheduler mm a)) (positive_kref_put scheduler hf hp a)

theorem step_positive (s : rga_system) (c : rga_call) (mm : rga_mm) (hmm : s.drv.mm = some mm)
    (hf : mm.fresh) (hp : mm.counts_positive) :
    ∀ mm2, (rga_step s c).drv.mm = some mm2 → mm2.counts_positive := by
  intro mm2 h2
  cases c with
  | import_buffer ext session env =>
    rcases import_cases s.drv mm ext session env hmm with
      ⟨e, _, _, heq⟩ | ⟨_, heq⟩ | ⟨_, _, heq⟩
    · simp only [rga_step, heq, Option.some.injEq] at h2
      rw [← h2]; exact positive_kref_get hp _
    · simp only [rga_step, heq, hmm, Option.some.injEq] at h2
      rw [← h2]; exact hp
    · simp only [rga_step, heq, Option.some.injEq] at h2
      rw [← h2]
      intro e he
      rcases mem_idr_insert.1 he with rfl | he
      · exact Nat.le_refl 1
      · exact hp e he
  | release_buffer handle =>
    simp only [rga_step, rga_mm_release_buffer, hmm] at h2
    cases hl : rga_mm_lookup_handle mm handle with
    | none =>
      simp only [hl, hmm, Option.some.injEq] at h2
      rw [← h2]; exact hp
    | some e =>
      simp only [hl, Option.some.injEq] at h2
      rw [← h2]; exact positive_kref_put _ hf hp _
  | session_release_buffer session =>
    simp only [rga_step, rga_mm_session_release_buffer, hmm, Option.some.injEq] at h2
    rw [← h2, session_release_loop_eq]
    exact positive_foldl_put _ _ mm hf hp
  | get_handle_info req core scheduler env =>
    obtain ⟨mm3, h1, h3⟩ := get_handle_info_acquired s.drv mm env
      (rga_job.kzalloc req core scheduler) hmm
      ⟨⟨rfl, rfl, rfl⟩, ⟨rfl, rfl, rfl⟩, ⟨rfl, rfl, rfl⟩, ⟨rfl, rfl, rfl⟩⟩
    simp only [rga_step, h1, Option.some.injEq] at h2
    rw [← h2, h3.1]
    exact positive_foldl_get _ mm hp
  | put_handle_info index =>
    simp only [rga_step] at h2
    cases hj : s.jobs.get? index with
    | none =>
      simp only [hj, hmm, Option.some.injEq] at h2
      rw [← h2]; exact hp
    | some job =>
      simp only [hj, put_handle_info_eq s.drv mm job hmm, Option.some.injEq] at h2
      rw [← h2]
      exact positive_foldl_put _ _ mm hf hp

/-- Every live entry holds at least one reference, along every sequence of
calls. -/
theorem run_positive (calls : List rga_call) :
    ∀ (s : rga_system) (mm : rga_mm), s.drv.mm = some mm → mm.fresh →
      identities_unique mm.memory_idr.entries → mm.counts_positive →
      ∃ mm2, (rga_run s calls).drv.mm = some mm2 ∧ mm2.counts_positive := by
  induction calls with
  | nil => intro s mm hmm _ _ hp; exact ⟨mm, hmm, hp⟩
  | cons c cs ih =>
    intro s mm hmm hf hu hp
    obtain ⟨mm1, hd1, hf1, hu1⟩ := run_fresh [c] s mm hmm hf hu
    have hmm1 : (rga_step s c).drv.mm = some mm1 := by
      have : rga_run s [c] = rga_step s c := rfl
      rw [← this, hd1]
    exact ih (rga_step s c) mm1 hmm1 hf1 hu1 (step_positive s c mm hmm hf hp mm1 hmm1)

theorem rga_boot_positive (scheduler : List Nat) (calls : List rga_call) :
    ∃ mm, (rga_run (rga_boot scheduler) calls).drv.mm = some mm ∧ mm.counts_positive :=
  run_positive calls (rga_boot scheduler) rga_mm_init rfl rga_mm_init_fresh.1
    rga_mm_init_fresh.2 (fun e he => by simp [rga_mm_init, idr_init_base] at he)

/-! ## The claims -/

/-- C3 fails on the code: on a board whose first engine is an RGA3 core,
the import of a physically contiguous shared buffer maps all three engine slots,
and the teardown loop of rga_mm_unmap_dma_buffer stops after slot 0, so the
slots of the second and third engine are still mapped when the array is
freed. -/
theorem C3_teardown_leaves_mappings :
    (rga_run (rga_boot sample_scheduler)
      [sample_import_fd 0x5000 [sample_segment 0x10000000 4096] 7]).drv.entries.map
      (fun e => (e.slots.map (fun s => (s.core, s.mapped)),
                 (rga_mm_unmap_dma_buffer_slots e).map (fun s => (s.core, s.mapped))))
      = [([(RGA3_SCHEDULER_CORE0, true), (RGA3_SCHEDULER_CORE1, true),
           (RGA2_SCHEDULER_CORE0, true)],
          [(RGA3_SCHEDULER_CORE0, false), (RGA3_SCHEDULER_CORE1, true),
           (RGA2_SCHEDULER_CORE0, true)])] := by
  decide

/-- C5 (as amended): after any sequence of calls in which every release is
paid for by an outstanding import (a release of a handle follows an import
that returned it and was not yet released, and a session release finds such
an import for every entry it puts), every buffer pointer a job holds is the
handle of a live entry with refcount at least 1. -/
theorem C5_held_entries_stay_live (scheduler : List Nat) (calls : List rga_call)
    (hb : balanced_run (rga_boot scheduler) [] calls = true) :
    ∀ job ∈ (rga_run (rga_boot scheduler) calls).jobs, ∀ h ∈ job.refs,
      ∃ e ∈ (rga_run (rga_boot scheduler) calls).drv.entries,
        e.handle = h ∧ 1 ≤ e.refcount := by
  obtain ⟨mm, hmm, _, hacc⟩ := balanced_run_preserves calls (rga_boot scheduler) []
    (rga_boot_balanced scheduler) hb
  have hent : (rga_run (rga_boot scheduler) calls).drv.entries = mm.memory_idr.entries := by
    simp [rga_drvdata.entries, hmm]
  rw [hent]
  intro job hjob h hh
  have hheld : h ∈ (rga_run (rga_boot scheduler) calls).held :=
    List.mem_flatMap.2 ⟨job, hjob, hh⟩
  obtain ⟨e, he, heh⟩ := List.mem_map.1 (hacc.2.2 h (List.mem_append_right _ hheld))
  exact ⟨e, he, heh, (hacc.2.1 e he).2⟩

theorem C5_held_entries_stay_live_witness :
    balanced_run (rga_boot sample_scheduler) []
      [sample_import_physical 0x1000 7, sample_get 1 0, rga_call.release_buffer 1] = true ∧
    ∀ job ∈ (rga_run (rga_boot sample_scheduler)
        [sample_import_physical 0x1000 7, sample_get 1 0, rga_call.release_buffer 1]).jobs,
      ∀ h ∈ job.refs,
        ∃ e ∈ (rga_run (rga_boot sample_scheduler)
          [sample_import_physical 0x1000 7, sample_get 1 0, rga_call.release_buffer 1]
          ).drv.entries, e.handle = h ∧ 1 ≤ e.refcount :=
  ⟨by decide, C5_held_entries_stay_live sample_scheduler _ (by decide)⟩

set_option maxRecDepth 8000 in
/-- C5 fails as stated: after one import, a job that acquired the entry, and
two releases of the handle, the job still holds the pointer and the registry
has no entry left. -/
theorem C5_release_under_a_job :
    (rga_run (rga_boot sample_scheduler)
      [sample_import_physical 0x1000 7, sample_get 1 0, rga_call.release_buffer 1,
        rga_call.release_buffer 1]).jobs.map rga_job.refs = [[1]] ∧
    (rga_run (rga_boot sample_scheduler)
      [sample_import_physical 0x1000 7, sample_get 1 0, rga_call.release_buffer 1,
        rga_call.release_buffer 1]).drv.entries = [] := by
  exact ⟨rfl, rfl⟩

/-- C6 (as amended): when rga_mm_get_handle_info returns an error for a new
job in a state reached from rga_mm_init, it has dropped nothing: the refcount
of every entry is its value before the call plus the number of pointers to the
entry that the channel states of the job record, and a following
rga_mm_put_handle_info on the job returns the registry to its state before the
call. -/
theorem C6_failed_get_keeps_references (scheduler : List Nat) (calls : List rga_call)
    (env : rga_job_env) (job : rga_job) (hjob : job.is_empty)
    (herr : (rga_mm_get_handle_info (rga_run (rga_boot scheduler) calls).drv env job).ret < 0) :
    (rga_mm_get_handle_info (rga_run (rga_boot scheduler) calls).drv env job).drv.counts =
      (rga_run (rga_boot scheduler) calls).drv.counts.map
        (fun p => (p.1, p.2 +
          (rga_mm_get_handle_info (rga_run (rga_boot scheduler) calls).drv env job).job.refs.count
            p.1)) ∧
    rga_mm_put_handle_info
      (rga_mm_get_handle_info (rga_run (rga_boot scheduler) calls).drv env job).drv
      (rga_mm_get_handle_info (rga_run (rga_boot scheduler) calls).drv env job).job
      = (rga_run (rga_boot scheduler) calls).drv := by
  obtain ⟨mm, hmm, hpos⟩ := rga_boot_positive scheduler calls
  obtain ⟨h1, h2⟩ := get_then_put _ mm env job hmm hjob hpos
  refine ⟨?_, h2⟩
  rw [h1]
  simp only [rga_drvdata.counts, rga_drvdata.entries, hmm, rga_mm.bump, List.map_map]
  rfl

theorem C6_failed_get_keeps_references_witness :
    (rga_job.kzalloc (sample_req 1 9) RGA2_SCHEDULER_CORE0 (some 2)).is_empty ∧
    (rga_mm_get_handle_info
      (rga_run (rga_boot sample_scheduler) [sample_import_physical 0x1000 7]).drv sample_job_env
      (rga_job.kzalloc (sample_req 1 9) RGA2_SCHEDULER_CORE0 (some 2))).ret < 0 ∧
    rga_mm_put_handle_info
      (rga_mm_get_handle_info
        (rga_run (rga_boot sample_scheduler) [sample_import_physical 0x1000 7]).drv
        sample_job_env (rga_job.kzalloc (sample_req 1 9) RGA2_SCHEDULER_CORE0 (some 2))).drv
      (rga_mm_get_handle_info
        (rga_run (rga_boot sample_scheduler) [sample_import_physical 0x1000 7]).drv
        sample_job_env (rga_job.kzalloc (sample_req 1 9) RGA2_SCHEDULER_CORE0 (some 2))).job
      = (rga_run (rga_boot sample_scheduler) [sample_import_physical 0x1000 7]).drv :=
  ⟨⟨⟨rfl, rfl, rfl⟩, ⟨rfl, rfl, rfl⟩, ⟨rfl, rfl, rfl⟩, ⟨rfl, rfl, rfl⟩⟩, by decide,
    (C6_failed_get_keeps_references sample_scheduler [sample_import_physical 0x1000 7]
      sample_job_env (rga_job.kzalloc (sample_req 1 9) RGA2_SCHEDULER_CORE0 (some 2))
      ⟨⟨rfl, rfl, rfl⟩, ⟨rfl, rfl, rfl⟩, ⟨rfl, rfl, rfl⟩, ⟨rfl, rfl, rfl⟩⟩ (by decide)).2⟩

/-- C6 fails as stated: with handle 1 live and handle 9 unknown, the get for a
job with source 1 and destination 9 returns -EFAULT, and on return entry 1 has
refcount 2 where it had 1 before the call. -/
theorem C6_reference_kept_on_error :
    (rga_run (rga_boot sample_scheduler) [sample_import_physical 0x1000 7]).drv.counts
      = [(1, 1)] ∧
    (rga_mm_get_handle_info
      (rga_run (rga_boot sample_scheduler) [sample_import_physical 0x1000 7]).drv sample_job_env
      (rga_job.kzalloc (sample_req 1 9) RGA2_SCHEDULER_CORE0 (some 2))).ret = -EFAULT ∧
    (rga_mm_get_handle_info
      (rga_run (rga_boot sample_scheduler) [sample_import_physical 0x1000 7]).drv sample_job_env
      (rga_job.kzalloc (sample_req 1 9) RGA2_SCHEDULER_CORE0 (some 2))).drv.counts
      = [(1, 2)] := by
  refine ⟨?_, ?_, ?_⟩ <;> decide

/-- C7: for a job whose channel states are initially empty, in any state
reached from rga_mm_init in which rga_mm_get_handle_info succeeds, the get has
taken one reference for each pointer the job records, and the following
rga_mm_put_handle_info drops each of them once: the registry, and with it
every refcount, is what it was before the get. -/
theorem C7_put_undoes_get (scheduler : List Nat) (calls : List rga_call)
    (env : rga_job_env) (job : rga_job) (hjob : job.is_empty)
    (hok : (rga_mm_get_handle_info (rga_run (rga_boot scheduler) calls).drv env job).ret = 0) :
    (rga_mm_get_handle_info (rga_run (rga_boot scheduler) calls).drv env job).drv.counts =
      (rga_run (rga_boot scheduler) calls).drv.counts.map
        (fun p => (p.1, p.2 +
          (rga_mm_get_handle_info (rga_run (rga_boot scheduler) calls).drv env job).job.refs.count
            p.1)) ∧
    rga_mm_put_handle_info
      (rga_mm_get_handle_info (rga_run (rga_boot scheduler) calls).drv env job).drv
      (rga_mm_get_handle_info (rga_run (rga_boot scheduler) calls).drv env job).job
      = (rga_run (rga_boot scheduler) calls).drv := by
  obtain ⟨mm, hmm, hpos⟩ := rga_boot_positive scheduler calls
  obtain ⟨h1, h2⟩ := get_then_put _ mm env job hmm hjob hpos
  refine ⟨?_, h2⟩
  rw [h1]
  simp only [rga_drvdata.counts, rga_drvdata.entries, hmm, rga_mm.bump, List.map_map]
  rfl

theorem C7_put_undoes_get_witness :
    (rga_job.kzalloc (sample_req 1 2) RGA2_SCHEDULER_CORE0 (some 2)).is_empty ∧
    (rga_mm_get_handle_info
      (rga_run (rga_boot sample_scheduler)
        [sample_import_physical 0x1000 7, sample_import_physical 0x2000 7]).drv sample_job_env
      (rga_job.kzalloc (sample_req 1 2) RGA2_SCHEDULER_CORE0 (some 2))).ret = 0 ∧
    rga_mm_put_handle_info
      (rga_mm_get_handle_info
        (rga_run (rga_boot sample_scheduler)
          [sample_import_physical 0x1000 7, sample_import_physical 0x2000 7]).drv
        sample_job_env (rga_job.kzalloc (sample_req 1 2) RGA2_SCHEDULER_CORE0 (some 2))).drv
      (rga_mm_get_handle_info
        (rga_run (rga_boot sample_scheduler)
          [sample_import_physical 0x1000 7, sample_import_physical 0x2000 7]).drv
        sample_job_env (rga_job.kzalloc (sample_req 1 2) RGA2_SCHEDULER_CORE0 (some 2))).job
      = (rga_run (rga_boot sample_scheduler)
          [sample_import_physical 0x1000 7, sample_import_physical 0x2000 7]).drv :=
  ⟨⟨⟨rfl, rfl, rfl⟩, ⟨rfl, rfl, rfl⟩, ⟨rfl, rfl, rfl⟩, ⟨rfl, rfl, rfl⟩⟩, by decide,
    (C7_put_undoes_get sample_scheduler
      [sample_import_physical 0x1000 7, sample_import_physical 0x2000 7]
      sample_job_env (rga_job.kzalloc (sample_req 1 2) RGA2_SCHEDULER_CORE0 (some 2))
      ⟨⟨rfl, rfl, rfl⟩, ⟨rfl, rfl, rfl⟩, ⟨rfl, rfl, rfl⟩, ⟨rfl, rfl, rfl⟩⟩ (by decide)).2⟩

/-- C8 fails on the code: the import of a physically contiguous shared buffer
whose physical address resolves to 0 returns handle 1, not the sentinel 0, and
leaves in the registry an entry without slot array, with buffer_count raised
to 1. -/
theorem C8_import_of_address_zero :
    (rga_mm_import_buffer (rga_boot sample_scheduler).drv
      (sample_request rga_memory_type.RGA_DMA_BUFFER 3) 7
      (sample_shared_env 0x5000 [sample_segment 0 4096])).1 = 1 ∧
    (rga_mm_import_buffer (rga_boot sample_scheduler).drv
      (sample_request rga_memory_type.RGA_DMA_BUFFER 3) 7
      (sample_shared_env 0x5000 [sample_segment 0 4096])).2.entries.map
      (fun e => (e.handle, e.refcount, e.dma_buffer, e.phys_addr)) = [(1, 1, none, 0)] ∧
    (rga_mm_import_buffer (rga_boot sample_scheduler).drv
      (sample_request rga_memory_type.RGA_DMA_BUFFER 3) 7
      (sample_shared_env 0x5000 [sample_segment 0 4096])).2.mm.map (fun mm => mm.buffer_count)
      = some 1 ∧
    (rga_boot sample_scheduler).drv.entries = [] := by
  refine ⟨?_, ?_, ?_, ?_⟩ <;> decide

/-- C9: in any state reached from rga_mm_init, the handle returned by
an import that creates a new entry is at least 1, differs from the handle of
every live entry, and is larger than every handle an earlier import returned,
so no released value comes back. -/
theorem C9_new_handle_is_fresh (scheduler : List Nat) (calls : List rga_call)
    (ext : rga_external_buffer) (session : Nat) (env : rga_import_env)
    (hmiss : ((rga_run (rga_boot scheduler) calls).drv.lookup_external ext env).is_found = false)
    (hnew : (rga_mm_import_buffer (rga_run (rga_boot scheduler) calls).drv ext session env).1
      ≠ 0) :
    1 ≤ (rga_mm_import_buffer (rga_run (rga_boot scheduler) calls).drv ext session env).1 ∧
    (∀ e ∈ (rga_run (rga_boot scheduler) calls).drv.entries, e.handle ≠
      (rga_mm_import_buffer (rga_run (rga_boot scheduler) calls).drv ext session env).1) ∧
    (∀ h ∈ import_returns (rga_boot scheduler) calls, h <
      (rga_mm_import_buffer (rga_run (rga_boot scheduler) calls).drv ext session env).1) := by
  obtain ⟨mm, hmm, _, hbelow⟩ := import_returns_below calls (rga_boot scheduler) rga_mm_init rfl
    rga_mm_init_fresh.1
  obtain ⟨mm2, hd2, hf2, _⟩ := run_fresh calls (rga_boot scheduler) rga_mm_init rfl
    rga_mm_init_fresh.1 rga_mm_init_fresh.2
  have hmm2 : (rga_run (rga_boot scheduler) calls).drv.mm = some mm2 := by rw [hd2]
  have heq : mm2 = mm := by rw [hmm] at hmm2; exact (Option.some.inj hmm2).symm
  subst heq
  have hent : (rga_run (rga_boot scheduler) calls).drv.entries = mm2.memory_idr.entries := by
    simp [rga_drvdata.entries, hmm]
  rcases import_cases _ mm2 ext session env hmm with ⟨e, hl, _, _⟩ | ⟨_, heq⟩ | ⟨_, _, heq⟩
  · simp [rga_drvdata.lookup_external, hmm, hl, lookup_result.is_found] at hmiss
  · rw [heq] at hnew
    exact absurd rfl hnew
  · rw [heq, hent]
    refine ⟨Nat.le_max_left _ _, ?_, hbelow⟩
    intro e he
    have := (hf2.2 e he).2
    show e.handle ≠ max 1 mm2.memory_idr.idr_next
    omega

theorem C9_new_handle_is_fresh_witness :
    ((rga_run (rga_boot sample_scheduler)
        [sample_import_physical 0x1000 7, rga_call.release_buffer 1]).drv.lookup_external
      (sample_request rga_memory_type.RGA_PHYSICAL_ADDRESS 0x2000) sample_env).is_found = false ∧
    (rga_mm_import_buffer (rga_run (rga_boot sample_scheduler)
        [sample_import_physical 0x1000 7, rga_call.release_buffer 1]).drv
      (sample_request rga_memory_type.RGA_PHYSICAL_ADDRESS 0x2000) 7 sample_env).1 ≠ 0 ∧
    import_returns (rga_boot sample_scheduler)
      [sample_import_physical 0x1000 7, rga_call.release_buffer 1] = [1] ∧
    1 ≤ (rga_mm_import_buffer (rga_run (rga_boot sample_scheduler)
        [sample_import_physical 0x1000 7, rga_call.release_buffer 1]).drv
      (sample_request rga_memory_type.RGA_PHYSICAL_ADDRESS 0x2000) 7 sample_env).1 :=
  ⟨by decide, by decide, by decide,
    (C9_new_handle_is_fresh sample_scheduler
      [sample_import_physical 0x1000 7, rga_call.release_buffer 1]
      (sample_request rga_memory_type.RGA_PHYSICAL_ADDRESS 0x2000) 7 sample_env
      (by decide) (by decide)).1⟩

/-- C10 (as amended): for a registry with distinct handles and any 64-bit
value `h`, rga_mm_lookup_flag answers for the low 32 bits of `h`: the mm_flag,
as a C int, of the entry whose handle is `h mod 2^32` when there is one, and
-EINVAL when no live entry has that handle. -/
theorem C10_lookup_flag_of_low_bits (mm : rga_mm) (h : Nat) (hnd : mm.handles.Nodup) :
    (∀ e ∈ mm.memory_idr.entries, e.handle = h % 2 ^ 32 →
      rga_mm_lookup_flag mm h = to_int32 e.mm_flag ∧
      (e.mm_flag < 2 ^ 31 → rga_mm_lookup_flag mm h = (e.mm_flag : Int))) ∧
    ((∀ e ∈ mm.memory_idr.entries, e.handle ≠ h % 2 ^ 32) →
      rga_mm_lookup_flag mm h = -EINVAL) := by
  constructor
  · intro e he heh
    have hfind : ∃ b, rga_mm_lookup_handle mm h = some b := by
      cases hf : rga_mm_lookup_handle mm h with
      | some b => exact ⟨b, rfl⟩
      | none =>
        unfold rga_mm_lookup_handle idr_find at hf
        rw [List.find?_eq_none] at hf
        exact absurd (by simpa using heh) (hf e he)
    obtain ⟨b, hb⟩ := hfind
    have hbm := find_handle_some hb
    have hbe : b = e := nodup_handle_inj hnd hbm.1 he (by rw [hbm.2, heh])
    subst hbe
    have key : rga_mm_lookup_flag mm h = to_int32 b.mm_flag := by
      unfold rga_mm_lookup_flag
      rw [hb]
    refine ⟨key, fun hlt => ?_⟩
    rw [key]
    unfold to_int32
    have h1 : b.mm_flag % 2 ^ 32 = b.mm_flag := Nat.mod_eq_of_lt (by omega)
    rw [h1, if_pos hlt]
  · intro hne
    unfold rga_mm_lookup_flag rga_mm_lookup_handle idr_find
    rw [find_handle_none hne]

theorem C10_lookup_flag_of_low_bits_witness :
    ((rga_run (rga_boot sample_scheduler)
      [sample_import_physical 0x1000 7]).drv.mm.getD rga_mm_init).handles.Nodup ∧
    ∀ e ∈ ((rga_run (rga_boot sample_scheduler)
        [sample_import_physical 0x1000 7]).drv.mm.getD rga_mm_init).memory_idr.entries,
      e.handle = 4294967297 % 2 ^ 32 →
        rga_mm_lookup_flag ((rga_run (rga_boot sample_scheduler)
          [sample_import_physical 0x1000 7]).drv.mm.getD rga_mm_init) 4294967297
          = to_int32 e.mm_flag ∧
        (e.mm_flag < 2 ^ 31 →
          rga_mm_lookup_flag ((rga_run (rga_boot sample_scheduler)
            [sample_import_physical 0x1000 7]).drv.mm.getD rga_mm_init) 4294967297
            = (e.mm_flag : Int)) :=
  ⟨by decide, (C10_lookup_flag_of_low_bits _ 4294967297 (by decide)).1⟩

/-- C10 fails as stated: the only live entry has handle 1, no entry has handle
2^32 + 1, and rga_mm_lookup_flag answers that value with the flags of entry 1
instead of -EINVAL. -/
theorem C10_handle_above_32_bits :
    (rga_run (rga_boot sample_scheduler)
      [sample_import_fd 0x5000 [sample_segment 0x10000 4096, sample_segment 0x30000 4096] 7]
      ).drv.entries.map (fun e => (e.handle, e.mm_flag)) = [(1, 5)] ∧
    rga_mm_lookup_flag ((rga_run (rga_boot sample_scheduler)
      [sample_import_fd 0x5000 [sample_segment 0x10000 4096, sample_segment 0x30000 4096] 7]
      ).drv.mm.getD rga_mm_init) 4294967297 = 5 := by
  refine ⟨?_, ?_⟩ <;> decide

/-! ## The page-table walk -/

theorem fill_spec (Address mapped pageCount base : Nat) :
    ∀ (n i : Nat) (t : List Nat), mapped + i + n ≤ 2 ^ 32 →
      (rga_mm_sgt_to_page_table_fill Address mapped pageCount base n i t).2.length = t.length ∧
      ((rga_mm_sgt_to_page_table_fill Address mapped pageCount base n i t).1 = true ↔
        (0 < n ∧ pageCount < mapped + i + n)) ∧
      ∀ k, (rga_mm_sgt_to_page_table_fill Address mapped pageCount base n i t).2[k]? =
        if base + mapped + i ≤ k ∧ k < base + mapped + i + n ∧ k < base + pageCount ∧
            k < t.length
        then some ((Address + (k - (base + mapped)) * PAGE_SIZE) % 2 ^ 32) else t[k]? := by
  intro n
  induction n with
  | zero =>
    intro i t _
    refine ⟨?_, ?_, ?_⟩
    · simp [rga_mm_sgt_to_page_table_fill]
    · simp [rga_mm_sgt_to_page_table_fill]
    · intro k
      have : ¬ (base + mapped + i ≤ k ∧ k < base + mapped + i + 0 ∧ k < base + pageCount ∧
          k < t.length) := by omega
      simp only [rga_mm_sgt_to_page_table_fill, this, if_false]
  | succ n ih =>
    intro i t hb
    have hmod : (mapped + i) % 2 ^ 32 = mapped + i := Nat.mod_eq_of_lt (by omega)
    simp only [rga_mm_sgt_to_page_table_fill, hmod]
    by_cases hge : mapped + i ≥ pageCount
    · simp only [hge, if_true]
      refine ⟨trivial, ?_, ?_⟩
      · simp only [true_iff]; omega
      · intro k
        have : ¬ (base + mapped + i ≤ k ∧ k < base + mapped + i + (n + 1) ∧
            k < base + pageCount ∧ k < t.length) := by omega
        simp only [this, if_false]
    · simp only [hge, if_false]
      obtain ⟨h1, h2, h3⟩ := ih (i + 1)
        (t.set (base + (mapped + i)) ((Address + (i <<< PAGE_SHIFT) % 2 ^ 32) % 2 ^ 32))
        (by omega)
      refine ⟨by rw [h1, List.length_set], ?_, ?_⟩
      · rw [h2]; omega
      · intro k
        rw [h3, List.length_set, List.getElem?_set]
        by_cases hk : base + (mapped + i) = k
        · subst hk
          have c1 : ¬ (base + mapped + (i + 1) ≤ base + (mapped + i) ∧
              base + (mapped + i) < base + mapped + (i + 1) + n ∧
              base + (mapped + i) < base + pageCount ∧ base + (mapped + i) < t.length) := by
            omega
          simp only [c1, if_false, if_true]
          by_cases hlt : base + (mapped + i) < t.length
          · have c2 : base + mapped + i ≤ base + (mapped + i) ∧
                base + (mapped + i) < base + mapped + i + (n + 1) ∧
                base + (mapped + i) < base + pageCount ∧ base + (mapped + i) < t.length := by
              omega
            simp only [c2, hlt, and_self, if_true]
            have : base + (mapped + i) - (base + mapped) = i := by omega
            rw [this, Nat.shiftLeft_eq, Nat.add_mod_mod]
            rfl
          · have c2 : ¬ (base + mapped + i ≤ base + (mapped + i) ∧
                base + (mapped + i) < base + mapped + i + (n + 1) ∧
                base + (mapped + i) < base + pageCount ∧ base + (mapped + i) < t.length) := by
              omega
            rw [if_neg c2, if_neg hlt, List.getElem?_eq_none (by omega)]
        · simp only [hk, if_false]
          by_cases hc : base + mapped + (i + 1) ≤ k ∧ k < base + mapped + (i + 1) + n ∧
              k < base + pageCount ∧ k < t.length
          · have c2 : base + mapped + i ≤ k ∧ k < base + mapped + i + (n + 1) ∧
                k < base + pageCount ∧ k < t.length := by omega
            simp only [hc, c2, and_self, if_true]
          · have c2 : ¬ (base + mapped + i ≤ k ∧ k < base + mapped + i + (n + 1) ∧
                k < base + pageCount ∧ k < t.length) := by omega
            simp only [hc, c2, if_false]

theorem run_length_eq (s : scatterlist) (h : s.length < 2 ^ 32 ∧ s.dma_len < 2 ^ 32) :
    (if (s.dma_len >>> PAGE_SHIFT) % 2 ^ 32 = 0 then (s.length >>> PAGE_SHIFT) % 2 ^ 32
      else (s.dma_len >>> PAGE_SHIFT) % 2 ^ 32) = segment_run_length s ∧
    segment_run_length s < 2 ^ 20 := by
  unfold segment_run_length
  simp only [Nat.shiftRight_eq_div_pow, PAGE_SIZE, PAGE_SHIFT]
  have h1 : s.length / 2 ^ 12 < 2 ^ 20 := by omega
  have h2 : s.dma_len / 2 ^ 12 < 2 ^ 20 := by omega
  rw [Nat.mod_eq_of_lt (by omega : s.length / 2 ^ 12 < 2 ^ 32),
    Nat.mod_eq_of_lt (by omega : s.dma_len / 2 ^ 12 < 2 ^ 32)]
  refine ⟨rfl, ?_⟩
  split_ifs <;> assumption

theorem segment_frames_length (use_dma_address : Int) (s : scatterlist) :
    (segment_frames use_dma_address s).length = segment_run_length s := by
  simp [segment_frames]

theorem segment_frames_getElem (use_dma_address : Int) (s : scatterlist) (j : Nat)
    (hj : j < segment_run_length s) :
    (segment_frames use_dma_address s)[j]? =
      some ((segment_address use_dma_address s + j * PAGE_SIZE) % 2 ^ 32) := by
  simp [segment_frames, List.getElem?_range hj]

theorem loop_cons (nents pageCount : Nat) (use_dma_address : Int) (base : Nat)
    (s : scatterlist) (rest : List scatterlist) (mapped sg_num : Nat) (t : List Nat)
    (h : s.length < 2 ^ 32 ∧ s.dma_len < 2 ^ 32) :
    rga_mm_sgt_to_page_table_loop nents pageCount use_dma_address base (s :: rest) mapped
        sg_num t =
      if (rga_mm_sgt_to_page_table_fill (segment_address use_dma_address s) mapped pageCount
          base (segment_run_length s) 0 t).1 = true then
        (rga_mm_sgt_to_page_table_fill (segment_address use_dma_address s) mapped pageCount
          base (segment_run_length s) 0 t).2
      else if (mapped + segment_run_length s) % 2 ^ 32 < pageCount ∧
          (sg_num + 1) % 2 ^ 32 < nents then
        rga_mm_sgt_to_page_table_loop nents pageCount use_dma_address base rest
          ((mapped + segment_run_length s) % 2 ^ 32) ((sg_num + 1) % 2 ^ 32)
          (rga_mm_sgt_to_page_table_fill (segment_address use_dma_address s) mapped pageCount
            base (segment_run_length s) 0 t).2
      else
        (rga_mm_sgt_to_page_table_fill (segment_address use_dma_address s) mapped pageCount
          base (segment_run_length s) 0 t).2 := by
  simp only [rga_mm_sgt_to_page_table_loop, (run_length_eq s h).1]
  rfl

theorem loop_spec (nents pageCount : Nat) (use_dma_address : Int) (base : Nat)
    (hpc : pageCount < 2 ^ 31) :
    ∀ (segs : List scatterlist) (mapped sg_num : Nat) (t : List Nat),
      (∀ s ∈ segs, s.length < 2 ^ 32 ∧ s.dma_len < 2 ^ 32) → mapped ≤ pageCount →
      sg_num + segs.length < 2 ^ 32 →
      (rga_mm_sgt_to_page_table_loop nents pageCount use_dma_address base segs mapped sg_num
        t).length = t.length ∧
      ∀ k, (rga_mm_sgt_to_page_table_loop nents pageCount use_dma_address base segs mapped
          sg_num t)[k]? =
        if base + mapped ≤ k ∧ k < base + pageCount ∧ k < t.length ∧
            k - (base + mapped) <
              ((segs.take (max 1 (nents - sg_num))).flatMap
                (segment_frames use_dma_address)).length
        then ((segs.take (max 1 (nents - sg_num))).flatMap
          (segment_frames use_dma_address))[k - (base + mapped)]?
        else t[k]? := by
  intro segs
  induction segs with
  | nil =>
    intro mapped sg_num t _ _ _
    refine ⟨rfl, fun k => ?_⟩
    simp [rga_mm_sgt_to_page_table_loop]
  | cons s rest ih =>
    intro mapped sg_num t hwf hm hn
    have hs := hwf s (List.mem_cons_self _ _)
    have hL := (run_length_eq s hs).2
    obtain ⟨f1, f2, f3⟩ := fill_spec (segment_address use_dma_address s) mapped pageCount base
      (segment_run_length s) 0 t (by omega)
    have hlen : (List.length rest) + 1 = (s :: rest).length := rfl
    have hE : ∀ m, 1 ≤ m → ((s :: rest).take m).flatMap (segment_frames use_dma_address) =
        segment_frames use_dma_address s ++
          (rest.take (m - 1)).flatMap (segment_frames use_dma_address) := by
      intro m hm1
      obtain ⟨m1, rfl⟩ : ∃ m1, m = m1 + 1 := ⟨m - 1, by omega⟩
      simp
    have hmax : 1 ≤ max 1 (nents - sg_num) := Nat.le_max_left _ _
    rw [loop_cons _ _ _ _ _ _ _ _ _ hs, hE _ hmax]
    by_cases hbrk : (rga_mm_sgt_to_page_table_fill (segment_address use_dma_address s) mapped
        pageCount base (segment_run_length s) 0 t).1 = true
    · rw [if_pos hbrk]
      have hb := f2.1 hbrk
      refine ⟨f1, fun k => ?_⟩
      rw [f3]
      by_cases hc : base + mapped + 0 ≤ k ∧ k < base + mapped + 0 + segment_run_length s ∧
          k < base + pageCount ∧ k < t.length
      · have hj : k - (base + mapped) < segment_run_length s := by omega
        rw [if_pos hc, if_pos ⟨by omega, by omega, by omega,
          by rw [List.length_append, segment_frames_length]; omega⟩,
          List.getElem?_append_left (by rw [segment_frames_length]; exact hj),
          segment_frames_getElem _ _ _ hj]
      · rw [if_neg hc, if_neg]
        rw [List.length_append, segment_frames_length]
        omega
    · rw [if_neg hbrk]
      have hnb : ¬ (0 < segment_run_length s ∧ pageCount < mapped + 0 + segment_run_length s) :=
        fun h => hbrk (f2.2 h)
      have hmod1 : (mapped + segment_run_length s) % 2 ^ 32 = mapped + segment_run_length s :=
        Nat.mod_eq_of_lt (by omega)
      have hmod2 : (sg_num + 1) % 2 ^ 32 = sg_num + 1 := Nat.mod_eq_of_lt (by omega)
      rw [hmod1, hmod2]
      by_cases hcont : mapped + segment_run_length s < pageCount ∧ sg_num + 1 < nents
      · rw [if_pos hcont]
        obtain ⟨g1, g2⟩ := ih (mapped + segment_run_length s) (sg_num + 1)
          (rga_mm_sgt_to_page_table_fill (segment_address use_dma_address s) mapped pageCount
            base (segment_run_length s) 0 t).2
          (fun x hx => hwf x (List.mem_cons_of_mem _ hx)) (by omega) (by omega)
        have hmx : max 1 (nents - sg_num) - 1 = max 1 (nents - (sg_num + 1)) := by omega
        refine ⟨by rw [g1, f1], fun k => ?_⟩
        rw [g2, f1, f3, hmx, List.length_append, segment_frames_length]
        by_cases hk : k < base + mapped + segment_run_length s
        · rw [if_neg (by omega)]
          by_cases hc : base + mapped + 0 ≤ k ∧ k < base + mapped + 0 + segment_run_length s ∧
              k < base + pageCount ∧ k < t.length
          · have hj : k - (base + mapped) < segment_run_length s := by omega
            rw [if_pos hc, if_pos ⟨by omega, by omega, by omega, by omega⟩,
              List.getElem?_append_left (by rw [segment_frames_length]; exact hj),
              segment_frames_getElem _ _ _ hj]
          · rw [if_neg hc, if_neg (by omega)]
        · rw [if_neg (by omega :
            ¬ (base + mapped + 0 ≤ k ∧ k < base + mapped + 0 + segment_run_length s ∧
              k < base + pageCount ∧ k < t.length))]
          by_cases hc : base + (mapped + segment_run_length s) ≤ k ∧ k < base + pageCount ∧
              k < t.length ∧ k - (base + (mapped + segment_run_length s)) <
                ((rest.take (max 1 (nents - (sg_num + 1)))).flatMap
                  (segment_frames use_dma_address)).length
          · rw [if_pos hc, if_pos ⟨by omega, by omega, by omega, by omega⟩,
              List.getElem?_append_right (by rw [segment_frames_length]; omega),
              segment_frames_length]
            congr 1
            omega
          · rw [if_neg hc, if_neg (by omega)]
      · rw [if_neg hcont]
        refine ⟨f1, fun k => ?_⟩
        rw [f3, List.length_append, segment_frames_length]
        by_cases hc : base + mapped + 0 ≤ k ∧ k < base + mapped + 0 + segment_run_length s ∧
            k < base + pageCount ∧ k < t.length
        · have hj : k - (base + mapped) < segment_run_length s := by omega
          rw [if_pos hc, if_pos ⟨by omega, by omega, by omega, by omega⟩,
            List.getElem?_append_left (by rw [segment_frames_length]; exact hj),
            segment_frames_getElem _ _ _ hj]
        · rw [if_neg hc, if_neg]
          intro ⟨h1, h2, h3, h4⟩
          by_cases hnn : sg_num + 1 < nents
          · omega
          · have hm1 : max 1 (nents - sg_num) - 1 = 0 := by omega
            rw [hm1] at h4
            simp at h4
            omega

theorem to_uint32_of_nonneg (z : Int) (h0 : 0 ≤ z) (h1 : z < 2 ^ 31) :
    to_uint32 z = z.toNat := by
  unfold to_uint32
  rw [Int.emod_eq_of_lt h0 (by omega)]

/-- What rga_mm_sgt_to_page_table leaves in the array: the frames of the
table at the entries from `base` on, as far as `pageCount` and the frames
reach, every other entry as it was. -/
theorem sgt_to_page_table_spec (sg : sg_table) (table : List Nat) (base : Nat) (pageCount : Int)
    (use_dma_address : Int) (hwf : sg.well_formed) (h0 : 0 ≤ pageCount)
    (h1 : pageCount < 2 ^ 31) :
    (rga_mm_sgt_to_page_table sg table base pageCount use_dma_address).1 = 0 ∧
    (rga_mm_sgt_to_page_table sg table base pageCount use_dma_address).2.length
      = table.length ∧
    ∀ k, (rga_mm_sgt_to_page_table sg table base pageCount use_dma_address).2[k]? =
      if base ≤ k ∧ k < base + pageCount.toNat ∧ k < table.length ∧
          k - base < (table_frames use_dma_address sg).length
      then (table_frames use_dma_address sg)[k - base]? else table[k]? := by
  have hpc : pageCount.toNat < 2 ^ 31 := by omega
  obtain ⟨g1, g2⟩ := loop_spec sg.nents pageCount.toNat use_dma_address base hpc sg.sgl 0 0
    table hwf.2 (Nat.zero_le _) (by have := hwf.1; omega)
  unfold rga_mm_sgt_to_page_table
  rw [to_uint32_of_nonneg pageCount h0 h1]
  refine ⟨rfl, g1, fun k => ?_⟩
  rw [g2 k]
  simp only [Nat.add_zero, Nat.sub_zero, table_frames]

theorem to_uint64_natCast (n : Nat) (h : n < 2 ^ 64) : to_uint64 (n : Int) = n := by
  unfold to_uint64
  rw [Int.emod_eq_of_lt (by omega) (by omega)]
  simp

theorem to_int32_of_lt (n : Nat) (h : n < 2 ^ 31) : to_int32 n = (n : Int) := by
  unfold to_int32
  rw [Nat.mod_eq_of_lt (by omega), if_pos h]

/-- Three-plane branch of rga_mm_set_mmu_base when the table is allocated and
every plane has a scatter table: the value returned, with the page counts and
offsets as natural numbers. -/
theorem set_mmu_base_three_planes (mm : rga_mm) (env : rga_job_env) (job : rga_job)
    (img : rga_img_info_t) (job_buf : rga_job_buffer) (c1 c2 c3 o1 o2 o3 : Nat)
    (sy suv sv : sg_table)
    (huv : job_buf.uv_addr ≠ none)
    (ho1 : virt_offset mm job_buf.y_addr = (o1 : Int))
    (ho2 : virt_offset mm job_buf.uv_addr = (o2 : Int))
    (ho3 : virt_offset mm job_buf.v_addr = (o3 : Int))
    (hc1 : RGA_GET_PAGE_COUNT
      ((env.image_size_cal img.vir_w img.vir_h img.format).2.1 + (o1 : Int)) = (c1 : Int))
    (hc2 : RGA_GET_PAGE_COUNT
      ((env.image_size_cal img.vir_w img.vir_h img.format).2.2.1 + (o2 : Int)) = (c2 : Int))
    (hc3 : RGA_GET_PAGE_COUNT
      ((env.image_size_cal img.vir_w img.vir_h img.format).2.2.2 + (o3 : Int)) = (c3 : Int))
    (hb : (c1 + c2 + c3 + 1) * PAGE_SIZE ≤ 2 ^ 31)
    (hoff : o1 < PAGE_SIZE ∧ o2 < PAGE_SIZE ∧ o3 < PAGE_SIZE)
    (hsy : lookup_sgt_of mm job_buf.y_addr job.core = some sy)
    (hsuv : lookup_sgt_of mm job_buf.uv_addr job.core = some suv)
    (hsv : lookup_sgt_of mm job_buf.v_addr job.core = some sv) :
    rga_mm_set_mmu_base mm env true job img job_buf =
      (0,
        { img with yrgb_addr := o1, uv_addr := c1 * PAGE_SIZE + o2,
                   v_addr := (c1 + c2) * PAGE_SIZE + o3 },
        { job_buf with
          page_table := some
            (rga_mm_sgt_to_page_table sv
              (rga_mm_sgt_to_page_table suv
                (rga_mm_sgt_to_page_table sy (List.replicate (c1 + c2 + c3) 0) 0 (c1 : Int) 0).2
                c1 (c2 : Int) 0).2
              (c1 + c2) (c3 : Int) 0).2,
          page_count := ((c1 + c2 + c3 : Nat) : Int) }) := by
  have hP : PAGE_SIZE = 4096 := rfl
  rw [hP] at hb hoff
  have e1 : to_int32 (to_uint64 (c1 : Int)) = (c1 : Int) := by
    rw [to_uint64_natCast _ (by omega), to_int32_of_lt _ (by omega)]
  have e2 : to_int32 (to_uint64 (c2 : Int)) = (c2 : Int) := by
    rw [to_uint64_natCast _ (by omega), to_int32_of_lt _ (by omega)]
  have e3 : to_int32 (to_uint64 (c3 : Int)) = (c3 : Int) := by
    rw [to_uint64_natCast _ (by omega), to_int32_of_lt _ (by omega)]
  have e4 : to_int32 (to_uint64 ((c1 : Int) + (c2 : Int) + (c3 : Int)))
      = ((c1 + c2 + c3 : Nat) : Int) := by
    have : (c1 : Int) + (c2 : Int) + (c3 : Int) = ((c1 + c2 + c3 : Nat) : Int) := by
      push_cast; rfl
    rw [this, to_uint64_natCast _ (by omega), to_int32_of_lt _ (by omega)]
  have e5 : to_uint64 (o1 : Int) = o1 := to_uint64_natCast _ (by omega)
  have e6 : to_uint64 (to_int32 (to_uint64 ((c1 : Int) * (PAGE_SIZE : Int))) + (o2 : Int))
      = c1 * PAGE_SIZE + o2 := by
    have : (c1 : Int) * (PAGE_SIZE : Int) = ((c1 * PAGE_SIZE : Nat) : Int) := by push_cast; rfl
    rw [this, to_uint64_natCast _ (by rw [hP]; omega), to_int32_of_lt _ (by rw [hP]; omega)]
    have : ((c1 * PAGE_SIZE : Nat) : Int) + (o2 : Int) = ((c1 * PAGE_SIZE + o2 : Nat) : Int) := by
      push_cast; rfl
    rw [this, to_uint64_natCast _ (by rw [hP]; omega)]
  have e7 : to_uint64 (to_int32 (to_uint64 (((c1 : Int) + (c2 : Int)) * (PAGE_SIZE : Int)))
      + (o3 : Int)) = (c1 + c2) * PAGE_SIZE + o3 := by
    have : ((c1 : Int) + (c2 : Int)) * (PAGE_SIZE : Int)
        = (((c1 + c2) * PAGE_SIZE : Nat) : Int) := by push_cast; rfl
    rw [this, to_uint64_natCast _ (by rw [hP]; omega), to_int32_of_lt _ (by rw [hP]; omega)]
    have : (((c1 + c2) * PAGE_SIZE : Nat) : Int) + (o3 : Int)
        = (((c1 + c2) * PAGE_SIZE + o3 : Nat) : Int) := by push_cast; rfl
    rw [this, to_uint64_natCast _ (by rw [hP]; omega)]
  have e8 : ¬ (((c1 + c2 + c3 : Nat) : Int) < 0) := by omega
  have e9 : ((c1 : Int) + (c2 : Int)).toNat = c1 + c2 := by omega
  simp only [rga_mm_set_mmu_base, huv, ne_eq, not_false_eq_true, if_true, ho1, ho2, ho3, hc1,
    hc2, hc3, e1, e2, e3, e4, e5, e6, e7, e8, e9, if_false, hsy, hsuv, hsv, Int.toNat_ofNat]
  simp

/-! ## The MMU flags of a job -/

theorem mask_testBit (i : Nat) : (0xf <<< 8 : Nat).testBit i = decide (8 ≤ i ∧ i < 12) := by
  by_cases h : i < 12
  · interval_cases i <;> rfl
  · have h2 : (0xf <<< 8 : Nat) < 2 ^ i :=
      Nat.lt_of_lt_of_le (by decide : (0xf <<< 8 : Nat) < 2 ^ 12)
        (Nat.pow_le_pow_right (by decide) (by omega))
    rw [Nat.testBit_lt_two_pow h2]
    simp
    omega

theorem mask_ne_zero (x : Nat) :
    x &&& (0xf <<< 8) ≠ 0 ↔
      (x.testBit 8 || x.testBit 9 || x.testBit 10 || x.testBit 11) = true := by
  constructor
  · intro hne
    by_contra hall
    simp only [Bool.or_eq_true, not_or, Bool.not_eq_true] at hall
    apply hne
    apply Nat.eq_of_testBit_eq
    intro i
    rw [Nat.testBit_and, mask_testBit, Nat.zero_testBit]
    by_cases h : 8 ≤ i ∧ i < 12
    · obtain ⟨h8, h12⟩ := h
      interval_cases i <;> simp [hall]
    · simp [h]
  · intro hany h0
    have hb : ∀ i, (x &&& (0xf <<< 8)).testBit i = false := by
      intro i; rw [h0]; exact Nat.zero_testBit i
    have b8 := hb 8
    have b9 := hb 9
    have b10 := hb 10
    have b11 := hb 11
    rw [Nat.testBit_and, mask_testBit] at b8 b9 b10 b11
    simp at b8 b9 b10 b11
    simp [b8, b9, b10, b11] at hany

theorem flag_bits (f0 : Nat) (s s1 d e : Bool) (k : Nat) :
    ((if e then (if d then (if s1 then (if s then f0 ||| 1 <<< 8 else f0) ||| 1 <<< 9
          else (if s then f0 ||| 1 <<< 8 else f0)) ||| 1 <<< 10
        else (if s1 then (if s then f0 ||| 1 <<< 8 else f0) ||| 1 <<< 9
          else (if s then f0 ||| 1 <<< 8 else f0))) ||| 1 <<< 11
      else (if d then (if s1 then (if s then f0 ||| 1 <<< 8 else f0) ||| 1 <<< 9
          else (if s then f0 ||| 1 <<< 8 else f0)) ||| 1 <<< 10
        else (if s1 then (if s then f0 ||| 1 <<< 8 else f0) ||| 1 <<< 9
          else (if s then f0 ||| 1 <<< 8 else f0)))) : Nat).testBit k =
      (f0.testBit k || (s && decide (k = 8)) || (s1 && decide (k = 9)) ||
        (d && decide (k = 10)) || (e && decide (k = 11))) := by
  have h8 : Nat.testBit 256 k = decide (k = 8) := by
    rw [show (256 : Nat) = 2 ^ 8 from rfl, Nat.testBit_two_pow]; simp [eq_comm]
  have h9 : Nat.testBit 512 k = decide (k = 9) := by
    rw [show (512 : Nat) = 2 ^ 9 from rfl, Nat.testBit_two_pow]; simp [eq_comm]
  have h10 : Nat.testBit 1024 k = decide (k = 10) := by
    rw [show (1024 : Nat) = 2 ^ 10 from rfl, Nat.testBit_two_pow]; simp [eq_comm]
  have h11 : Nat.testBit 2048 k = decide (k = 11) := by
    rw [show (2048 : Nat) = 2 ^ 11 from rfl, Nat.testBit_two_pow]; simp [eq_comm]
  cases s <;> cases s1 <;> cases d <;> cases e <;>
    simp [h8, h9, h10, h11, Bool.or_assoc]

/-- The flag word rga_mm_set_mmu_flag computes before it looks at the enable
markers: the bits of the four channels or-ed into the word of the command. -/
theorem channel_bits (f0 : Nat) (s s1 d e : Bool) (k : Nat) :
    (Nat.testBit
      (if e = true then
        (if d = true then
          (if s1 = true then (if s = true then f0 ||| 1 <<< 8 else f0) ||| 1 <<< 9
           else if s = true then f0 ||| 1 <<< 8 else f0) ||| 1 <<< 10
         else if s1 = true then (if s = true then f0 ||| 1 <<< 8 else f0) ||| 1 <<< 9
           else if s = true then f0 ||| 1 <<< 8 else f0) ||| 1 <<< 11
       else if d = true then
          (if s1 = true then (if s = true then f0 ||| 1 <<< 8 else f0) ||| 1 <<< 9
           else if s = true then f0 ||| 1 <<< 8 else f0) ||| 1 <<< 10
         else if s1 = true then (if s = true then f0 ||| 1 <<< 8 else f0) ||| 1 <<< 9
           else if s = true then f0 ||| 1 <<< 8 else f0) k) =
      (f0.testBit k || (s && decide (k = 8)) || (s1 && decide (k = 9)) ||
        (d && decide (k = 10)) || (e && decide (k = 11))) :=
  flag_bits f0 s s1 d e k

theorem set_mmu_flag_spec (mm : rga_mm) (job : rga_job) :
    (rga_mm_set_mmu_flag mm job).2.core = job.core ∧
    (rga_mm_set_mmu_flag mm job).2.src_buffer = job.src_buffer ∧
    (rga_mm_set_mmu_flag mm job).2.src1_buffer = job.src1_buffer ∧
    (rga_mm_set_mmu_flag mm job).2.dst_buffer = job.dst_buffer ∧
    (rga_mm_set_mmu_flag mm job).2.els_buffer = job.els_buffer := by
  unfold rga_mm_set_mmu_flag
  simp only []
  split_ifs <;> exact ⟨rfl, rfl, rfl, rfl, rfl⟩

theorem set_mmu_flag_word (mm : rga_mm) (job : rga_job) :
    ∃ X : Nat,
      (∀ k, X.testBit k =
        (job.rga_command_base.mmu_info.mmu_flag.testBit k ||
          (needs_translation mm job job.src_buffer && decide (k = 8)) ||
          (needs_translation mm job job.src1_buffer && decide (k = 9)) ||
          (needs_translation mm job job.dst_buffer && decide (k = 10)) ||
          (needs_translation mm job job.els_buffer && decide (k = 11)))) ∧
      (rga_mm_set_mmu_flag mm job).2.rga_command_base.mmu_info =
        if X &&& (0xf <<< 8) ≠ 0 then { mmu_en := 1, mmu_flag := X ||| 1 ||| (1 <<< 31) }
        else { job.rga_command_base.mmu_info with mmu_flag := X } := by
  unfold rga_mm_set_mmu_flag needs_translation
  simp only []
  generalize rga_mm_is_need_mmu job.core (deref mm job.src_buffer.addr) = s
  generalize rga_mm_is_need_mmu job.core (deref mm job.src1_buffer.addr) = s1
  generalize rga_mm_is_need_mmu job.core (deref mm job.dst_buffer.addr) = d
  generalize rga_mm_is_need_mmu job.core (deref mm job.els_buffer.addr) = e
  refine ⟨_, channel_bits job.rga_command_base.mmu_info.mmu_flag s s1 d e, ?_⟩
  split_ifs <;> rfl

/-- A successful rga_mm_get_handle_info ends with rga_mm_set_mmu_flag on a job
that has the engine and the MMU word of the job handed in. -/
theorem get_handle_info_success (drv : rga_drvdata) (mm : rga_mm) (env : rga_job_env)
    (job : rga_job) (hmm : drv.mm = some mm)
    (hok : (rga_mm_get_handle_info drv env job).ret = 0) :
    ∃ mm2 J, (rga_mm_get_handle_info drv env job).drv.mm = some mm2 ∧
      (rga_mm_get_handle_info drv env job).job = (rga_mm_set_mmu_flag mm2 J).2 ∧
      J.rga_command_base.mmu_info = job.rga_command_base.mmu_info ∧ J.core = job.core := by
  unfold rga_mm_get_handle_info at hok ⊢
  rw [hmm] at hok ⊢
  simp only [] at hok ⊢
  generalize channel_step mm env env.get_free_pages_src job job.rga_command_base.src
    job.src_buffer dma_data_direction.DMA_TO_DEVICE = s at hok ⊢
  generalize channel_step s.mm env env.get_free_pages_dst job job.rga_command_base.dst
    job.dst_buffer dma_data_direction.DMA_TO_DEVICE = d at hok ⊢
  generalize channel_step d.mm env env.get_free_pages_pat job job.rga_command_base.pat
    job.src1_buffer (if job.rga_command_base.bsfilter_flag ≠ 0
      then dma_data_direction.DMA_BIDIRECTIONAL else dma_data_direction.DMA_TO_DEVICE) = p1
    at hok ⊢
  generalize channel_step d.mm env env.get_free_pages_pat job job.rga_command_base.pat
    job.els_buffer dma_data_direction.DMA_BIDIRECTIONAL = pe at hok ⊢
  split_ifs at hok ⊢ <;> first
    | (exfalso; simp only [] at hok; omega)
    | exact ⟨_, _, rfl, rfl, rfl, rfl⟩

/-- C13: for a channel with three plane buffers of page counts c1, c2, c3,
rga_mm_set_mmu_base succeeds with one table of c1+c2+c3 entries in which the
frames of plane 1 start at index 0, those of plane 2 at index c1 and those of
plane 3 at index c1+c2, and it sets yrgb_addr to the first offset, uv_addr to
(c1 << PAGE_SHIFT) plus the second and v_addr to ((c1+c2) << PAGE_SHIFT) plus
the third. -/
theorem C13_three_plane_table (mm : rga_mm) (env : rga_job_env) (job : rga_job)
    (img : rga_img_info_t) (job_buf : rga_job_buffer) (c1 c2 c3 o1 o2 o3 : Nat)
    (sy suv sv : sg_table)
    (h : three_planes_ready mm env job img job_buf c1 c2 c3 o1 o2 o3 sy suv sv) :
    (rga_mm_set_mmu_base mm env true job img job_buf).1 = 0 ∧
    (rga_mm_set_mmu_base mm env true job img job_buf).2.1.yrgb_addr = o1 ∧
    (rga_mm_set_mmu_base mm env true job img job_buf).2.1.uv_addr
      = (c1 <<< PAGE_SHIFT) + o2 ∧
    (rga_mm_set_mmu_base mm env true job img job_buf).2.1.v_addr
      = ((c1 + c2) <<< PAGE_SHIFT) + o3 ∧
    (rga_mm_set_mmu_base mm env true job img job_buf).2.2.page_count
      = ((c1 + c2 + c3 : Nat) : Int) ∧
    ∃ table, (rga_mm_set_mmu_base mm env true job img job_buf).2.2.page_table = some table ∧
      table.length = c1 + c2 + c3 ∧
      (∀ j, j < c1 → j < (table_frames 0 sy).length → table[j]? = (table_frames 0 sy)[j]?) ∧
      (∀ j, j < c2 → j < (table_frames 0 suv).length →
        table[c1 + j]? = (table_frames 0 suv)[j]?) ∧
      (∀ j, j < c3 → j < (table_frames 0 sv).length →
        table[c1 + c2 + j]? = (table_frames 0 sv)[j]?) := by
  obtain ⟨huv, ho1, ho2, ho3, hc1, hc2, hc3, hb, hoff, hsy, hsuv, hsv, w1, w2, w3⟩ := h
  have hP : PAGE_SIZE = 4096 := rfl
  rw [set_mmu_base_three_planes mm env job img job_buf c1 c2 c3 o1 o2 o3 sy suv sv huv ho1 ho2
    ho3 hc1 hc2 hc3 hb hoff hsy hsuv hsv]
  rw [hP] at hb
  obtain ⟨_, l1, p1⟩ := sgt_to_page_table_spec sy (List.replicate (c1 + c2 + c3) 0) 0 (c1 : Int)
    0 w1 (by omega) (by omega)
  obtain ⟨_, l2, p2⟩ := sgt_to_page_table_spec suv
    (rga_mm_sgt_to_page_table sy (List.replicate (c1 + c2 + c3) 0) 0 (c1 : Int) 0).2
    c1 (c2 : Int) 0 w2 (by omega) (by omega)
  obtain ⟨_, l3, p3⟩ := sgt_to_page_table_spec sv
    (rga_mm_sgt_to_page_table suv
      (rga_mm_sgt_to_page_table sy (List.replicate (c1 + c2 + c3) 0) 0 (c1 : Int) 0).2
      c1 (c2 : Int) 0).2
    (c1 + c2) (c3 : Int) 0 w3 (by omega) (by omega)
  rw [List.length_replicate] at l1
  rw [l1] at l2 p2
  rw [l2] at l3 p3
  simp only [Int.toNat_ofNat, List.length_replicate] at p1 p2 p3
  refine ⟨rfl, rfl, ?_, ?_, rfl, _, rfl, l3, ?_, ?_, ?_⟩
  · simp only [Nat.shiftLeft_eq, PAGE_SIZE]
  · simp only [Nat.shiftLeft_eq, PAGE_SIZE]
  · intro j hj hF
    rw [p3, if_neg (by omega), p2, if_neg (by omega), p1, if_pos ⟨by omega, by omega, by omega,
      by omega⟩]
    rfl
  · intro j hj hF
    rw [p3, if_neg (by omega), p2, if_pos ⟨by omega, by omega, by omega, by omega⟩]
    congr 1
    omega
  · intro j hj hF
    rw [p3, if_pos ⟨by omega, by omega, by omega, by omega⟩]
    congr 1
    omega

theorem C13_three_plane_table_witness :
    three_planes_ready sample_planes_mm sample_planes_env
      (rga_job.kzalloc (sample_req 1 0) RGA2_SCHEDULER_CORE0 (some 2)) (sample_img 0)
      sample_planes_buf 4 2 1 0 0 0
      { sgl := [sample_segment 0x10000 8192, sample_segment 0x30000 8192], nents := 2 }
      { sgl := [sample_segment 0x50000 4096, sample_segment 0x70000 4096], nents := 2 }
      { sgl := [sample_segment 0x90000 4096, sample_segment 0xb0000 4096], nents := 2 } ∧
    (rga_mm_set_mmu_base sample_planes_mm sample_planes_env true
      (rga_job.kzalloc (sample_req 1 0) RGA2_SCHEDULER_CORE0 (some 2)) (sample_img 0)
      sample_planes_buf).2.2.page_table
      = some [0x10000, 0x11000, 0x30000, 0x31000, 0x50000, 0x70000, 0x90000] ∧
    (rga_mm_set_mmu_base sample_planes_mm sample_planes_env true
      (rga_job.kzalloc (sample_req 1 0) RGA2_SCHEDULER_CORE0 (some 2)) (sample_img 0)
      sample_planes_buf).2.1.uv_addr = (4 <<< PAGE_SHIFT) + 0 :=
  have h : three_planes_ready sample_planes_mm sample_planes_env
      (rga_job.kzalloc (sample_req 1 0) RGA2_SCHEDULER_CORE0 (some 2)) (sample_img 0)
      sample_planes_buf 4 2 1 0 0 0
      { sgl := [sample_segment 0x10000 8192, sample_segment 0x30000 8192], nents := 2 }
      { sgl := [sample_segment 0x50000 4096, sample_segment 0x70000 4096], nents := 2 }
      { sgl := [sample_segment 0x90000 4096, sample_segment 0xb0000 4096], nents := 2 } := by
    refine ⟨by decide, by decide, by decide, by decide, by decide, by decide, by decide,
      by decide, by decide, by decide, by decide, by decide, ?_, ?_, ?_⟩ <;>
    · refine ⟨by decide, ?_⟩
      intro s hs
      simp only [List.mem_cons, List.mem_singleton, List.not_mem_nil, or_false] at hs
      rcases hs with rfl | rfl <;> decide
  ⟨h, by decide, (C13_three_plane_table _ _ _ _ _ 4 2 1 0 0 0 _ _ _ h).2.2.1⟩

set_option maxRecDepth 8000 in
/-- C16 fails on the code: a job on the RGA2 core whose source is a
virtual-address buffer needs a page table; when the allocation of the table
fails, rga_mm_set_mmu_base returns -ENOMEM, and rga_mm_get_handle_info still
returns 0, with the MMU enabled for the source and no page table built. -/
theorem C16_table_failure_is_dropped :
    (rga_mm_set_mmu_base
      ((rga_run (rga_boot sample_scheduler) [sample_import_virtual 0x7f0000 7]).drv.mm.getD
        rga_mm_init)
      { sample_job_env with get_free_pages_src := false } false
      (rga_job.kzalloc (sample_req 1 0) RGA2_SCHEDULER_CORE0 (some 2))
      (sample_img 0x7f0000) { rga_job_buffer.kzalloc with y_addr := some 1 }).1 = -ENOMEM ∧
    (rga_mm_get_handle_info
      (rga_run (rga_boot sample_scheduler) [sample_import_virtual 0x7f0000 7]).drv
      { sample_job_env with get_free_pages_src := false }
      (rga_job.kzalloc (sample_req 1 0) RGA2_SCHEDULER_CORE0 (some 2))).ret = 0 ∧
    (rga_mm_get_handle_info
      (rga_run (rga_boot sample_scheduler) [sample_import_virtual 0x7f0000 7]).drv
      { sample_job_env with get_free_pages_src := false }
      (rga_job.kzalloc (sample_req 1 0) RGA2_SCHEDULER_CORE0 (some 2))).job.src_buffer.page_table
      = none ∧
    (rga_mm_get_handle_info
      (rga_run (rga_boot sample_scheduler) [sample_import_virtual 0x7f0000 7]).drv
      { sample_job_env with get_free_pages_src := false }
      (rga_job.kzalloc (sample_req 1 0) RGA2_SCHEDULER_CORE0 (some 2))
      ).job.rga_command_base.mmu_info.mmu_en = 1 := by
  refine ⟨?_, ?_, ?_, ?_⟩ <;> decide

/-- C17 (as amended): for a scatter table with at least one segment whose
fields fit their C types and a page count from 0 to 2^31 - 1,
rga_mm_sgt_to_page_table returns 0 and writes exactly min(pageCount, P)
entries, P being the number of frames of the segments the walk reaches (the
first segment and the following ones up to `nents` segments in all): entry
`base + j` receives frame `j`, the frames being taken in segment order, one
for each page of a segment's run, as the low 32 bits of the segment address
plus j pages; every other entry, in particular every one from `pageCount` on,
is left as it was. -/
theorem C17_page_table_walk (sg : sg_table) (table : List Nat) (base : Nat) (pageCount : Int)
    (use_dma_address : Int) (hne : sg.sgl ≠ []) (hwf : sg.well_formed) (h0 : 0 ≤ pageCount)
    (h1 : pageCount < 2 ^ 31) :
    (rga_mm_sgt_to_page_table sg table base pageCount use_dma_address).1 = 0 ∧
    (rga_mm_sgt_to_page_table sg table base pageCount use_dma_address).2.length
      = table.length ∧
    (∀ j, j < min pageCount.toNat (table_frames use_dma_address sg).length →
      base + j < table.length →
      (rga_mm_sgt_to_page_table sg table base pageCount use_dma_address).2[base + j]?
        = (table_frames use_dma_address sg)[j]?) ∧
    (∀ k, (k < base ∨ base + min pageCount.toNat (table_frames use_dma_address sg).length ≤ k) →
      (rga_mm_sgt_to_page_table sg table base pageCount use_dma_address).2[k]? = table[k]?) := by
  obtain ⟨r, l, p⟩ := sgt_to_page_table_spec sg table base pageCount use_dma_address hwf h0 h1
  refine ⟨r, l, ?_, ?_⟩
  · intro j hj hb
    rw [p, if_pos ⟨by omega, by omega, by omega, by omega⟩]
    congr 1
    omega
  · intro k hk
    rw [p, if_neg (by omega)]

theorem C17_page_table_walk_witness :
    sample_two_segment_table.sgl ≠ [] ∧ sample_two_segment_table.well_formed ∧
    (rga_mm_sgt_to_page_table sample_two_segment_table [0, 0, 0, 0] 0 3 0).2
      = [0x10000, 0x11000, 0x30000, 0] ∧
    (rga_mm_sgt_to_page_table sample_two_segment_table [0, 0, 0, 0] 0 3 0).1 = 0 :=
  have hwf : sample_two_segment_table.well_formed := by
    refine ⟨by decide, ?_⟩
    intro s hs
    simp only [sample_two_segment_table, List.mem_cons, List.mem_singleton, List.not_mem_nil,
      or_false] at hs
    rcases hs with rfl | rfl <;> decide
  ⟨by decide, hwf, by decide,
    (C17_page_table_walk _ [0, 0, 0, 0] 0 3 0 (by decide) hwf (by decide) (by decide)).1⟩

/-- C17 fails as stated: the table has two segments of one page each, which
the device mapping merged into one device segment of two pages (`nents` is 1);
asked for three pages, the walk writes two entries, both from the first
segment, and does not reach the second segment. -/
theorem C17_walk_stops_at_nents :
    sample_merged_table.sgl.map (fun s => s.length / PAGE_SIZE) = [1, 1] ∧
    (rga_mm_sgt_to_page_table sample_merged_table [0, 0, 0] 0 3 0).2
      = [0x10000, 0x11000, 0] ∧
    (rga_mm_sgt_to_page_table
      { sgl := [sample_segment 0x10000 4096, sample_segment 0x30000 4096], nents := 1 }
      [0, 0] 0 2 0).2 = [0x10000, 0] := by
  refine ⟨?_, ?_, ?_⟩ <;> decide

/-- C18 (as amended): in rga_mm_sgt_to_page_table the run length of a segment
is its device-mapped length in whole pages whenever that is at least one page,
whatever `use_dma_address` is, and its physical length in whole pages
otherwise; `use_dma_address` selects the address only.  For a table of one
segment the walk writes that many frames, or `pageCount` of them when that is
less. -/
theorem C18_run_length_from_device_length (s : scatterlist) (nents : Nat) (table : List Nat)
    (pageCount : Int) (use_dma_address : Int) (hs : s.length < 2 ^ 32 ∧ s.dma_len < 2 ^ 32)
    (h0 : 0 ≤ pageCount) (h1 : pageCount < 2 ^ 31) (hfit : pageCount.toNat ≤ table.length) :
    (rga_mm_sgt_to_page_table { sgl := [s], nents := nents } table 0 pageCount
      use_dma_address).2 =
      (List.range (min pageCount.toNat
        (if s.dma_len / PAGE_SIZE = 0 then s.length / PAGE_SIZE else s.dma_len / PAGE_SIZE))).map
        (fun j => ((if use_dma_address ≠ 0 then s.dma_address else s.phys) + j * PAGE_SIZE)
          % 2 ^ 32) ++
      table.drop (min pageCount.toNat
        (if s.dma_len / PAGE_SIZE = 0 then s.length / PAGE_SIZE else s.dma_len / PAGE_SIZE)) := by
  have hwf : ({ sgl := [s], nents := nents } : sg_table).well_formed := by
    refine ⟨by simp, ?_⟩
    intro x hx
    simp only [List.mem_singleton] at hx
    rw [hx]; exact hs
  obtain ⟨_, l, p⟩ := sgt_to_page_table_spec { sgl := [s], nents := nents } table 0 pageCount
    use_dma_address hwf h0 h1
  have hF : table_frames use_dma_address { sgl := [s], nents := nents }
      = segment_frames use_dma_address s := by
    obtain ⟨m, hm⟩ : ∃ m, max 1 nents = m + 1 := ⟨max 1 nents - 1, by omega⟩
    simp only [table_frames]
    rw [hm]
    simp
  rw [hF, segment_frames_length] at p
  have hL : (if s.dma_len / PAGE_SIZE = 0 then s.length / PAGE_SIZE else s.dma_len / PAGE_SIZE)
      = segment_run_length s := rfl
  have hA : (if use_dma_address ≠ 0 then s.dma_address else s.phys)
      = segment_address use_dma_address s := rfl
  rw [hL, hA]
  apply List.ext_getElem?
  intro k
  rw [p]
  by_cases hk : k < min pageCount.toNat (segment_run_length s)
  · rw [if_pos ⟨by omega, by omega, by omega, by omega⟩,
      List.getElem?_append_left (by simp; omega), Nat.sub_zero,
      segment_frames_getElem _ _ _ (by omega)]
    simp [List.getElem?_range hk]
  · rw [if_neg (by omega), List.getElem?_append_right (by simp; omega)]
    simp only [List.length_map, List.length_range, List.getElem?_drop]
    congr 1
    omega

theorem C18_run_length_from_device_length_witness :
    ((4096 : Nat) < 2 ^ 32 ∧ (8192 : Nat) < 2 ^ 32) ∧ (0 : Int) ≤ 2 ∧ (2 : Int) < 2 ^ 31 ∧
    (2 : Int).toNat ≤ [0, 0].length ∧
    (rga_mm_sgt_to_page_table
      { sgl := [{ phys := 0x10000, length := 4096, dma_address := 0x80000, dma_len := 8192 }],
        nents := 1 } [0, 0] 0 2 1).2 = [0x80000, 0x81000] :=
  ⟨by decide, by decide, by decide, by decide,
    (C18_run_length_from_device_length
      { phys := 0x10000, length := 4096, dma_address := 0x80000, dma_len := 8192 } 1 [0, 0] 2 1
      (by decide) (by decide) (by decide) (by decide)).trans (by decide)⟩

/-- C18 fails as stated: with `use_dma_address` false, a segment of one
physical page whose device-mapped length is two pages gets a run of two
entries, counted from its physical address. -/
theorem C18_device_length_without_flag :
    (rga_mm_sgt_to_page_table
      { sgl := [{ phys := 0x10000, length := 4096, dma_address := 0x80000, dma_len := 8192 }],
        nents := 1 } [0, 0] 0 2 0).2 = [0x10000, 0x11000] := by
  decide

/-- C19 fails on the code: a single segment that starts at 0xfffff000 and is
one page long ends exactly at the 4 GiB boundary, so it lies entirely below it
(start + length = 2^32), and rga_mm_check_range_sgt returns 0 for it; one page
lower it returns 1. -/
theorem C19_segment_ending_at_4g :
    (0xfffff000 : Nat) + 0x1000 = 2 ^ 32 ∧
    rga_mm_check_range_sgt { sgl := [sample_segment 0xfffff000 0x1000], nents := 1 } = 0 ∧
    rga_mm_check_range_sgt { sgl := [sample_segment 0xffffe000 0x1000], nents := 1 } = 1 := by
  refine ⟨?_, ?_, ?_⟩ <;> decide

/-- C14 (as amended): after rga_mm_get_handle_info succeeds, each of bits 8,
9, 10 and 11 of mmu_info.mmu_flag is set if and only if the source, the
second-source/pattern, the destination or the lookup-table channel needs
translation on the job's engine, or the bit was already set in the command;
bit 0 and bit 31 are set if and only if one of bits 8 to 11 is then set, or
the marker was already set; and mmu_en is 1 when one of bits 8 to 11 is set
and keeps its value otherwise. -/
theorem C14_mmu_flag_accumulates (drv : rga_drvdata) (mm : rga_mm) (env : rga_job_env)
    (job : rga_job) (hmm : drv.mm = some mm)
    (hok : (rga_mm_get_handle_info drv env job).ret = 0) :
    ∃ mm2, (rga_mm_get_handle_info drv env job).drv.mm = some mm2 ∧
      mmu_flag_accumulated job.rga_command_base.mmu_info
        (rga_mm_get_handle_info drv env job).job.rga_command_base.mmu_info
        (needs_translation mm2 (rga_mm_get_handle_info drv env job).job
          (rga_mm_get_handle_info drv env job).job.src_buffer)
        (needs_translation mm2 (rga_mm_get_handle_info drv env job).job
          (rga_mm_get_handle_info drv env job).job.src1_buffer)
        (needs_translation mm2 (rga_mm_get_handle_info drv env job).job
          (rga_mm_get_handle_info drv env job).job.dst_buffer)
        (needs_translation mm2 (rga_mm_get_handle_info drv env job).job
          (rga_mm_get_handle_info drv env job).job.els_buffer) := by
  obtain ⟨mm2, J, h1, h2, h3, h4⟩ := get_handle_info_success drv mm env job hmm hok
  obtain ⟨X, hX, hinfo⟩ := set_mmu_flag_word mm2 J
  obtain ⟨k1, k2, k3, k4, k5⟩ := set_mmu_flag_spec mm2 J
  refine ⟨mm2, h1, ?_⟩
  unfold mmu_flag_accumulated rga_mmu_t.channel_bit_set
  rw [h2]
  have n1 : needs_translation mm2 (rga_mm_set_mmu_flag mm2 J).2
      (rga_mm_set_mmu_flag mm2 J).2.src_buffer = needs_translation mm2 J J.src_buffer := by
    unfold needs_translation; rw [k1, k2]
  have n2 : needs_translation mm2 (rga_mm_set_mmu_flag mm2 J).2
      (rga_mm_set_mmu_flag mm2 J).2.src1_buffer = needs_translation mm2 J J.src1_buffer := by
    unfold needs_translation; rw [k1, k3]
  have n3 : needs_translation mm2 (rga_mm_set_mmu_flag mm2 J).2
      (rga_mm_set_mmu_flag mm2 J).2.dst_buffer = needs_translation mm2 J J.dst_buffer := by
    unfold needs_translation; rw [k1, k4]
  have n4 : needs_translation mm2 (rga_mm_set_mmu_flag mm2 J).2
      (rga_mm_set_mmu_flag mm2 J).2.els_buffer = needs_translation mm2 J J.els_buffer := by
    unfold needs_translation; rw [k1, k5]
  rw [n1, n2, n3, n4, hinfo, ← h3]
  have x0 := hX 0
  have x8 := hX 8
  have x9 := hX 9
  have x10 := hX 10
  have x11 := hX 11
  have x31 := hX 31
  simp only [Nat.reduceEqDiff, decide_False, decide_True, Bool.and_false, Bool.and_true,
    Bool.or_false, OfNat.ofNat_ne_zero, OfNat.zero_ne_ofNat] at x0 x8 x9 x10 x11 x31
  have c8 : (1 : Nat).testBit 8 = false ∧ (1 <<< 31 : Nat).testBit 8 = false := by decide
  have c9 : (1 : Nat).testBit 9 = false ∧ (1 <<< 31 : Nat).testBit 9 = false := by decide
  have c10 : (1 : Nat).testBit 10 = false ∧ (1 <<< 31 : Nat).testBit 10 = false := by decide
  have c11 : (1 : Nat).testBit 11 = false ∧ (1 <<< 31 : Nat).testBit 11 = false := by decide
  have c0 : (1 : Nat).testBit 0 = true := by decide
  have c31 : (1 <<< 31 : Nat).testBit 31 = true := by decide
  by_cases hm : X &&& (0xf <<< 8) ≠ 0
  · have hany := (mask_ne_zero X).1 hm
    rw [if_pos hm]
    simp only [Nat.testBit_or, c8.1, c8.2, c9.1, c9.2, c10.1, c10.2, c11.1, c11.2, c0, c31,
      Bool.or_false, Bool.or_true, hany, if_true]
    rw [x8, x9, x10, x11]
    simp
  · have hany : ¬ ((X.testBit 8 || X.testBit 9 || X.testBit 10 || X.testBit 11) = true) :=
      fun h => hm ((mask_ne_zero X).2 h)
    rw [if_neg hm]
    simp only [Bool.or_eq_true, not_or, Bool.not_eq_true] at hany
    obtain ⟨⟨⟨b8, b9⟩, b10⟩, b11⟩ := hany
    simp only [b8, b9, b10, b11, Bool.or_false, Bool.false_eq_true, if_false]
    rw [x8] at b8
    rw [x9] at b9
    rw [x10] at b10
    rw [x11] at b11
    simp only [Bool.or_eq_false_iff] at b8 b9 b10 b11
    rw [x0, x31, b8.1, b8.2, b9.1, b9.2, b10.1, b10.2, b11.1, b11.2]
    simp

set_option maxRecDepth 8000 in
theorem C14_mmu_flag_accumulates_witness :
    sample_virtual_drv.mm = some (sample_virtual_drv.mm.getD rga_mm_init) ∧
    (rga_mm_get_handle_info sample_virtual_drv sample_job_env
      (sample_rga2_job (sample_req 1 0))).ret = 0 ∧
    ∃ mm2, (rga_mm_get_handle_info sample_virtual_drv sample_job_env
        (sample_rga2_job (sample_req 1 0))).drv.mm = some mm2 ∧
      mmu_flag_accumulated (sample_rga2_job (sample_req 1 0)).rga_command_base.mmu_info
        (rga_mm_get_handle_info sample_virtual_drv sample_job_env
          (sample_rga2_job (sample_req 1 0))).job.rga_command_base.mmu_info
        (needs_translation mm2
          (rga_mm_get_handle_info sample_virtual_drv sample_job_env
            (sample_rga2_job (sample_req 1 0))).job
          (rga_mm_get_handle_info sample_virtual_drv sample_job_env
            (sample_rga2_job (sample_req 1 0))).job.src_buffer)
        (needs_translation mm2
          (rga_mm_get_handle_info sample_virtual_drv sample_job_env
            (sample_rga2_job (sample_req 1 0))).job
          (rga_mm_get_handle_info sample_virtual_drv sample_job_env
            (sample_rga2_job (sample_req 1 0))).job.src1_buffer)
        (needs_translation mm2
          (rga_mm_get_handle_info sample_virtual_drv sample_job_env
            (sample_rga2_job (sample_req 1 0))).job
          (rga_mm_get_handle_info sample_virtual_drv sample_job_env
            (sample_rga2_job (sample_req 1 0))).job.dst_buffer)
        (needs_translation mm2
          (rga_mm_get_handle_info sample_virtual_drv sample_job_env
            (sample_rga2_job (sample_req 1 0))).job
          (rga_mm_get_handle_info sample_virtual_drv sample_job_env
            (sample_rga2_job (sample_req 1 0))).job.els_buffer) :=
  ⟨rfl, by decide,
    C14_mmu_flag_accumulates sample_virtual_drv (sample_virtual_drv.mm.getD rga_mm_init)
      sample_job_env (sample_rga2_job (sample_req 1 0)) rfl (by decide)⟩

set_option maxRecDepth 8000 in
/-- C14 fails as stated: the command arrives with bit 8 of mmu_flag set and
its only buffer is a physical-address buffer, so no channel needs translation;
after the successful get, bit 8, bit 0 and bit 31 are set and mmu_en is 1. -/
theorem C14_bit_set_by_the_command :
    (rga_mm_get_handle_info sample_physical_drv sample_job_env
      (sample_rga2_job sample_req_bit8)).ret = 0 ∧
    [needs_translation
        ((rga_mm_get_handle_info sample_physical_drv sample_job_env
          (sample_rga2_job sample_req_bit8)).drv.mm.getD rga_mm_init)
        (rga_mm_get_handle_info sample_physical_drv sample_job_env
          (sample_rga2_job sample_req_bit8)).job
        (rga_mm_get_handle_info sample_physical_drv sample_job_env
          (sample_rga2_job sample_req_bit8)).job.src_buffer,
      needs_translation
        ((rga_mm_get_handle_info sample_physical_drv sample_job_env
          (sample_rga2_job sample_req_bit8)).drv.mm.getD rga_mm_init)
        (rga_mm_get_handle_info sample_physical_drv sample_job_env
          (sample_rga2_job sample_req_bit8)).job
        (rga_mm_get_handle_info sample_physical_drv sample_job_env
          (sample_rga2_job sample_req_bit8)).job.src1_buffer,
      needs_translation
        ((rga_mm_get_handle_info sample_physical_drv sample_job_env
          (sample_rga2_job sample_req_bit8)).drv.mm.getD rga_mm_init)
        (rga_mm_get_handle_info sample_physical_drv sample_job_env
          (sample_rga2_job sample_req_bit8)).job
        (rga_mm_get_handle_info sample_physical_drv sample_job_env
          (sample_rga2_job sample_req_bit8)).job.dst_buffer,
      needs_translation
        ((rga_mm_get_handle_info sample_physical_drv sample_job_env
          (sample_rga2_job sample_req_bit8)).drv.mm.getD rga_mm_init)
        (rga_mm_get_handle_info sample_physical_drv sample_job_env
          (sample_rga2_job sample_req_bit8)).job
        (rga_mm_get_handle_info sample_physical_drv sample_job_env
          (sample_rga2_job sample_req_bit8)).job.els_buffer]
      = [false, false, false, false] ∧
    (rga_mm_get_handle_info sample_physical_drv sample_job_env
      (sample_rga2_job sample_req_bit8)).job.rga_command_base.mmu_info
      = { mmu_en := 1, mmu_flag := 0x80000101 } := by
  refine ⟨?_, ?_, ?_⟩ <;> decide

/-! ## Resolution of a virtual address -/

theorem from_vma_loop_spec (env : rga_import_env) (Memory : Nat) (w : Nat → Nat) :
    ∀ (n i : Nat) (pages : List Nat),
      (∀ j, i ≤ j → j < i + n →
        env.vma_page (((Memory + j) <<< PAGE_SHIFT) % 2 ^ 64) = some (w j)) →
      (rga_get_user_pages_from_vma_loop env Memory n i pages).1 = 0 ∧
      (rga_get_user_pages_from_vma_loop env Memory n i pages).2.length = pages.length ∧
      ∀ k, (rga_get_user_pages_from_vma_loop env Memory n i pages).2[k]? =
        if i ≤ k ∧ k < i + n ∧ k < pages.length then some (w k) else pages[k]? := by
  intro n
  induction n with
  | zero =>
    intro i pages _
    refine ⟨rfl, rfl, fun k => ?_⟩
    rw [if_neg (by omega)]
    rfl
  | succ n ih =>
    intro i pages hw
    have h0 := hw i (Nat.le_refl _) (by omega)
    obtain ⟨a, b, c⟩ := ih (i + 1) (pages.set i (w i)) (fun j h1 h2 => hw j (by omega) (by omega))
    simp only [rga_get_user_pages_from_vma_loop, h0]
    refine ⟨a, by rw [b, List.length_set], fun k => ?_⟩
    rw [c, List.length_set, List.getElem?_set]
    by_cases hk : i = k
    · subst hk
      rw [if_neg (by omega), if_pos rfl]
      by_cases hl : i < pages.length
      · rw [if_pos hl, if_pos ⟨by omega, by omega, hl⟩]
      · rw [if_neg hl, if_neg (by omega), List.getElem?_eq_none (by omega)]
    · rw [if_neg hk]
      by_cases hc : i + 1 ≤ k ∧ k < i + 1 + n ∧ k < pages.length
      · rw [if_pos hc, if_pos ⟨by omega, by omega, by omega⟩]
      · rw [if_neg hc, if_neg (by omega)]

theorem store_pages_length (pages pinned : List Nat) :
    (store_pages pages pinned).length = pages.length := by
  unfold store_pages
  rw [List.length_append, List.length_take, List.length_drop]
  omega

/-- The bulk pin resolved every page: the record counts all of them as pinned. -/
theorem alloc_virt_addr_all_pinned (env : rga_import_env) (viraddr : Nat)
    (parm : rga_memory_parm) (N : Nat) (h : alloc_ready env viraddr parm N)
    (hpin : env.get_user_pages = (N : Int)) :
    rga_alloc_virt_addr env viraddr parm =
      (0, some { addr := viraddr, pages := store_pages (List.replicate N 0) env.pinned_pages,
                 page_count := N, size := N * PAGE_SIZE, offset := viraddr % PAGE_SIZE,
                 result := (N : Int) }) ∧
    rga_get_user_pages_put_page env N = [] := by
  obtain ⟨hN, hpos, hg, hk⟩ := h
  have hP : PAGE_SIZE = 4096 := rfl
  have hsz : ¬ (N * PAGE_SIZE = 0) := by rw [hP]; omega
  have hc : env.get_user_pages > 0 ∧ env.get_user_pages ≥ (N : Int) := by omega
  have hnn : ¬ ((N : Int) < 0) := by omega
  have hpp : (N : Int) > 0 := by omega
  constructor
  · unfold rga_alloc_virt_addr rga_get_user_pages
    simp only [hN, hsz, hg, hk, hc, hpin, hnn, hpp, if_false, if_true, and_self,
      Bool.true_eq_false, ge_iff_le, le_refl, gt_iff_lt]
  · unfold rga_get_user_pages_put_page
    rw [if_pos hc]

/-- The bulk pin came up short: its pages are put at once, every page is
resolved by the walk, and the record counts no page as pinned. -/
theorem alloc_virt_addr_fallback (env : rga_import_env) (viraddr : Nat)
    (parm : rga_memory_parm) (N : Nat) (w : Nat → Nat) (h : alloc_ready env viraddr parm N)
    (hk0 : 0 < env.get_user_pages) (hkN : env.get_user_pages < (N : Int))
    (hw : ∀ j, j < N →
      env.vma_page ((((viraddr >>> PAGE_SHIFT) + j) <<< PAGE_SHIFT) % 2 ^ 64) = some (w j)) :
    rga_alloc_virt_addr env viraddr parm =
      (0, some { addr := viraddr, pages := (List.range N).map w,
                 page_count := N, size := N * PAGE_SIZE, offset := viraddr % PAGE_SIZE,
                 result := 0 }) ∧
    rga_get_user_pages_put_page env N = env.pinned_pages.take env.get_user_pages.toNat := by
  obtain ⟨hN, hpos, hg, hk⟩ := h
  have hP : PAGE_SIZE = 4096 := rfl
  have hsz : ¬ (N * PAGE_SIZE = 0) := by rw [hP]; omega
  have hc : ¬ (env.get_user_pages > 0 ∧ env.get_user_pages ≥ (N : Int)) := by omega
  obtain ⟨a, b, c⟩ := from_vma_loop_spec env (viraddr >>> PAGE_SHIFT) w N 0
    (store_pages (List.replicate N 0) env.pinned_pages) (fun j _ h2 => hw j (by omega))
  rw [store_pages_length, List.length_replicate] at b c
  have hpages : (rga_get_user_pages_from_vma_loop env (viraddr >>> PAGE_SHIFT) N 0
      (store_pages (List.replicate N 0) env.pinned_pages)).2 = (List.range N).map w := by
    apply List.ext_getElem?
    intro k
    rw [c]
    by_cases hk2 : k < N
    · rw [if_pos ⟨by omega, by omega, hk2⟩]
      simp [List.getElem?_range hk2]
    · rw [if_neg (by omega), List.getElem?_eq_none (by rw [store_pages_length]; simp; omega),
        List.getElem?_eq_none (by simp; omega)]
  constructor
  · unfold rga_alloc_virt_addr rga_get_user_pages rga_get_user_pages_from_vma
    simp only [hN, hsz, hg, hk, hc, if_false, a, hpages, lt_self_iff_false, gt_iff_lt,
      Bool.true_eq_false]
  · unfold rga_get_user_pages_put_page
    rw [if_neg hc, if_pos hk0]

/-! ## Which slots the mapping loops touch -/

theorem set_slot_slot_ne (ib : rga_internal_buffer) (i k : Nat) (x : rga_dma_buffer)
    (h : k ≠ i) : (ib.set_slot i x).slot k = ib.slot k := by
  unfold rga_internal_buffer.set_slot rga_internal_buffer.slot rga_internal_buffer.slots
  cases ib.dma_buffer with
  | none => rfl
  | some a =>
    simp only [Option.map_some', Option.getD_some, List.getD_eq_getElem?_getD]
    rw [List.getElem?_set_ne (fun e => h e.symm)]

theorem set_slot_mapped (ib : rga_internal_buffer) (i : Nat) (x : rga_dma_buffer)
    (h : x.mapped = (ib.slot i).mapped) (k : Nat) :
    ((ib.set_slot i x).slot k).mapped = (ib.slot k).mapped := by
  by_cases hk : k = i
  · subst hk
    unfold rga_internal_buffer.slot rga_internal_buffer.slots at h
    unfold rga_internal_buffer.set_slot rga_internal_buffer.slot rga_internal_buffer.slots
    cases hb : ib.dma_buffer with
    | none => rfl
    | some a =>
      rw [hb] at h
      simp only [Option.map_some', Option.getD_some, List.getD_eq_getElem?_getD] at h ⊢
      rw [List.getElem?_set]
      simp only [if_true]
      by_cases hl : k < a.length
      · rw [if_pos hl]; exact h
      · rw [if_neg hl, List.getElem?_eq_none (by omega)]
  · rw [set_slot_slot_ne ib i k x hk]

theorem kzalloc_slot (ib : rga_internal_buffer) (n : Nat)
    (h : ib.dma_buffer = some (List.replicate n rga_dma_buffer.kzalloc)) (k : Nat) :
    ib.slot k = rga_dma_buffer.kzalloc := by
  unfold rga_internal_buffer.slot rga_internal_buffer.slots
  rw [h]
  simp only [Option.getD_some, List.getD_eq_getElem?_getD, List.getElem?_replicate]
  split_ifs <;> rfl

/-- Past the first engine the loop of rga_mm_map_dma_buffer changes neither
the flags nor a slot it has already passed, and it leaves the slot of an RGA2
engine alone when UNDER_4G is not set. -/
theorem map_dma_buffer_loop_tail (env : rga_import_env) (ext : rga_external_buffer)
    (cores : List Nat) :
    ∀ (i : Nat) (ret : Int) (ib : rga_internal_buffer), 1 ≤ i →
      (rga_mm_map_dma_buffer_loop env ext cores i ret ib).1 = map_exit.done →
      (rga_mm_map_dma_buffer_loop env ext cores i ret ib).2.2.mm_flag = ib.mm_flag ∧
      (∀ k, k < i → (rga_mm_map_dma_buffer_loop env ext cores i ret ib).2.2.slot k = ib.slot k) ∧
      (∀ j, cores[j]? = some RGA2_SCHEDULER_CORE0 → ib.mm_flag &&& RGA_MEM_UNDER_4G = 0 →
        (rga_mm_map_dma_buffer_loop env ext cores i ret ib).2.2.slot (i + j) = ib.slot (i + j)) := by
  induction cores with
  | nil =>
    intro i ret ib _ _
    exact ⟨rfl, fun _ _ => rfl, fun j hj => by simp at hj⟩
  | cons c rest ih =>
    intro i ret ib hi hdone
    have hi0 : i ≠ 0 := by omega
    simp only [rga_mm_map_dma_buffer_loop] at hdone ⊢
    by_cases hskip : c = RGA2_SCHEDULER_CORE0 ∧ ib.mm_flag &&& RGA_MEM_UNDER_4G = 0 ∧ i ≠ 0
    · rw [if_pos hskip] at hdone ⊢
      obtain ⟨a, b, d⟩ := ih (i + 1) ret ib (by omega) hdone
      refine ⟨a, fun k hk => b k (by omega), fun j hj hf => ?_⟩
      cases j with
      | zero => exact b i (by omega)
      | succ j =>
        have := d j (by simpa using hj) hf
        rw [show i + 1 + j = i + (j + 1) by omega] at this
        exact this
    · rw [if_neg hskip] at hdone ⊢
      by_cases hr : (rga_mm_map_dma_buffer_call env ext i (ib.slot i)).1 < 0
      · rw [if_pos hr] at hdone
        simp at hdone
      · rw [if_neg hr, if_neg hi0] at hdone ⊢
        obtain ⟨a, b, d⟩ := ih (i + 1) (rga_mm_map_dma_buffer_call env ext i (ib.slot i)).1
          (ib.set_slot i { (rga_mm_map_dma_buffer_call env ext i (ib.slot i)).2 with core := c })
          (by omega) hdone
        refine ⟨a, fun k hk => ?_, fun j hj hf => ?_⟩
        · rw [b k (by omega), set_slot_slot_ne _ _ _ _ (by omega)]
        · cases j with
          | zero =>
            simp only [List.getElem?_cons_zero, Option.some.injEq] at hj
            exact absurd ⟨hj, hf, hi0⟩ hskip
          | succ j =>
            have := d j (by simpa using hj) hf
            rw [show i + 1 + j = i + (j + 1) by omega] at this
            rw [this, set_slot_slot_ne _ _ _ _ (by omega)]

theorem unmap_dma_buffer_slot (ib : rga_internal_buffer) (k : Nat) :
    (rga_mm_unmap_dma_buffer ib).slot k = rga_dma_buffer.kzalloc := rfl

/-- What the first pass of the loop of rga_mm_map_dma_buffer leaves when the
loop ends normally: the flags and the slots from the second on are as after
that pass, whatever the later passes map. -/
theorem map_dma_buffer_loop_rga2 (env : rga_import_env) (ext : rga_external_buffer)
    (c0 : Nat) (rest : List Nat) (ib : rga_internal_buffer) (n : Nat)
    (hib : ib.dma_buffer = some (List.replicate n rga_dma_buffer.kzalloc))
    (hdone : (rga_mm_map_dma_buffer_loop env ext (c0 :: rest) 0 0 ib).1 = map_exit.done) :
    (rga_mm_map_dma_buffer_loop env ext (c0 :: rest) 0 0 ib).2.2.mm_flag &&& RGA_MEM_UNDER_4G = 0 →
    ∀ j, rest[j]? = some RGA2_SCHEDULER_CORE0 →
      ((rga_mm_map_dma_buffer_loop env ext (c0 :: rest) 0 0 ib).2.2.slot (1 + j)).mapped
        = false := by
  have hk : ∀ (x : rga_dma_buffer) (k : Nat), 1 ≤ k →
      (ib.set_slot 0 x).slot k = rga_dma_buffer.kzalloc := by
    intro x k hk1
    rw [set_slot_slot_ne _ _ _ _ (by omega), kzalloc_slot ib n hib]
  simp only [rga_mm_map_dma_buffer_loop] at hdone ⊢
  have hns : ¬ (c0 = RGA2_SCHEDULER_CORE0 ∧ ib.mm_flag &&& RGA_MEM_UNDER_4G = 0 ∧ (0 : Nat) ≠ 0) :=
    fun h => h.2.2 rfl
  rw [if_neg hns] at hdone ⊢
  by_cases hr : (rga_mm_map_dma_buffer_call env ext 0 (ib.slot 0)).1 < 0
  · rw [if_pos hr] at hdone
    simp at hdone
  · rw [if_neg hr] at hdone ⊢
    simp only [if_true] at hdone ⊢
    split_ifs at hdone ⊢
    all_goals first
      | (simp at hdone; done)
      | (intro _ j _
         exact congrArg rga_dma_buffer.mapped (hk _ (1 + j) (by omega)))
      | (intro hf j hj
         obtain ⟨a, b, d⟩ := map_dma_buffer_loop_tail env ext rest 1 _ _ (Nat.le_refl 1) hdone
         rw [a] at hf
         rw [d j hj hf]
         exact congrArg rga_dma_buffer.mapped (hk _ (1 + j) (by omega)))

theorem or_one_and_four (f : Nat) : (f ||| 1) &&& 4 = f &&& 4 := by
  apply Nat.eq_of_testBit_eq
  intro i
  simp only [Nat.testBit_and, Nat.testBit_or]
  have h4 : Nat.testBit 4 i = decide (i = 2) := by
    rw [show (4 : Nat) = 2 ^ 2 from rfl, Nat.testBit_two_pow]; simp [eq_comm]
  rw [h4]
  have h1 : Nat.testBit 1 2 = false := by decide
  by_cases hi : i = 2
  · subst hi; simp [h1]
  · simp [hi]

/-- After a successful rga_mm_map_dma_buffer with UNDER_4G not set, the slot
of an RGA2 engine in any position but the first holds no mapping. -/
theorem map_dma_buffer_rga2 (scheduler : List Nat) (env : rga_import_env)
    (ext : rga_external_buffer) (ib : rga_internal_buffer)
    (hok : ¬ (rga_mm_map_dma_buffer scheduler env ext ib).1 < 0)
    (hf : (rga_mm_map_dma_buffer scheduler env ext ib).2.mm_flag &&& RGA_MEM_UNDER_4G = 0)
    (j : Nat) (hj1 : 1 ≤ j) (hj : scheduler[j]? = some RGA2_SCHEDULER_CORE0) :
    ((rga_mm_map_dma_buffer scheduler env ext ib).2.slot j).mapped = false := by
  unfold rga_mm_map_dma_buffer at hok hf ⊢
  by_cases hk : env.kcalloc_dma_buffer = false
  · rw [if_pos hk] at hok
    simp [ENOMEM] at hok
  · rw [if_neg hk] at hf ⊢
    cases scheduler with
    | nil => simp at hj
    | cons c0 rest =>
      obtain ⟨j1, rfl⟩ : ∃ j1, j = j1 + 1 := ⟨j - 1, by omega⟩
      have hj' : rest[j1]? = some RGA2_SCHEDULER_CORE0 := by simpa using hj
      have key := map_dma_buffer_loop_rga2 env ext c0 rest
        { ib with dma_buffer_size := (c0 :: rest).length,
                  dma_buffer := some (List.replicate (c0 :: rest).length rga_dma_buffer.kzalloc) }
        (c0 :: rest).length rfl
      generalize rga_mm_map_dma_buffer_loop env ext (c0 :: rest) 0 0
        { ib with dma_buffer_size := (c0 :: rest).length,
                  dma_buffer := some (List.replicate (c0 :: rest).length rga_dma_buffer.kzalloc) }
        = L at hf key ⊢
      obtain ⟨ex, ret, ib2⟩ := L
      cases ex with
      | done =>
        have := key rfl hf j1 hj'
        rw [show 1 + j1 = j1 + 1 by omega] at this
        exact this
      | FREE_RGA_DMA_BUF => rfl

theorem alloc_sgt_mapped (env : rga_import_env) (i : Nat) (v : rga_virt_addr)
    (slot : rga_dma_buffer) : (rga_alloc_sgt env i v slot).2.mapped = slot.mapped := by
  unfold rga_alloc_sgt
  cases env.alloc_sgt i <;> rfl

theorem map_virt_addr_sgt_loop_mapped (env : rga_import_env) (cores : List Nat) :
    ∀ (i : Nat) (ret : Int) (ib : rga_internal_buffer) (k : Nat),
      ((rga_mm_map_virt_addr_sgt_loop env cores i ret ib).2.2.slot k).mapped
        = (ib.slot k).mapped := by
  induction cores with
  | nil => intro i ret ib k; rfl
  | cons c rest ih =>
    intro i ret ib k
    simp only [rga_mm_map_virt_addr_sgt_loop]
    split_ifs
    all_goals first
      | rfl
      | exact ih _ _ _ _
      | (rw [ih]
         exact set_slot_mapped ib i _ (alloc_sgt_mapped env i ib.virt (ib.slot i)) k)

/-- The mapping loop of rga_mm_map_virt_addr keeps the flags and the slots it
has passed, and leaves the slot of an RGA2 engine alone when UNDER_4G is not
set. -/
theorem map_virt_addr_map_loop_rga2 (env : rga_import_env) (cores : List Nat) :
    ∀ (i : Nat) (ret : Int) (ib : rga_internal_buffer),
      (rga_mm_map_virt_addr_map_loop env cores i ret ib).2.2.mm_flag = ib.mm_flag ∧
      (∀ k, k < i → (rga_mm_map_virt_addr_map_loop env cores i ret ib).2.2.slot k = ib.slot k) ∧
      (∀ j, cores[j]? = some RGA2_SCHEDULER_CORE0 → ib.mm_flag &&& RGA_MEM_UNDER_4G = 0 →
        (rga_mm_map_virt_addr_map_loop env cores i ret ib).2.2.slot (i + j) = ib.slot (i + j)) := by
  induction cores with
  | nil =>
    intro i ret ib
    exact ⟨rfl, fun _ _ => rfl, fun j hj => by simp at hj⟩
  | cons c rest ih =>
    intro i ret ib
    simp only [rga_mm_map_virt_addr_map_loop]
    by_cases hskip : c = RGA2_SCHEDULER_CORE0 ∧ ib.mm_flag &&& RGA_MEM_UNDER_4G = 0
    · rw [if_pos hskip]
      obtain ⟨a, b, d⟩ := ih (i + 1) ret ib
      refine ⟨a, fun k hk => b k (by omega), fun j hj hf => ?_⟩
      cases j with
      | zero => exact b i (by omega)
      | succ j =>
        have := d j (by simpa using hj) hf
        rw [show i + 1 + j = i + (j + 1) by omega] at this
        exact this
    · rw [if_neg hskip]
      have hz : ∀ j, (c :: rest)[j]? = some RGA2_SCHEDULER_CORE0 →
          ib.mm_flag &&& RGA_MEM_UNDER_4G = 0 → ∃ j1, j = j1 + 1 ∧
            rest[j1]? = some RGA2_SCHEDULER_CORE0 := by
        intro j hj hf
        cases j with
        | zero =>
          simp only [List.getElem?_cons_zero, Option.some.injEq] at hj
          exact absurd ⟨hj, hf⟩ hskip
        | succ j => exact ⟨j, rfl, by simpa using hj⟩
      split_ifs
      · exact ⟨rfl, fun _ _ => rfl, fun _ _ _ => rfl⟩
      · obtain ⟨a, b, d⟩ := ih (i + 1) (env.iommu_map_virt_addr i).1
          (ib.set_slot i { ib.slot i with iova := (env.iommu_map_virt_addr i).2,
                                          mapped := true, core := c })
        refine ⟨a, fun k hk => ?_, fun j hj hf => ?_⟩
        · rw [b k (by omega), set_slot_slot_ne _ _ _ _ (by omega)]
        · obtain ⟨j1, rfl, hj1⟩ := hz j hj hf
          have := d j1 hj1 hf
          rw [show i + 1 + j1 = i + (j1 + 1) by omega] at this
          rw [this, set_slot_slot_ne _ _ _ _ (by omega)]
      · exact ⟨rfl, fun _ _ => rfl, fun _ _ _ => rfl⟩
      · obtain ⟨a, b, d⟩ := ih (i + 1) (env.dma_map_sg i)
          (ib.set_slot i { ib.slot i with mapped := true, core := c })
        refine ⟨a, fun k hk => ?_, fun j hj hf => ?_⟩
        · rw [b k (by omega), set_slot_slot_ne _ _ _ _ (by omega)]
        · obtain ⟨j1, rfl, hj1⟩ := hz j hj hf
          have := d j1 hj1 hf
          rw [show i + 1 + j1 = i + (j1 + 1) by omega] at this
          rw [this, set_slot_slot_ne _ _ _ _ (by omega)]

theorem unmap_virt_addr_loop_mapped :
    ∀ (cores : List Nat) (slots : List rga_dma_buffer) (k : Nat),
      (slots.getD k rga_dma_buffer.kzalloc).mapped = false →
      ((((rga_mm_unmap_virt_addr_loop cores slots).map rga_free_sgt).getD k
        rga_dma_buffer.kzalloc)).mapped = false := by
  intro cores
  induction cores with
  | nil =>
    intro slots k h
    have : rga_mm_unmap_virt_addr_loop [] slots = slots := by
      cases slots <;> rfl
    rw [this]
    simp only [List.getD_eq_getElem?_getD, List.getElem?_map] at h ⊢
    cases hs : slots[k]? with
    | none => rfl
    | some x => rw [hs] at h; exact h
  | cons c rest ih =>
    intro slots k h
    cases slots with
    | nil => rfl
    | cons s tl =>
      cases k with
      | zero =>
        simp only [rga_mm_unmap_virt_addr_loop, List.map_cons, List.getD_cons_zero] at h ⊢
        split_ifs <;> first | rfl | exact h
      | succ k =>
        simp only [rga_mm_unmap_virt_addr_loop, List.map_cons, List.getD_cons_succ] at h ⊢
        exact ih tl k h

theorem free_sgt_mapped (slots : List rga_dma_buffer) (k : Nat) :
    ((slots.map rga_free_sgt).getD k rga_dma_buffer.kzalloc).mapped
      = (slots.getD k rga_dma_buffer.kzalloc).mapped := by
  simp only [List.getD_eq_getElem?_getD, List.getElem?_map]
  cases slots[k]? <;> rfl

theorem unwind_slot_mapped (scheduler : List Nat) (ib : rga_internal_buffer) (k : Nat)
    (h : (ib.slot k).mapped = false) :
    ((rga_mm_map_virt_addr_unwind scheduler ib).slot k).mapped = false := by
  unfold rga_internal_buffer.slot rga_internal_buffer.slots at h
  unfold rga_mm_map_virt_addr_unwind rga_internal_buffer.slot rga_internal_buffer.slots
  cases hb : ib.dma_buffer with
  | none => rfl
  | some a =>
    rw [hb] at h
    simp only [Option.map_some', Option.getD_some] at h ⊢
    exact unmap_virt_addr_loop_mapped scheduler a k h

theorem free_slot_mapped (ib : rga_internal_buffer) (k : Nat) :
    ((rga_mm_map_virt_addr_free ib).slot k).mapped = (ib.slot k).mapped := by
  unfold rga_mm_map_virt_addr_free rga_internal_buffer.slot rga_internal_buffer.slots
  cases hb : ib.dma_buffer with
  | none => rfl
  | some a =>
    simp only [Option.map_some', Option.getD_some]
    exact free_sgt_mapped a k

/-- After rga_mm_map_virt_addr returned without an error code and with
UNDER_4G not set, the slot of an RGA2 engine holds no mapping. -/
theorem map_virt_addr_rga2 (scheduler : List Nat) (env : rga_import_env)
    (ext : rga_external_buffer) (ib : rga_internal_buffer)
    (hok : ¬ (rga_mm_map_virt_addr scheduler env ext ib).1 < 0)
    (hf : (rga_mm_map_virt_addr scheduler env ext ib).2.mm_flag &&& RGA_MEM_UNDER_4G = 0)
    (j : Nat) (hj : scheduler[j]? = some RGA2_SCHEDULER_CORE0) :
    ((rga_mm_map_virt_addr scheduler env ext ib).2.slot j).mapped = false := by
  unfold rga_mm_map_virt_addr at hok hf ⊢
  cases hc : env.current_mm with
  | none =>
    rw [hc] at hok
    simp [EFAULT] at hok
  | some cm =>
    rw [hc] at hok hf
    simp only [] at hok hf ⊢
    by_cases h1 : (rga_alloc_virt_addr env ext.memory ib.memory_parm).1 < 0
    · rw [if_pos h1] at hok
      exact absurd h1 hok
    · rw [if_neg h1] at hok hf ⊢
      by_cases h2 : env.kcalloc_dma_buffer = false
      · rw [if_pos h2] at hok
        simp [ENOMEM] at hok
      · rw [if_neg h2] at hok hf ⊢
        have hinit : ∀ k, ((({ ib with
            current_mm := some cm,
            virt_addr := (rga_alloc_virt_addr env ext.memory ib.memory_parm).2,
            dma_buffer := some (List.replicate scheduler.length rga_dma_buffer.kzalloc),
            dma_buffer_size := scheduler.length } : rga_internal_buffer).slot k).mapped)
            = false := by
          intro k
          rw [kzalloc_slot _ scheduler.length rfl]
          rfl
        have s1 := map_virt_addr_sgt_loop_mapped env scheduler 0
          (rga_alloc_virt_addr env ext.memory ib.memory_parm).1
          { ib with
            current_mm := some cm,
            virt_addr := (rga_alloc_virt_addr env ext.memory ib.memory_parm).2,
            dma_buffer := some (List.replicate scheduler.length rga_dma_buffer.kzalloc),
            dma_buffer_size := scheduler.length }
        generalize rga_mm_map_virt_addr_sgt_loop env scheduler 0
          (rga_alloc_virt_addr env ext.memory ib.memory_parm).1
          { ib with
            current_mm := some cm,
            virt_addr := (rga_alloc_virt_addr env ext.memory ib.memory_parm).2,
            dma_buffer := some (List.replicate scheduler.length rga_dma_buffer.kzalloc),
            dma_buffer_size := scheduler.length } = L1 at hok hf s1 ⊢
        obtain ⟨b1, ret1, ib1⟩ := L1
        have m1 : ∀ k, (ib1.slot k).mapped = false := fun k => by rw [s1 k]; exact hinit k
        cases b1 with
        | false =>
          simp only [] at hf ⊢
          rw [free_slot_mapped]
          exact m1 j
        | true =>
          simp only [] at hok hf ⊢
          obtain ⟨a, _, d⟩ := map_virt_addr_map_loop_rga2 env scheduler 0 ret1 ib1
          generalize rga_mm_map_virt_addr_map_loop env scheduler 0 ret1 ib1 = L2
            at hok hf a d ⊢
          obtain ⟨b2, ret2, ib2⟩ := L2
          simp only [] at a d
          cases b2 with
          | false =>
            simp only [] at hf ⊢
            have hf2 : ib1.mm_flag &&& RGA_MEM_UNDER_4G = 0 := by rw [← a]; exact hf
            apply unwind_slot_mapped
            have := d j hj hf2
            rw [Nat.zero_add] at this
            rw [this]
            exact m1 j
          | true =>
            simp only [] at hf ⊢
            have hf2 : ib1.mm_flag &&& RGA_MEM_UNDER_4G = 0 := by rw [← a]; exact hf
            have := d j hj hf2
            rw [Nat.zero_add] at this
            rw [this]
            exact m1 j

/-- After rga_mm_map_buffer returned without an error code and with UNDER_4G
not set, the slot of an RGA2 engine holds no mapping, the first position
excepted for the two shared-buffer kinds. -/
theorem map_buffer_rga2 (scheduler : List Nat) (env : rga_import_env)
    (ext : rga_external_buffer)
    (hok : ¬ (rga_mm_map_buffer scheduler env ext rga_internal_buffer.kzalloc).1 < 0)
    (hf : (rga_mm_map_buffer scheduler env ext rga_internal_buffer.kzalloc).2.mm_flag
      &&& RGA_MEM_UNDER_4G = 0)
    (j : Nat) (hj : scheduler[j]? = some RGA2_SCHEDULER_CORE0)
    (hpos : ext.type = rga_memory_type.RGA_DMA_BUFFER ∨
      ext.type = rga_memory_type.RGA_DMA_BUFFER_PTR → 1 ≤ j) :
    ((rga_mm_map_buffer scheduler env ext rga_internal_buffer.kzalloc).2.slot j).mapped
      = false := by
  have h14 : ∀ f : Nat, (f ||| RGA_MEM_NEED_USE_IOMMU) &&& RGA_MEM_UNDER_4G
      = f &&& RGA_MEM_UNDER_4G := or_one_and_four
  unfold rga_mm_map_buffer at hok hf ⊢
  cases ht : ext.type with
  | RGA_DMA_BUFFER =>
    rw [ht] at hok hf
    simp only [] at hok hf ⊢
    split_ifs at hok hf ⊢ with h1
    · exact absurd h1 hok
    · simp only [h14] at hf
      exact map_dma_buffer_rga2 scheduler env ext _ h1 hf j (hpos (Or.inl ht)) hj
  | RGA_DMA_BUFFER_PTR =>
    rw [ht] at hok hf
    simp only [] at hok hf ⊢
    split_ifs at hok hf ⊢ with h1
    · exact absurd h1 hok
    · simp only [h14] at hf
      exact map_dma_buffer_rga2 scheduler env ext _ h1 hf j (hpos (Or.inr ht)) hj
  | RGA_VIRTUAL_ADDRESS =>
    rw [ht] at hok hf
    simp only [] at hok hf ⊢
    split_ifs at hok hf ⊢ with h1
    · exact absurd h1 hok
    · simp only [h14] at hf
      exact map_virt_addr_rga2 scheduler env ext _ h1 hf j hj
  | RGA_PHYSICAL_ADDRESS => rfl
  | ILLEGAL raw =>
    rw [ht] at hok
    simp [EFAULT] at hok

/-- The entry an import creates in a state reached from rga_mm_init is the
buffer rga_mm_map_buffer returned without an error code, with its first
reference, its session and the returned handle. -/
theorem import_created (scheduler : List Nat) (calls : List rga_call)
    (ext : rga_external_buffer) (session : Nat) (env : rga_import_env)
    (hmiss : ((rga_run (rga_boot scheduler) calls).drv.lookup_external ext env).is_found = false)
    (hnew : (rga_mm_import_buffer (rga_run (rga_boot scheduler) calls).drv ext session env).1
      ≠ 0) :
    ¬ (rga_mm_map_buffer scheduler env ext rga_internal_buffer.kzalloc).1 < 0 ∧
    ∀ e ∈ (rga_mm_import_buffer (rga_run (rga_boot scheduler) calls).drv ext session env
        ).2.entries,
      e.handle = (rga_mm_import_buffer (rga_run (rga_boot scheduler) calls).drv ext session
        env).1 →
      e.mm_flag = (rga_mm_map_buffer scheduler env ext rga_internal_buffer.kzalloc).2.mm_flag ∧
      e.phys_addr = (rga_mm_map_buffer scheduler env ext rga_internal_buffer.kzalloc).2.phys_addr ∧
      e.type = (rga_mm_map_buffer scheduler env ext rga_internal_buffer.kzalloc).2.type ∧
      e.dma_buffer_size
        = (rga_mm_map_buffer scheduler env ext rga_internal_buffer.kzalloc).2.dma_buffer_size ∧
      e.dma_buffer
        = (rga_mm_map_buffer scheduler env ext rga_internal_buffer.kzalloc).2.dma_buffer := by
  obtain ⟨mm2, hd2, hf2, _⟩ := run_fresh calls (rga_boot scheduler) rga_mm_init rfl
    rga_mm_init_fresh.1 rga_mm_init_fresh.2
  have hmm : (rga_run (rga_boot scheduler) calls).drv.mm = some mm2 := by rw [hd2]
  have hsch : (rga_run (rga_boot scheduler) calls).drv.scheduler = scheduler := by rw [hd2]; rfl
  rcases import_cases _ mm2 ext session env hmm with ⟨e, hl, _, _⟩ | ⟨_, heq⟩ | ⟨_, hok, heq⟩
  · simp [rga_drvdata.lookup_external, hmm, hl, lookup_result.is_found] at hmiss
  · rw [heq] at hnew
    exact absurd rfl hnew
  · rw [hsch] at hok
    refine ⟨hok, ?_⟩
    rw [heq]
    intro e he hh
    simp only [rga_drvdata.entries] at he
    rcases mem_idr_insert.1 he with rfl | he
    · simp [imported_entry, hsch]
    · have := (hf2.2 e he).2
      simp only [] at hh
      omega

/-- C12 (as amended): for a virtual-address buffer of N pages resolved by
rga_alloc_virt_addr, if the bulk pin returns N, the recorded pinned count is
N, nothing is put during the resolution, and rga_free_virt_addr puts exactly
the N pages of the record; if the bulk pin returns k with 0 < k < N and the
page-table walk finds every page, the k pinned pages are put at once during
the resolution, all N pages of the record come from the walk, the recorded
pinned count is 0 and rga_free_virt_addr puts no page. -/
theorem C12_pinned_count (env : rga_import_env) (viraddr : Nat) (parm : rga_memory_parm)
    (N : Nat) (h : alloc_ready env viraddr parm N) :
    (env.get_user_pages = (N : Int) →
      ∃ v, rga_alloc_virt_addr env viraddr parm = (0, some v) ∧ v.result = (N : Int) ∧
        v.pages.length = N ∧ rga_get_user_pages_put_page env N = [] ∧
        rga_free_virt_addr_put_page (some v) = v.pages) ∧
    (∀ w : Nat → Nat, 0 < env.get_user_pages → env.get_user_pages < (N : Int) →
      (∀ j, j < N →
        env.vma_page ((((viraddr >>> PAGE_SHIFT) + j) <<< PAGE_SHIFT) % 2 ^ 64) = some (w j)) →
      ∃ v, rga_alloc_virt_addr env viraddr parm = (0, some v) ∧ v.result = 0 ∧
        v.pages = (List.range N).map w ∧
        rga_get_user_pages_put_page env N = env.pinned_pages.take env.get_user_pages.toNat ∧
        rga_free_virt_addr_put_page (some v) = []) := by
  constructor
  · intro hpin
    obtain ⟨h1, h2⟩ := alloc_virt_addr_all_pinned env viraddr parm N h hpin
    have hl : (store_pages (List.replicate N 0) env.pinned_pages).length = N := by
      rw [store_pages_length, List.length_replicate]
    refine ⟨_, h1, rfl, hl, h2, ?_⟩
    simp only [rga_free_virt_addr_put_page, Int.toNat_ofNat]
    exact List.take_of_length_le (by omega)
  · intro w hk0 hkN hw
    obtain ⟨h1, h2⟩ := alloc_virt_addr_fallback env viraddr parm N w h hk0 hkN hw
    exact ⟨_, h1, rfl, rfl, h2, rfl⟩

theorem C12_pinned_count_witness :
    alloc_ready sample_full_pin_env 0x7f0000 sample_two_page_parm 2 ∧
    alloc_ready sample_partial_pin_env 0x7f0000 sample_two_page_parm 2 ∧
    (∃ v, rga_alloc_virt_addr sample_full_pin_env 0x7f0000 sample_two_page_parm
        = (0, some v) ∧ v.result = ((2 : Nat) : Int) ∧ v.pages.length = 2 ∧
      rga_get_user_pages_put_page sample_full_pin_env 2 = [] ∧
      rga_free_virt_addr_put_page (some v) = v.pages) ∧
    (∃ v, rga_alloc_virt_addr sample_partial_pin_env 0x7f0000 sample_two_page_parm
        = (0, some v) ∧ v.result = 0 ∧
      v.pages = (List.range 2).map (fun j => 0x7f0 + j) ∧
      rga_get_user_pages_put_page sample_partial_pin_env 2
        = sample_partial_pin_env.pinned_pages.take sample_partial_pin_env.get_user_pages.toNat ∧
      rga_free_virt_addr_put_page (some v) = []) :=
  have h1 : alloc_ready sample_full_pin_env 0x7f0000 sample_two_page_parm 2 :=
    ⟨by decide, by decide, rfl, rfl⟩
  have h2 : alloc_ready sample_partial_pin_env 0x7f0000 sample_two_page_parm 2 :=
    ⟨by decide, by decide, rfl, rfl⟩
  ⟨h1, h2, (C12_pinned_count sample_full_pin_env 0x7f0000 sample_two_page_parm 2 h1).1 rfl,
    (C12_pinned_count sample_partial_pin_env 0x7f0000 sample_two_page_parm 2 h2).2
      (fun j => 0x7f0 + j) (by decide) (by decide)
      (fun j hj => by interval_cases j <;> rfl)⟩

/-- C12 fails as stated: the buffer has two pages and the bulk pin returns 1;
the pinned page is put during the resolution, both pages of the record come
from the page-table walk, the recorded pinned count is 0 and the teardown puts
no page, not one. -/
theorem C12_partial_pin_is_put_at_once :
    (rga_alloc_virt_addr sample_partial_pin_env 0x7f0000 sample_two_page_parm).2.map
      (fun v => (v.result, v.pages, rga_free_virt_addr_put_page (some v)))
      = some (0, [0x7f0, 0x7f1], []) ∧
    rga_get_user_pages_put_page sample_partial_pin_env 2 = [77] := by
  refine ⟨?_, ?_⟩ <;> decide

set_option maxRecDepth 8000 in
/-- C11 fails on the code: on a board whose scheduler list starts with the
RGA2 core, the import of a shared buffer with a single segment below 4 GiB
sets both flags and phys_addr, maps the RGA2 slot and leaves the loop, so the
slots of the two RGA3 engines are not mapped; a job on RGA2 obtains phys_addr,
a job on an RGA3 core gets -EINVAL from rga_mm_get_buffer. -/
theorem C11_rga3_slots_left_unmapped :
    (rga_run (rga_boot sample_scheduler_rga2_first)
      [sample_import_fd 0x5000 [sample_segment 0x10000000 4096] 7]).drv.entries.map
      (fun e => (e.handle, e.mm_flag, e.phys_addr, e.slots.map (fun s => (s.core, s.mapped))))
      = [(1, RGA_MEM_NEED_USE_IOMMU ||| RGA_MEM_PHYSICAL_CONTIGUOUS ||| RGA_MEM_UNDER_4G,
          0x10000000, [(RGA2_SCHEDULER_CORE0, true), (0, false), (0, false)])] ∧
    (rga_mm_get_buffer
      ((rga_run (rga_boot sample_scheduler_rga2_first)
        [sample_import_fd 0x5000 [sample_segment 0x10000000 4096] 7]).drv.mm.getD rga_mm_init)
      (sample_rga2_job (sample_req 1 0)) 1 1 none dma_data_direction.DMA_TO_DEVICE).channel_addr
      = 0x10000000 ∧
    (rga_mm_get_buffer
      ((rga_run (rga_boot sample_scheduler_rga2_first)
        [sample_import_fd 0x5000 [sample_segment 0x10000000 4096] 7]).drv.mm.getD rga_mm_init)
      (rga_job.kzalloc (sample_req 1 0) RGA3_SCHEDULER_CORE0 (some 1)) 1 1 none
      dma_data_direction.DMA_TO_DEVICE).ret = -EINVAL := by
  refine ⟨?_, ?_, ?_⟩ <;> decide

set_option maxRecDepth 8000 in
/-- C20 fails as stated: with the RGA2 core first in the scheduler list, the import
of a shared buffer that lies above 4 GiB succeeds with UNDER_4G not set, and
the slot of the RGA2 engine has been mapped. -/
theorem C20_rga2_first_is_mapped :
    (rga_run (rga_boot sample_scheduler_rga2_first)
      [rga_call.import_buffer (sample_request rga_memory_type.RGA_DMA_BUFFER 3) 7
        sample_high_env]).drv.entries.map
      (fun e => (e.handle, e.mm_flag &&& RGA_MEM_UNDER_4G,
        e.slots.map (fun s => (s.core, s.mapped))))
      = [(1, 0, [(RGA2_SCHEDULER_CORE0, true), (RGA3_SCHEDULER_CORE0, true),
          (RGA3_SCHEDULER_CORE1, true)])] := by
  decide

/-! ## What an import resolves to -/

set_option maxRecDepth 8000 in
/-- Two descriptor imports of one shared object whose single segment sits at
physical address 0: each mapping takes the early exit that frees the slot
array, so neither entry records the object and the second import finds
nothing to share. -/
theorem address_zero_imports_are_not_shared :
    import_returns (rga_boot sample_scheduler)
      [sample_import_fd 0x5000 [sample_segment 0 4096] 7,
        sample_import_fd 0x5000 [sample_segment 0 4096] 7] = [1, 2] ∧
    (rga_run (rga_boot sample_scheduler)
      [sample_import_fd 0x5000 [sample_segment 0 4096] 7,
        sample_import_fd 0x5000 [sample_segment 0 4096] 7]).drv.entries.map
        (fun e => (e.handle, e.refcount, entry_identity e)) = [(1, 1, none), (2, 1, none)] ∧
    resolves_by_identity (rga_boot sample_scheduler)
      [sample_import_fd 0x5000 [sample_segment 0 4096] 7,
        sample_import_fd 0x5000 [sample_segment 0 4096] 7] = false := by
  refine ⟨?_, ?_, ?_⟩ <;> decide

set_option maxRecDepth 8000 in
/-- A physical-address import of the address at which a contiguous shared
buffer was mapped: the scan compares phys_addr whatever the kind of the entry,
so the import resolves to the shared-buffer entry. -/
theorem physical_request_meets_shared_entry :
    import_returns (rga_boot sample_scheduler)
      [sample_import_fd 0x5000 [sample_segment 0x10000 4096] 7,
        sample_import_physical 0x10000 7] = [1, 1] ∧
    (rga_run (rga_boot sample_scheduler)
      [sample_import_fd 0x5000 [sample_segment 0x10000 4096] 7,
        sample_import_physical 0x10000 7]).drv.entries.map
        (fun e => (e.type, e.handle, e.refcount, entry_identity e))
      = [(rga_memory_type.RGA_DMA_BUFFER, 1, 2,
          some (identity_class.shared_object, 0x5000))] ∧
    resolves_by_identity (rga_boot sample_scheduler)
      [sample_import_fd 0x5000 [sample_segment 0x10000 4096] 7,
        sample_import_physical 0x10000 7] = false := by
  refine ⟨?_, ?_, ?_⟩ <;> decide

theorem map_call_with_outcome (env : rga_import_env) (ext : rga_external_buffer) (i j : Nat)
    (a : Int × sg_table) (b : Int × Nat) (c : Nat) (slot : rga_dma_buffer) (h : i ≠ j) :
    rga_mm_map_dma_buffer_call (env.with_map_outcome j a b c) ext i slot
      = rga_mm_map_dma_buffer_call env ext i slot := by
  unfold rga_mm_map_dma_buffer_call rga_dma_map_fd rga_dma_map_buf
    rga_import_env.with_map_outcome
  simp only [if_neg h]

theorem map_dma_buffer_loop_flag (env : rga_import_env) (ext : rga_external_buffer)
    (cores : List Nat) :
    ∀ (i : Nat) (ret : Int) (ib : rga_internal_buffer), 1 ≤ i →
      (rga_mm_map_dma_buffer_loop env ext cores i ret ib).2.2.mm_flag = ib.mm_flag := by
  induction cores with
  | nil => intro i ret ib _; rfl
  | cons c rest ih =>
    intro i ret ib hi
    have hi0 : i ≠ 0 := by omega
    simp only [rga_mm_map_dma_buffer_loop]
    split_ifs
    · exact ih (i + 1) ret ib (by omega)
    · rfl
    · rw [ih (i + 1) _ _ (by omega)]
      rfl

/-- Past the first engine, with UNDER_4G not set, the loop of
rga_mm_map_dma_buffer does not depend on what the map primitive would return
for an RGA2 engine. -/
theorem map_dma_buffer_loop_with_outcome (env : rga_import_env) (ext : rga_external_buffer)
    (j : Nat) (a : Int × sg_table) (b : Int × Nat) (c : Nat) (cores : List Nat) :
    ∀ (i : Nat) (ret : Int) (ib : rga_internal_buffer), 1 ≤ i →
      ib.mm_flag &&& RGA_MEM_UNDER_4G = 0 →
      (∀ t, i + t = j → cores[t]? = some RGA2_SCHEDULER_CORE0) →
      rga_mm_map_dma_buffer_loop (env.with_map_outcome j a b c) ext cores i ret ib
        = rga_mm_map_dma_buffer_loop env ext cores i ret ib := by
  induction cores with
  | nil => intro i ret ib _ _ _; rfl
  | cons c0 rest ih =>
    intro i ret ib hi hf hj
    have hi0 : i ≠ 0 := by omega
    have hrest : ∀ t, i + 1 + t = j → rest[t]? = some RGA2_SCHEDULER_CORE0 := by
      intro t ht
      have := hj (t + 1) (by omega)
      simpa using this
    simp only [rga_mm_map_dma_buffer_loop]
    by_cases hskip : c0 = RGA2_SCHEDULER_CORE0 ∧ ib.mm_flag &&& RGA_MEM_UNDER_4G = 0 ∧ i ≠ 0
    · rw [if_pos hskip, if_pos hskip]
      exact ih (i + 1) ret ib (by omega) hf hrest
    · rw [if_neg hskip, if_neg hskip]
      have hij : i ≠ j := by
        intro hcon
        have := hj 0 (by omega)
        simp only [List.getElem?_cons_zero, Option.some.injEq] at this
        exact hskip ⟨this, hf, hi0⟩
      rw [map_call_with_outcome env ext i j a b c _ hij]
      simp only [if_neg hi0]
      split_ifs
      · rfl
      · exact ih (i + 1) _ _ (by omega) hf hrest

theorem unmap_dma_buffer_loop_flag (ib : rga_internal_buffer) (slots : List rga_dma_buffer) :
    ∀ i, (rga_mm_unmap_dma_buffer_loop ib slots i).1.mm_flag = ib.mm_flag := by
  induction slots with
  | nil => intro i; rfl
  | cons s rest ih =>
    intro i
    simp only [rga_mm_unmap_dma_buffer_loop]
    split_ifs
    · rfl
    · exact ih (i + 1)

theorem unmap_dma_buffer_flag (ib : rga_internal_buffer) :
    (rga_mm_unmap_dma_buffer ib).mm_flag = ib.mm_flag := by
  unfold rga_mm_unmap_dma_buffer
  exact unmap_dma_buffer_loop_flag ib _ 0

/-- When the loop of rga_mm_map_dma_buffer leaves UNDER_4G not set, its result
does not depend on what the map primitive would return for an RGA2 engine in
any position but the first. -/
theorem map_dma_buffer_loop_first_with_outcome (env : rga_import_env)
    (ext : rga_external_buffer) (c0 : Nat) (rest : List Nat) (ib : rga_internal_buffer)
    (hf : (rga_mm_map_dma_buffer_loop env ext (c0 :: rest) 0 0 ib).2.2.mm_flag
      &&& RGA_MEM_UNDER_4G = 0)
    (j : Nat) (hj : rest[j]? = some RGA2_SCHEDULER_CORE0)
    (a : Int × sg_table) (b : Int × Nat) (c : Nat) :
    rga_mm_map_dma_buffer_loop (env.with_map_outcome (j + 1) a b c) ext (c0 :: rest) 0 0 ib
      = rga_mm_map_dma_buffer_loop env ext (c0 :: rest) 0 0 ib := by
  have hrest : ∀ t, 1 + t = j + 1 → rest[t]? = some RGA2_SCHEDULER_CORE0 := by
    intro t ht
    have : t = j := by omega
    rw [this]; exact hj
  simp only [rga_mm_map_dma_buffer_loop] at hf ⊢
  have hns : ¬ (c0 = RGA2_SCHEDULER_CORE0 ∧ ib.mm_flag &&& RGA_MEM_UNDER_4G = 0 ∧ (0 : Nat) ≠ 0) :=
    fun h => h.2.2 rfl
  rw [if_neg hns] at hf ⊢
  rw [if_neg hns, map_call_with_outcome env ext 0 (j + 1) a b c _ (by omega)]
  simp only [if_true] at hf ⊢
  split_ifs at hf ⊢
  all_goals first
    | rfl
    | (rw [map_dma_buffer_loop_flag env ext rest 1 _ _ (Nat.le_refl 1)] at hf
       exact map_dma_buffer_loop_with_outcome env ext (j + 1) a b c rest 1 _ _ (Nat.le_refl 1)
         hf hrest)

/-- When rga_mm_map_dma_buffer leaves UNDER_4G not set, its result does not
depend on what the map primitive would return for an RGA2 engine in any
position but the first. -/
theorem map_dma_buffer_with_outcome (scheduler : List Nat) (env : rga_import_env)
    (ext : rga_external_buffer) (ib : rga_internal_buffer)
    (hf : (rga_mm_map_dma_buffer scheduler env ext ib).2.mm_flag &&& RGA_MEM_UNDER_4G = 0)
    (j : Nat) (hj1 : 1 ≤ j) (hj : scheduler[j]? = some RGA2_SCHEDULER_CORE0)
    (a : Int × sg_table) (b : Int × Nat) (c : Nat) :
    rga_mm_map_dma_buffer scheduler (env.with_map_outcome j a b c) ext ib
      = rga_mm_map_dma_buffer scheduler env ext ib := by
  have hkc : (env.with_map_outcome j a b c).kcalloc_dma_buffer = env.kcalloc_dma_buffer := rfl
  unfold rga_mm_map_dma_buffer at hf ⊢
  rw [hkc]
  by_cases hk : env.kcalloc_dma_buffer = false
  · rw [if_pos hk, if_pos hk]
  · rw [if_neg hk] at hf
    rw [if_neg hk, if_neg hk]
    cases scheduler with
    | nil => simp at hj
    | cons c0 rest =>
      obtain ⟨j1, rfl⟩ : ∃ j1, j = j1 + 1 := ⟨j - 1, by omega⟩
      have hj' : rest[j1]? = some RGA2_SCHEDULER_CORE0 := by simpa using hj
      have key := map_dma_buffer_loop_first_with_outcome env ext c0 rest
        { ib with dma_buffer_size := (c0 :: rest).length,
                  dma_buffer := some (List.replicate (c0 :: rest).length rga_dma_buffer.kzalloc) }
      generalize rga_mm_map_dma_buffer_loop env ext (c0 :: rest) 0 0
        { ib with dma_buffer_size := (c0 :: rest).length,
                  dma_buffer := some (List.replicate (c0 :: rest).length rga_dma_buffer.kzalloc) }
        = L at hf key ⊢
      have hfl : L.2.2.mm_flag &&& RGA_MEM_UNDER_4G = 0 := by
        obtain ⟨ex, ret, ib2⟩ := L
        cases ex with
        | done => exact hf
        | FREE_RGA_DMA_BUF =>
          simp only [] at hf
          rw [unmap_dma_buffer_flag] at hf
          exact hf
      rw [key hfl j1 hj' a b c]

theorem from_vma_loop_with_outcome (env : rga_import_env) (j : Nat) (a : Int × sg_table)
    (b : Int × Nat) (c : Nat) (Memory : Nat) (n : Nat) :
    ∀ (i : Nat) (pages : List Nat),
      rga_get_user_pages_from_vma_loop (env.with_map_outcome j a b c) Memory n i pages
        = rga_get_user_pages_from_vma_loop env Memory n i pages := by
  induction n with
  | zero => intro i pages; rfl
  | succ n ih =>
    intro i pages
    simp only [rga_get_user_pages_from_vma_loop]
    have : (env.with_map_outcome j a b c).vma_page = env.vma_page := rfl
    rw [this]
    cases env.vma_page (((Memory + i) <<< PAGE_SHIFT) % 2 ^ 64) with
    | none => rfl
    | some page => exact ih _ _

theorem alloc_virt_addr_with_outcome (env : rga_import_env) (j : Nat) (a : Int × sg_table)
    (b : Int × Nat) (c : Nat) (viraddr : Nat) (parm : rga_memory_parm) :
    rga_alloc_virt_addr (env.with_map_outcome j a b c) viraddr parm
      = rga_alloc_virt_addr env viraddr parm := by
  have h1 : (env.with_map_outcome j a b c).image_size = env.image_size := rfl
  have h2 : (env.with_map_outcome j a b c).get_free_pages = env.get_free_pages := rfl
  have h3 : (env.with_map_outcome j a b c).kzalloc_virt_addr = env.kzalloc_virt_addr := rfl
  have h4 : (env.with_map_outcome j a b c).get_user_pages = env.get_user_pages := rfl
  have h5 : (env.with_map_outcome j a b c).pinned_pages = env.pinned_pages := rfl
  have h6 : ∀ pages Memory pageCount,
      rga_get_user_pages (env.with_map_outcome j a b c) pages Memory pageCount
        = rga_get_user_pages env pages Memory pageCount := by
    intro pages Memory pageCount
    unfold rga_get_user_pages rga_get_user_pages_from_vma
    rw [h4, h5, from_vma_loop_with_outcome]
  unfold rga_alloc_virt_addr
  simp only [h1, h2, h3, h6]

theorem map_virt_addr_sgt_loop_with_outcome (env : rga_import_env) (j : Nat)
    (a : Int × sg_table) (b : Int × Nat) (c : Nat) (cores : List Nat) :
    ∀ (i : Nat) (ret : Int) (ib : rga_internal_buffer),
      rga_mm_map_virt_addr_sgt_loop (env.with_map_outcome j a b c) cores i ret ib
        = rga_mm_map_virt_addr_sgt_loop env cores i ret ib := by
  induction cores with
  | nil => intro i ret ib; rfl
  | cons c0 rest ih =>
    intro i ret ib
    have hs : ∀ v slot, rga_alloc_sgt (env.with_map_outcome j a b c) i v slot
        = rga_alloc_sgt env i v slot := fun _ _ => rfl
    simp only [rga_mm_map_virt_addr_sgt_loop, hs, ih]

/-- With UNDER_4G not set, the mapping loop of rga_mm_map_virt_addr does not
depend on what the map primitive would return for an RGA2 engine. -/
theorem map_virt_addr_map_loop_with_outcome (env : rga_import_env) (j : Nat)
    (a : Int × sg_table) (b : Int × Nat) (c : Nat) (cores : List Nat) :
    ∀ (i : Nat) (ret : Int) (ib : rga_internal_buffer),
      ib.mm_flag &&& RGA_MEM_UNDER_4G = 0 →
      (∀ t, i + t = j → cores[t]? = some RGA2_SCHEDULER_CORE0) →
      rga_mm_map_virt_addr_map_loop (env.with_map_outcome j a b c) cores i ret ib
        = rga_mm_map_virt_addr_map_loop env cores i ret ib := by
  induction cores with
  | nil => intro i ret ib _ _; rfl
  | cons c0 rest ih =>
    intro i ret ib hf hj
    have hrest : ∀ t, i + 1 + t = j → rest[t]? = some RGA2_SCHEDULER_CORE0 := by
      intro t ht
      have := hj (t + 1) (by omega)
      simpa using this
    simp only [rga_mm_map_virt_addr_map_loop]
    by_cases hskip : c0 = RGA2_SCHEDULER_CORE0 ∧ ib.mm_flag &&& RGA_MEM_UNDER_4G = 0
    · rw [if_pos hskip, if_pos hskip]
      exact ih (i + 1) ret ib hf hrest
    · rw [if_neg hskip, if_neg hskip]
      have hij : i ≠ j := by
        intro hcon
        have := hj 0 (by omega)
        simp only [List.getElem?_cons_zero, Option.some.injEq] at this
        exact hskip ⟨this, hf⟩
      have h1 : (env.with_map_outcome j a b c).iommu_map_virt_addr i
          = env.iommu_map_virt_addr i := by
        simp only [rga_import_env.with_map_outcome, if_neg hij]
      have h2 : (env.with_map_outcome j a b c).dma_map_sg i = env.dma_map_sg i := by
        simp only [rga_import_env.with_map_outcome, if_neg hij]
      rw [h1, h2]
      split_ifs
      · rfl
      · exact ih (i + 1) _ _ hf hrest
      · rfl
      · exact ih (i + 1) _ _ hf hrest

/-- When rga_mm_map_virt_addr leaves UNDER_4G not set, its result does not
depend on what the map primitive would return for an RGA2 engine. -/
theorem map_virt_addr_with_outcome (scheduler : List Nat) (env : rga_import_env)
    (ext : rga_external_buffer) (ib : rga_internal_buffer)
    (hf : (rga_mm_map_virt_addr scheduler env ext ib).2.mm_flag &&& RGA_MEM_UNDER_4G = 0)
    (j : Nat) (hj : scheduler[j]? = some RGA2_SCHEDULER_CORE0)
    (a : Int × sg_table) (b : Int × Nat) (c : Nat) :
    rga_mm_map_virt_addr scheduler (env.with_map_outcome j a b c) ext ib
      = rga_mm_map_virt_addr scheduler env ext ib := by
  have hcm : (env.with_map_outcome j a b c).current_mm = env.current_mm := rfl
  have hkc : (env.with_map_outcome j a b c).kcalloc_dma_buffer = env.kcalloc_dma_buffer := rfl
  unfold rga_mm_map_virt_addr at hf ⊢
  rw [hcm]
  cases hc : env.current_mm with
  | none => rfl
  | some cm =>
    rw [hc] at hf
    simp only [] at hf ⊢
    rw [alloc_virt_addr_with_outcome, hkc]
    by_cases h1 : (rga_alloc_virt_addr env ext.memory ib.memory_parm).1 < 0
    · rw [if_pos h1, if_pos h1]
    · rw [if_neg h1] at hf
      rw [if_neg h1, if_neg h1]
      by_cases h2 : env.kcalloc_dma_buffer = false
      · rw [if_pos h2, if_pos h2]
      · rw [if_neg h2] at hf
        rw [if_neg h2, if_neg h2, map_virt_addr_sgt_loop_with_outcome]
        generalize rga_mm_map_virt_addr_sgt_loop env scheduler 0
          (rga_alloc_virt_addr env ext.memory ib.memory_parm).1
          { ib with
            current_mm := some cm,
            virt_addr := (rga_alloc_virt_addr env ext.memory ib.memory_parm).2,
            dma_buffer := some (List.replicate scheduler.length rga_dma_buffer.kzalloc),
            dma_buffer_size := scheduler.length } = L1 at hf ⊢
        obtain ⟨b1, ret1, ib1⟩ := L1
        cases b1 with
        | false => rfl
        | true =>
          simp only [] at hf ⊢
          have hfl := (map_virt_addr_map_loop_rga2 env scheduler 0 ret1 ib1).1
          have hf1 : ib1.mm_flag &&& RGA_MEM_UNDER_4G = 0 := by
            rw [← hfl]
            generalize rga_mm_map_virt_addr_map_loop env scheduler 0 ret1 ib1 = L2 at hf ⊢
            obtain ⟨b2, ret2, ib2⟩ := L2
            cases b2 <;> exact hf
          rw [map_virt_addr_map_loop_with_outcome env j a b c scheduler 0 ret1 ib1 hf1
            (fun t ht => by rw [show t = j by omega]; exact hj)]

/-- When rga_mm_map_buffer returned without an error code and with UNDER_4G
not set, its result does not depend on what the map primitive would return
for an RGA2 engine, the first position excepted for the two shared-buffer
kinds. -/
theorem map_buffer_with_outcome (scheduler : List Nat) (env : rga_import_env)
    (ext : rga_external_buffer)
    (hok : ¬ (rga_mm_map_buffer scheduler env ext rga_internal_buffer.kzalloc).1 < 0)
    (hf : (rga_mm_map_buffer scheduler env ext rga_internal_buffer.kzalloc).2.mm_flag
      &&& RGA_MEM_UNDER_4G = 0)
    (j : Nat) (hj : scheduler[j]? = some RGA2_SCHEDULER_CORE0)
    (hpos : ext.type = rga_memory_type.RGA_DMA_BUFFER ∨
      ext.type = rga_memory_type.RGA_DMA_BUFFER_PTR → 1 ≤ j)
    (a : Int × sg_table) (b : Int × Nat) (c : Nat) :
    rga_mm_map_buffer scheduler (env.with_map_outcome j a b c) ext rga_internal_buffer.kzalloc
      = rga_mm_map_buffer scheduler env ext rga_internal_buffer.kzalloc := by
  have h14 : ∀ f : Nat, (f ||| RGA_MEM_NEED_USE_IOMMU) &&& RGA_MEM_UNDER_4G
      = f &&& RGA_MEM_UNDER_4G := or_one_and_four
  unfold rga_mm_map_buffer at hok hf ⊢
  cases ht : ext.type with
  | RGA_DMA_BUFFER =>
    rw [ht] at hok hf
    simp only [] at hok hf ⊢
    split_ifs at hok hf with h1
    · exact absurd h1 hok
    · simp only [h14] at hf
      rw [map_dma_buffer_with_outcome scheduler env ext _ hf j (hpos (Or.inl ht)) hj a b c]
  | RGA_DMA_BUFFER_PTR =>
    rw [ht] at hok hf
    simp only [] at hok hf ⊢
    split_ifs at hok hf with h1
    · exact absurd h1 hok
    · simp only [h14] at hf
      rw [map_dma_buffer_with_outcome scheduler env ext _ hf j (hpos (Or.inr ht)) hj a b c]
  | RGA_VIRTUAL_ADDRESS =>
    rw [ht] at hok hf
    simp only [] at hok hf ⊢
    split_ifs at hok hf with h1
    · exact absurd h1 hok
    · simp only [h14] at hf
      rw [map_virt_addr_with_outcome scheduler env ext _ hf j hj a b c]
  | RGA_PHYSICAL_ADDRESS => rfl
  | ILLEGAL raw => rfl

theorem lookup_external_with_outcome (mm : rga_mm) (ext : rga_external_buffer)
    (env : rga_import_env) (j : Nat) (a : Int × sg_table) (b : Int × Nat) (c : Nat) :
    rga_mm_lookup_external mm ext (env.with_map_outcome j a b c)
      = rga_mm_lookup_external mm ext env := rfl

/-- An import whose mapping returned without an error code and with UNDER_4G
not set does not depend on what the map primitive would return for an RGA2
engine, the first position excepted for the two shared-buffer kinds. -/
theorem import_with_outcome (drv : rga_drvdata) (ext : rga_external_buffer) (session : Nat)
    (env : rga_import_env)
    (hok : ¬ (rga_mm_map_buffer drv.scheduler env ext rga_internal_buffer.kzalloc).1 < 0)
    (hf : (rga_mm_map_buffer drv.scheduler env ext rga_internal_buffer.kzalloc).2.mm_flag
      &&& RGA_MEM_UNDER_4G = 0)
    (j : Nat) (hj : drv.scheduler[j]? = some RGA2_SCHEDULER_CORE0)
    (hpos : ext.type = rga_memory_type.RGA_DMA_BUFFER ∨
      ext.type = rga_memory_type.RGA_DMA_BUFFER_PTR → 1 ≤ j)
    (a : Int × sg_table) (b : Int × Nat) (c : Nat) :
    rga_mm_import_buffer drv ext session (env.with_map_outcome j a b c)
      = rga_mm_import_buffer drv ext session env := by
  have hkz : (env.with_map_outcome j a b c).kzalloc_internal_buffer
      = env.kzalloc_internal_buffer := rfl
  unfold rga_mm_import_buffer
  rw [hkz, map_buffer_with_outcome drv.scheduler env ext hok hf j hj hpos a b c]
  cases drv.mm with
  | none => rfl
  | some mm => simp only [lookup_external_with_outcome]

theorem map_call_mapped (env : rga_import_env) (ext : rga_external_buffer) (i : Nat)
    (slot : rga_dma_buffer)
    (ht : ext.type = rga_memory_type.RGA_DMA_BUFFER ∨
      ext.type = rga_memory_type.RGA_DMA_BUFFER_PTR)
    (hok : ¬ (rga_mm_map_dma_buffer_call env ext i slot).1 < 0) :
    (rga_mm_map_dma_buffer_call env ext i slot).2.mapped = true := by
  unfold rga_mm_map_dma_buffer_call at hok ⊢
  rcases ht with ht | ht
  · rw [ht] at hok ⊢
    simp only [rga_dma_map_fd] at hok ⊢
    cases hd : env.dma_buf_get with
    | none => rw [hd] at hok; simp [EINVAL] at hok
    | some d =>
      rw [hd] at hok
      simp only [] at hok ⊢
      split_ifs at hok ⊢ with h1
      · exact absurd h1 hok
      · rfl
  · rw [ht] at hok ⊢
    simp only [rga_dma_map_buf] at hok ⊢
    split_ifs at hok ⊢ with h1
    · exact absurd h1 hok
    · rfl

theorem set_slot_slot_self (ib : rga_internal_buffer) (n : Nat) (x : rga_dma_buffer)
    (a : List rga_dma_buffer) (hib : ib.dma_buffer = some a) (hn : n < a.length) :
    (ib.set_slot n x).slot n = x := by
  unfold rga_internal_buffer.set_slot rga_internal_buffer.slot rga_internal_buffer.slots
  rw [hib]
  simp only [Option.map_some', Option.getD_some, List.getD_eq_getElem?_getD]
  rw [List.getElem?_set]
  simp [hn]

/-- When the loop of rga_mm_map_dma_buffer ends normally for a shared buffer,
the slot of the first engine holds a mapping, whatever that engine is. -/
theorem map_dma_buffer_loop_first_slot (env : rga_import_env) (ext : rga_external_buffer)
    (ht : ext.type = rga_memory_type.RGA_DMA_BUFFER ∨
      ext.type = rga_memory_type.RGA_DMA_BUFFER_PTR)
    (c0 : Nat) (rest : List Nat) (ib : rga_internal_buffer) (a : List rga_dma_buffer)
    (hib : ib.dma_buffer = some a) (ha : 0 < a.length)
    (hdone : (rga_mm_map_dma_buffer_loop env ext (c0 :: rest) 0 0 ib).1 = map_exit.done) :
    ((rga_mm_map_dma_buffer_loop env ext (c0 :: rest) 0 0 ib).2.2.slot 0).mapped = true := by
  simp only [rga_mm_map_dma_buffer_loop] at hdone ⊢
  have hns : ¬ (c0 = RGA2_SCHEDULER_CORE0 ∧ ib.mm_flag &&& RGA_MEM_UNDER_4G = 0 ∧ (0 : Nat) ≠ 0) :=
    fun h => h.2.2 rfl
  rw [if_neg hns] at hdone ⊢
  by_cases hr : (rga_mm_map_dma_buffer_call env ext 0 (ib.slot 0)).1 < 0
  · rw [if_pos hr] at hdone
    simp at hdone
  · rw [if_neg hr] at hdone ⊢
    have hm : ((ib.set_slot 0
        { rga_mm_map_dma_buffer_call env ext 0 (ib.slot 0) |>.2 with core := c0 }).slot 0).mapped
        = true := by
      rw [set_slot_slot_self ib 0 _ a hib ha]
      exact map_call_mapped env ext 0 (ib.slot 0) ht hr
    simp only [if_true] at hdone ⊢
    split_ifs at hdone ⊢
    all_goals first
      | (simp at hdone; done)
      | exact hm
      | (rw [(map_dma_buffer_loop_tail env ext rest 1 _ _ (Nat.le_refl 1) hdone).2.1 0
           (by omega)]
         exact hm)

/-- After rga_mm_map_dma_buffer returned without an error code for a shared
buffer and left the slot array in place, the slot of the first engine holds a
mapping. -/
theorem map_dma_buffer_first_slot (scheduler : List Nat) (env : rga_import_env)
    (ext : rga_external_buffer) (ib : rga_internal_buffer)
    (ht : ext.type = rga_memory_type.RGA_DMA_BUFFER ∨
      ext.type = rga_memory_type.RGA_DMA_BUFFER_PTR)
    (hs : scheduler ≠ [])
    (hok : ¬ (rga_mm_map_dma_buffer scheduler env ext ib).1 < 0)
    (hne : (rga_mm_map_dma_buffer scheduler env ext ib).2.dma_buffer ≠ none) :
    ((rga_mm_map_dma_buffer scheduler env ext ib).2.slot 0).mapped = true := by
  unfold rga_mm_map_dma_buffer at hok hne ⊢
  by_cases hk : env.kcalloc_dma_buffer = false
  · rw [if_pos hk] at hok
    simp [ENOMEM] at hok
  · rw [if_neg hk] at hne ⊢
    cases scheduler with
    | nil => exact absurd rfl hs
    | cons c0 rest =>
      have key := map_dma_buffer_loop_first_slot env ext ht c0 rest
        { ib with dma_buffer_size := (c0 :: rest).length,
                  dma_buffer := some (List.replicate (c0 :: rest).length rga_dma_buffer.kzalloc) }
        _ rfl (by simp)
      generalize rga_mm_map_dma_buffer_loop env ext (c0 :: rest) 0 0
        { ib with dma_buffer_size := (c0 :: rest).length,
                  dma_buffer := some (List.replicate (c0 :: rest).length rga_dma_buffer.kzalloc) }
        = L at hne key ⊢
      obtain ⟨ex, ret, ib2⟩ := L
      cases ex with
      | done => exact key rfl
      | FREE_RGA_DMA_BUF =>
        simp only [] at hne
        exact absurd rfl hne

/-- After rga_mm_map_buffer returned without an error code for a shared buffer
and left the slot array in place, the slot of the first engine holds a
mapping. -/
theorem map_buffer_first_slot (scheduler : List Nat) (env : rga_import_env)
    (ext : rga_external_buffer)
    (ht : ext.type = rga_memory_type.RGA_DMA_BUFFER ∨
      ext.type = rga_memory_type.RGA_DMA_BUFFER_PTR)
    (hs : scheduler ≠ [])
    (hok : ¬ (rga_mm_map_buffer scheduler env ext rga_internal_buffer.kzalloc).1 < 0)
    (hne : (rga_mm_map_buffer scheduler env ext rga_internal_buffer.kzalloc).2.dma_buffer
      ≠ none) :
    ((rga_mm_map_buffer scheduler env ext rga_internal_buffer.kzalloc).2.slot 0).mapped
      = true := by
  unfold rga_mm_map_buffer at hok hne ⊢
  rcases ht with ht1 | ht1
  · rw [ht1] at hok hne ⊢
    simp only [] at hok hne ⊢
    split_ifs at hok hne ⊢ with h1
    · exact absurd h1 hok
    · exact map_dma_buffer_first_slot scheduler env ext _ (Or.inl ht1) hs h1 hne
  · rw [ht1] at hok hne ⊢
    simp only [] at hok hne ⊢
    split_ifs at hok hne ⊢ with h1
    · exact absurd h1 hok
    · exact map_dma_buffer_first_slot scheduler env ext _ (Or.inr ht1) hs h1 hne

/-- C20 (as amended): after an import that creates an entry in a state
reached from rga_mm_init, (1) if UNDER_4G is not set in the entry, the slot of
an RGA2 engine holds no mapping and the import does not depend on what the map
primitive would return for that engine, so the primitive is not invoked for
it; this holds whatever the position of the engine for a virtual-address or
physical-address buffer, and in every position but the first for the two
shared-buffer kinds; (2) for the two shared-buffer kinds the slot of the first
engine, whatever the engine and whatever UNDER_4G, holds a mapping whenever
the entry keeps its slot array. -/
theorem C20_rga2_unmapped_above_4g (scheduler : List Nat) (calls : List rga_call)
    (ext : rga_external_buffer) (session : Nat) (env : rga_import_env)
    (hmiss : ((rga_run (rga_boot scheduler) calls).drv.lookup_external ext env).is_found = false)
    (hnew : (rga_mm_import_buffer (rga_run (rga_boot scheduler) calls).drv ext session env).1
      ≠ 0) :
    ∀ e ∈ (rga_mm_import_buffer (rga_run (rga_boot scheduler) calls).drv ext session env
        ).2.entries,
      e.handle = (rga_mm_import_buffer (rga_run (rga_boot scheduler) calls).drv ext session
        env).1 →
      (e.mm_flag &&& RGA_MEM_UNDER_4G = 0 →
        ∀ j, scheduler[j]? = some RGA2_SCHEDULER_CORE0 →
          (ext.type = rga_memory_type.RGA_DMA_BUFFER ∨
            ext.type = rga_memory_type.RGA_DMA_BUFFER_PTR → 1 ≤ j) →
          (e.slot j).mapped = false ∧
          ∀ (a : Int × sg_table) (b : Int × Nat) (c : Nat),
            rga_mm_import_buffer (rga_run (rga_boot scheduler) calls).drv ext session
                (env.with_map_outcome j a b c)
              = rga_mm_import_buffer (rga_run (rga_boot scheduler) calls).drv ext session env) ∧
      (ext.type = rga_memory_type.RGA_DMA_BUFFER ∨
          ext.type = rga_memory_type.RGA_DMA_BUFFER_PTR →
        scheduler ≠ [] → e.dma_buffer ≠ none → (e.slot 0).mapped = true) := by
  obtain ⟨hok, hent⟩ := import_created scheduler calls ext session env hmiss hnew
  obtain ⟨mm2, hd2, _, _⟩ := run_fresh calls (rga_boot scheduler) rga_mm_init rfl
    rga_mm_init_fresh.1 rga_mm_init_fresh.2
  have hsch : (rga_run (rga_boot scheduler) calls).drv.scheduler = scheduler := by rw [hd2]; rfl
  intro e he hh
  obtain ⟨e1, _, _, _, e5⟩ := hent e he hh
  have hs : ∀ k, e.slot k
      = (rga_mm_map_buffer scheduler env ext rga_internal_buffer.kzalloc).2.slot k := by
    intro k
    unfold rga_internal_buffer.slot rga_internal_buffer.slots
    rw [e5]
  refine ⟨?_, ?_⟩
  · intro hf j hj hpos
    rw [e1] at hf
    refine ⟨?_, ?_⟩
    · rw [hs]
      exact map_buffer_rga2 scheduler env ext hok hf j hj hpos
    · intro a b c
      exact import_with_outcome _ ext session env (by rw [hsch]; exact hok)
        (by rw [hsch]; exact hf) j (by rw [hsch]; exact hj) hpos a b c
  · intro ht hne hdb
    rw [hs]
    rw [e5] at hdb
    exact map_buffer_first_slot scheduler env ext ht hne hok hdb

set_option maxRecDepth 8000 in
theorem C20_rga2_unmapped_above_4g_witness :
    ((rga_run (rga_boot sample_scheduler) []).drv.lookup_external
      (sample_request rga_memory_type.RGA_DMA_BUFFER 3) sample_high_env).is_found = false ∧
    (rga_mm_import_buffer (rga_run (rga_boot sample_scheduler) []).drv
      (sample_request rga_memory_type.RGA_DMA_BUFFER 3) 7 sample_high_env).1 ≠ 0 ∧
    (rga_mm_import_buffer (rga_run (rga_boot sample_scheduler) []).drv
      (sample_request rga_memory_type.RGA_DMA_BUFFER 3) 7 sample_high_env).2.entries.map
      (fun e => (e.handle, e.mm_flag &&& RGA_MEM_UNDER_4G,
        e.slots.map (fun s => (s.core, s.mapped))))
      = [(1, 0, [(RGA3_SCHEDULER_CORE0, true), (RGA3_SCHEDULER_CORE1, true), (0, false)])] ∧
    sample_scheduler[2]? = some RGA2_SCHEDULER_CORE0 ∧
    ∀ e ∈ (rga_mm_import_buffer (rga_run (rga_boot sample_scheduler) []).drv
        (sample_request rga_memory_type.RGA_DMA_BUFFER 3) 7 sample_high_env).2.entries,
      e.handle = (rga_mm_import_buffer (rga_run (rga_boot sample_scheduler) []).drv
        (sample_request rga_memory_type.RGA_DMA_BUFFER 3) 7 sample_high_env).1 →
      (e.mm_flag &&& RGA_MEM_UNDER_4G = 0 →
        ∀ j, sample_scheduler[j]? = some RGA2_SCHEDULER_CORE0 →
          ((sample_request rga_memory_type.RGA_DMA_BUFFER 3).type
              = rga_memory_type.RGA_DMA_BUFFER ∨
            (sample_request rga_memory_type.RGA_DMA_BUFFER 3).type
              = rga_memory_type.RGA_DMA_BUFFER_PTR → 1 ≤ j) →
          (e.slot j).mapped = false ∧
          ∀ (a : Int × sg_table) (b : Int × Nat) (c : Nat),
            rga_mm_import_buffer (rga_run (rga_boot sample_scheduler) []).drv
                (sample_request rga_memory_type.RGA_DMA_BUFFER 3) 7
                (sample_high_env.with_map_outcome j a b c)
              = rga_mm_import_buffer (rga_run (rga_boot sample_scheduler) []).drv
                (sample_request rga_memory_type.RGA_DMA_BUFFER 3) 7 sample_high_env) ∧
      ((sample_request rga_memory_type.RGA_DMA_BUFFER 3).type
            = rga_memory_type.RGA_DMA_BUFFER ∨
          (sample_request rga_memory_type.RGA_DMA_BUFFER 3).type
            = rga_memory_type.RGA_DMA_BUFFER_PTR →
        sample_scheduler ≠ [] → e.dma_buffer ≠ none → (e.slot 0).mapped = true) :=
  ⟨by decide, by decide, by decide, by decide,
    C20_rga2_unmapped_above_4g sample_scheduler []
      (sample_request rga_memory_type.RGA_DMA_BUFFER 3) 7 sample_high_env (by decide)
      (by decide)⟩

end RgaMm
